import Mathlib

/-!
Verification of the batched Othello rollout engine
(`CUDA_enhanced_Othello_Rollouts.ipynb`).

The notebook implements, with Numba CUDA kernels:

* `ray_cast board x0 y0 ray player` — device predicate deciding whether a
  ray cast from `(x0, y0)` in direction `ray` hits a bounded line of
  opposing tokens terminated by the mover's token;
* `find_actions` — one thread per `(game, row, col)`: writes `0` for an
  occupied cell, `0` for a cell with no capturing direction, and a fresh
  uniform draw for a legal cell;
* `select_and_step` — per game: a two-phase argmax reduction over the
  score grid (rows first, then row maxima), then capture application
  (each of the 8 threads walks one ray and flips opponent tokens) and a
  pass/played status update;
* `rollout` — the host driver: broadcasts the initial board to all
  `N_GAMES` slots, loops `find_actions`/`select_and_step` alternating
  players while `sum(player_status) < 2*N_GAMES`, then counts tokens and
  returns a winner per game.

The shallow embedding below mirrors that code.  Conventions:

* a board is a total function `Nat → Nat → Nat`; the kernels only access
  coordinates in `[0,8) × [0,8)`, and out-of-bounds reads (which the CUDA
  code never performs: `ray_cast` bound-checks before every read, and the
  flip loop stays inside a capturing run) are given the harmless value 0;
* the two device while-loops (`ray_cast`'s walk and the flip loop of
  `select_and_step`) are embedded with a fuel parameter strictly larger
  than the number of iterations either loop can perform on an 8×8 board;
  fuel-irrelevance is proved where a claim depends on it;
* random draws are values of an abstract stream `Nat → Nat → ℚ`
  (state index → draw index → value); the xoroshiro generator itself is an
  external collaborator of the spec.  One CUDA detail is modelled
  explicitly: the kernel computes its stream index as
  `cuda.grid(1) = blockIdx.x * blockDim.x + threadIdx.x = game*8 + row`,
  so the 8 threads of one row share a stream; the embedding serialises
  their draws in column order;
* the 8 capture rays of one cell are pairwise disjoint (proved below), so
  the concurrent flip threads of `select_and_step` never touch each
  other's cells and the sequential fold over the 8 directions used here
  computes the same board the racing threads do.
-/

/-- Cell grid of one game: a total function; cells hold 0 (empty),
1 (player 1) or 2 (player 2).  The kernels only access coordinates in
`[0,8) × [0,8)`. -/
def Board : Type := Nat → Nat → Nat

/-- Well-formed board: every on-board cell holds 0, 1 or 2. -/
def WF (b : Board) : Prop := ∀ x < 8, ∀ y < 8, b x y ≤ 2

instance : DecidablePred WF := by
  intro b
  unfold WF
  infer_instance

/-- Bounds test used (in this order) by `ray_cast`:
`x < 0 or y < 0 or x >= 8 or y >= 8` negated. -/
def inb (x y : Int) : Bool := decide (0 ≤ x ∧ 0 ≤ y ∧ x < 8 ∧ y < 8)

/-- Guarded board read at integer coordinates.  The CUDA code only reads
in bounds; out-of-bounds reads return 0 here and are never hit by the
embedded control flow on well-formed inputs. -/
def bget (b : Board) (x y : Int) : Nat :=
  if inb x y then b x.toNat y.toNat else 0

/-- Guarded board write at integer coordinates. -/
def bset (b : Board) (x y : Int) (v : Nat) : Board :=
  fun a c => if inb x y ∧ a = x.toNat ∧ c = y.toNat then v else b a c

/-- The direction table `RAYS` of the notebook, as `(dx, dy)` pairs
(`dx` is added to the row coordinate, `dy` to the column coordinate):
east, west, south, north, southeast, southwest, northeast, northwest.
Indices ≥ 8 are never used by the kernels. -/
def RAYS : Nat → Int × Int
  | 0 => (0, 1)
  | 1 => (0, -1)
  | 2 => (1, 0)
  | 3 => (-1, 0)
  | 4 => (1, 1)
  | 5 => (1, -1)
  | 6 => (-1, 1)
  | 7 => (-1, -1)
  | _ => (0, 0)

/-- The `while x >= 0 and y >= 0 and x < 8 and y < 8` walk of `ray_cast`:
stop with `false` on an empty cell, with `true` on the mover's token,
otherwise keep stepping; leaving the board gives `false`.  `fuel` bounds
the number of iterations; the walk of the CUDA loop leaves the board
after at most 8 steps, and `ray_cast` passes fuel 16. -/
def rayLoop (b : Board) (p : Nat) (dx dy : Int) : Nat → Int → Int → Bool
  | 0, _, _ => false
  | fuel + 1, x, y =>
    if inb x y then
      if bget b x y = 0 then false
      else if bget b x y = p then true
      else rayLoop b p dx dy fuel (x + dx) (y + dy)
    else false

/-- The device function `ray_cast(board, x0, y0, ray, player)`: step one
cell in the ray direction; if that is off the board or not the opponent,
return false; otherwise walk on from the second step. -/
def ray_cast (b : Board) (x0 y0 : Int) (ray : Int × Int) (p : Nat) : Bool :=
  let opponent := 3 - p
  let x := x0 + ray.1
  let y := y0 + ray.2
  if inb x y = true ∧ bget b x y = opponent then
    rayLoop b p ray.1 ray.2 16 (x + ray.1) (y + ray.2)
  else false

/-- Direction scan of the `find_actions` kernel from direction index `i`
with `rem` directions left: returns whether some ray hits (the loop's
early `return` on the first hit) together with the number of `ray_cast`
invocations performed. -/
def dirScanFrom (b : Board) (x y : Int) (p : Nat) : Nat → Nat → Bool × Nat
  | _, 0 => (false, 0)
  | i, rem + 1 =>
    if ray_cast b x y (RAYS i) p then (true, 1)
    else
      let r := dirScanFrom b x y p (i + 1) rem
      (r.1, r.2 + 1)

/-- The `for i in range(8)` scan of `find_actions`. -/
def dirScan (b : Board) (x y : Int) (p : Nat) : Bool × Nat :=
  dirScanFrom b x y p 0 8

/-- One thread of the `find_actions` kernel, at cell `(tx, ty)` of one
game.  `draw` is the value the thread's `xoroshiro128p_uniform_float32`
call would return.  Result: the score written to `action_probs` for this
cell, and whether the draw was consumed (a draw happens only on the
branch that found a capturing ray).  An occupied cell returns before any
ray is cast. -/
def find_actions_cell (draw : ℚ) (b : Board) (p : Nat) (tx ty : Nat) :
    ℚ × Bool :=
  if b tx ty ≠ 0 then (0, false)
  else if (dirScan b tx ty p).1 then (draw, true)
  else (0, false)

/-- Number of `ray_cast` invocations one `find_actions` thread performs:
0 for an occupied cell (the occupancy check precedes all ray casting),
otherwise the position of the first capturing direction in table order
(or 8 when none hits). -/
def find_actions_rays (b : Board) (p : Nat) (tx ty : Nat) : Nat :=
  if b tx ty ≠ 0 then 0 else (dirScan b tx ty p).2

/-- One step of the `argmax` scans of `select_and_step`:
`if f i > current_max: current_max, current_idx := f i, i`. -/
def amStep (f : Nat → ℚ) (acc : ℚ × Nat) (i : Nat) : ℚ × Nat :=
  if acc.1 < f i then (f i, i) else acc

/-- The scan `current_max, current_idx := 0, 0; for i in range(n): ...`
shared by both reduction phases of `select_and_step`. -/
def scanMax (f : Nat → ℚ) : Nat → ℚ × Nat
  | 0 => (0, 0)
  | j + 1 => amStep f (scanMax f j) j

/-- Move-score grid of one game. -/
def Probs : Type := Nat → Nat → ℚ

/-- Phase 1 of the reduction: thread `tx` scans row `tx` of the score
grid, producing `(row_max[tx], row_max_idx[tx])`. -/
def rowArg (pr : Probs) (tx : Nat) : ℚ × Nat :=
  scanMax (fun i => pr tx i) 8

/-- Phase 2 of the reduction (thread 0): scan the row maxima; if the
overall maximum is positive the chosen cell is
`(current_idx, row_max_idx[current_idx])`, otherwise the sentinel
`(-1, -1)`. -/
def chosen (pr : Probs) : Int × Int :=
  let s := scanMax (fun i => (rowArg pr i).1) 8
  if 0 < s.1 then ((s.2 : Int), ((rowArg pr s.2).2 : Int)) else (-1, -1)

/-- The `while boards[bx, x, y] == opponent` flip walk of one capture
thread: flip the opponent token and step.  On a hit ray the walk stops
at the mover's terminating token, strictly inside the board; fuel 8 is
more than any capturing run's length (at most 6), and fuel-irrelevance
is proved below. -/
def flipLoop (p : Nat) (dx dy : Int) : Nat → Board → Int → Int → Board
  | 0, b, _, _ => b
  | fuel + 1, b, x, y =>
    if bget b x y = 3 - p then
      flipLoop p dx dy fuel (bset b x y p) (x + dx) (y + dy)
    else b

/-- Capture application of `select_and_step`: each of the 8 threads
computes `ray_cast` for its direction from the selected cell and, on a
hit, runs the flip walk from one step out.  The 8 rays are pairwise
disjoint (proved below), so the concurrent threads write disjoint cells
and the sequential fold in direction order computes the same board. -/
def execRays (b : Board) (p : Nat) (ax ay : Int) : Board :=
  (List.range 8).foldl
    (fun bb i =>
      if ray_cast b ax ay (RAYS i) p then
        flipLoop p (RAYS i).1 (RAYS i).2 8 bb
          (ax + (RAYS i).1) (ay + (RAYS i).2)
      else bb)
    b

/-- The `select_and_step` kernel for one game: two-phase argmax, then
either a pass (sentinel action: board untouched, status 1) or capture
application followed by thread 0 placing the mover's token on the
selected cell and recording status 0 (played).  The second component is
the value written to `player_status[bx][player-1]`. -/
def select_and_step (pr : Probs) (b : Board) (p : Nat) : Board × Nat :=
  let a := chosen pr
  if a.1 = -1 then (b, 1)
  else (bset (execRays b p a.1 a.2) a.1 a.2 p, 0)

/-- Number of games in the batch (`N_GAMES = 32` in the notebook). -/
def N_GAMES : Nat := 32

/-- Abstract random stream: `stream t i` is the `i`-th value drawn from
xoroshiro state `t`.  The generator is an external collaborator; the
driver allocates `8*8*N_GAMES` states with `seed=1` once, at module
scope, and never re-seeds between `rollout` invocations. -/
def DrawStream : Type := Nat → Nat → ℚ

/-- The `find_actions` threads of one row of one game.  All 8 threads of
row `tx` of game `g` compute the same stream index
`cuda.grid(1) = g*8 + tx`; the embedding serialises their draws in
column order (the CUDA threads race on the shared xoroshiro state, so no
order is guaranteed there).  `pos0` is the stream position before the
row runs.  Result: the scores written for the row's 8 cells, and the
number of draws consumed. -/
def rowScores (stream : DrawStream) (tid pos0 : Nat) (b : Board)
    (p tx : Nat) : (Nat → ℚ) × Nat :=
  (List.range 8).foldl
    (fun acc ty =>
      let r := find_actions_cell (stream tid (pos0 + acc.2)) b p tx ty
      (fun c => if c = ty then r.1 else acc.1 c,
       acc.2 + (if r.2 then 1 else 0)))
    ((fun _ => 0), 0)

/-- State of the batch between kernel launches: the per-game boards, the
per-game status flags (`player_status[g][q]`), the current player, and
the position of every xoroshiro state. -/
structure RState where
  boards : Nat → Board
  status : Nat → Nat → Nat
  player : Nat
  pos : Nat → Nat

/-- Score grid one `find_actions` launch writes for game `g`. -/
def gameProbs (stream : DrawStream) (s : RState) (g : Nat) : Probs :=
  fun tx ty =>
    (rowScores stream (g * 8 + tx) (s.pos (g * 8 + tx)) (s.boards g)
      s.player tx).1 ty

/-- One iteration of the driver's while loop: launch `find_actions`,
launch `select_and_step` (which writes the board and
`player_status[g][player-1]` of every game), then swap the player. -/
def halfStep (stream : DrawStream) (s : RState) : RState :=
  let res : Nat → Board × Nat :=
    fun g => select_and_step (gameProbs stream s g) (s.boards g) s.player
  { boards := fun g => (res g).1
    status := fun g q => if q = s.player - 1 then (res g).2 else s.status g q
    player := 3 - s.player
    pos := fun t =>
      s.pos t +
        (rowScores stream t (s.pos t) (s.boards (t / 8)) s.player
          (t % 8)).2 }

/-- The loop guard `np.sum(player_status) < 2*N_GAMES` reads this sum. -/
def statusSum (st : Nat → Nat → Nat) : Nat :=
  (Finset.range N_GAMES).sum fun g => st g 0 + st g 1

/-- The driver's while loop, with fuel: `none` when the guard is still
true after `fuel` iterations, otherwise the state at loop exit. -/
def loopA (stream : DrawStream) : Nat → RState → Option RState
  | 0, s => if statusSum s.status < 2 * N_GAMES then none else some s
  | fuel + 1, s =>
    if statusSum s.status < 2 * N_GAMES then
      loopA stream fuel (halfStep stream s)
    else some s

/-- State after `Init`: the caller's board broadcast to every game slot
(`np.tile`), all status flags zero, the caller's starting player, and
whatever positions the module-scoped xoroshiro states currently hold. -/
def initState (b0 : Board) (planner : Nat) (pos0 : Nat → Nat) : RState :=
  { boards := fun _ => b0
    status := fun _ _ => 0
    player := planner
    pos := pos0 }

/-- Number of on-board cells of `b` holding value `v`
(`np.bincount(b.flatten(), minlength=3)[v]` for `v ∈ {1, 2}`). -/
def countTok (b : Board) (v : Nat) : Nat :=
  (((Finset.range 8) ×ˢ (Finset.range 8)).filter
    (fun q => b q.1 q.2 = v)).card

/-- Finalization for one game: `argmax([c1, c2]) + 1`, then ties are
overwritten with 0 (`winner[scores[:,0] == scores[:,1]] = 0`). -/
def outcome (b : Board) : Nat :=
  let c1 := countTok b 1
  let c2 := countTok b 2
  if c1 = c2 then 0 else if c1 < c2 then 2 else 1

/-- The host function `rollout(board, planner)`: init, loop, finalize.
Returns the per-game winner vector together with the exit state (whose
`pos` component is the advanced position of the module-scoped xoroshiro
states, carried into the next invocation); `none` if `fuel` iterations
did not reach the exit condition. -/
def rollout (stream : DrawStream) (fuel : Nat) (b0 : Board)
    (planner : Nat) (pos0 : Nat → Nat) : Option ((Nat → Nat) × RState) :=
  (loopA stream fuel (initState b0 planner pos0)).map
    fun s => (fun g => outcome (s.boards g), s)

/-- Number of empty on-board cells of one board. -/
def emptyCount (b : Board) : Nat :=
  (((Finset.range 8) ×ˢ (Finset.range 8)).filter
    (fun q => b q.1 q.2 = 0)).card

/-- Total number of empty cells across the batch. -/
def totalEmpty (s : RState) : Nat :=
  (Finset.range N_GAMES).sum fun g => emptyCount (s.boards g)

/-- Cell `k` steps out from `(x, y)` along direction `(dx, dy)`. -/
def along (x y dx dy : Int) (k : Nat) : Int × Int :=
  (x + (k : Int) * dx, y + (k : Int) * dy)

/-- The cell is on the board and holds neither empty nor the mover: on a
well-formed board this is exactly an opponent token. -/
def cellOpp (b : Board) (p : Nat) (q : Int × Int) : Prop :=
  inb q.1 q.2 = true ∧ bget b q.1 q.2 ≠ 0 ∧ bget b q.1 q.2 ≠ p

/-- The cell is on the board and holds the mover's token. -/
def cellMine (b : Board) (p : Nat) (q : Int × Int) : Prop :=
  inb q.1 q.2 = true ∧ bget b q.1 q.2 = p

/-- Exit condition of the `ray_cast` walk started at `(x, y)`: the
mover's token sits `j` steps out and every cell strictly before it is a
non-empty non-mover cell on the board. -/
def hitAt (b : Board) (p : Nat) (dx dy x y : Int) (j : Nat) : Prop :=
  cellMine b p (along x y dx dy j) ∧ ∀ i < j, cellOpp b p (along x y dx dy i)

theorem along_shift (x y dx dy : Int) (i : Nat) :
    along (x + dx) (y + dy) dx dy i = along x y dx dy (i + 1) := by
  unfold along
  push_cast
  simp only [Prod.mk.injEq]
  exact ⟨by ring, by ring⟩

theorem along_zero (x y dx dy : Int) : along x y dx dy 0 = (x, y) := by
  unfold along
  simp

/-- Characterization of the embedded `ray_cast` walk: it returns true
within `fuel` iterations iff some cell at distance `j < fuel` holds the
mover's token with only non-empty non-mover cells strictly before it. -/
theorem rayLoop_iff (b : Board) (p : Nat) (hp : p ≠ 0) (dx dy : Int) :
    ∀ (fuel : Nat) (x y : Int),
      rayLoop b p dx dy fuel x y = true ↔ ∃ j < fuel, hitAt b p dx dy x y j := by
  intro fuel
  induction fuel with
  | zero => intro x y; simp [rayLoop]
  | succ f ih =>
    intro x y
    rw [rayLoop]
    by_cases hin : inb x y = true
    · rw [if_pos hin]
      by_cases h0 : bget b x y = 0
      · rw [if_pos h0]
        constructor
        · intro h
          exact Bool.noConfusion h
        rintro ⟨j, _, hj⟩
        exfalso
        rcases Nat.eq_zero_or_pos j with rfl | hjpos
        · have := hj.1.2
          rw [along_zero] at this
          exact hp (h0 ▸ this.symm)
        · have := (hj.2 0 hjpos).2.1
          rw [along_zero] at this
          exact this h0
      · rw [if_neg h0]
        by_cases hP : bget b x y = p
        · rw [if_pos hP]
          simp only [true_iff]
          refine ⟨0, Nat.succ_pos f, ⟨?_, by omega⟩⟩
          rw [along_zero]
          exact ⟨hin, hP⟩
        · rw [if_neg hP]
          rw [ih (x + dx) (y + dy)]
          constructor
          · rintro ⟨j, hjf, hj⟩
            refine ⟨j + 1, by omega, ?_, ?_⟩
            · have := hj.1
              rwa [along_shift] at this
            · intro i hi
              rcases i with _ | i
              · rw [along_zero]
                exact ⟨hin, h0, hP⟩
              · have := hj.2 i (by omega)
                rw [along_shift] at this
                exact this
          · rintro ⟨j, hjf, hj⟩
            rcases j with _ | j
            · have := hj.1.2
              rw [along_zero] at this
              exact absurd this hP
            · refine ⟨j, by omega, ?_, ?_⟩
              · have := hj.1
                rw [along_shift]
                exact this
              · intro i hi
                have := hj.2 (i + 1) (by omega)
                rw [along_shift]
                exact this
    · rw [if_neg hin]
      constructor
      · intro h
        exact Bool.noConfusion h
      rintro ⟨j, _, hj⟩
      exfalso
      rcases Nat.eq_zero_or_pos j with rfl | hjpos
      · have := hj.1.1
        rw [along_zero] at this
        exact hin this
      · have := (hj.2 0 hjpos).1
        rw [along_zero] at this
        exact hin this

theorem inb_iff (x y : Int) : inb x y = true ↔ 0 ≤ x ∧ 0 ≤ y ∧ x < 8 ∧ y < 8 := by
  simp [inb]

theorem bget_le (b : Board) (hwf : WF b) (x y : Int) : bget b x y ≤ 2 := by
  unfold bget
  split
  · next h =>
    rw [inb_iff] at h
    exact hwf _ (by omega) _ (by omega)
  · omega

/-- On a well-formed board, "non-empty and not the mover" is exactly
"the opponent's token" (for a real mover 1 or 2). -/
theorem cellOpp_iff (b : Board) (p : Nat) (hwf : WF b) (hp : p = 1 ∨ p = 2)
    (q : Int × Int) :
    cellOpp b p q ↔ inb q.1 q.2 = true ∧ bget b q.1 q.2 = 3 - p := by
  have hle := bget_le b hwf q.1 q.2
  unfold cellOpp
  constructor
  · rintro ⟨h1, h2, h3⟩
    rcases hp with rfl | rfl <;> exact ⟨h1, by omega⟩
  · rintro ⟨h1, h2⟩
    rcases hp with rfl | rfl <;> exact ⟨h1, by omega, by omega⟩

theorem along_one (x y dx dy : Int) : along x y dx dy 1 = (x + dx, y + dy) := by
  unfold along
  simp

/-- Specification predicate, phrased from the spec text: starting one
step from the origin in the given direction there is a line of `n ≥ 1`
opposing tokens, all on the board with no empty cell in between, and the
cell immediately after the line holds the mover's token.  Such a line is
automatically maximal: the token ending it is the mover's. -/
def specCapture (b : Board) (x0 y0 : Int) (d : Int × Int) (p : Nat) : Prop :=
  ∃ n : Nat, 1 ≤ n ∧
    (∀ k, 1 ≤ k → k ≤ n →
      inb (along x0 y0 d.1 d.2 k).1 (along x0 y0 d.1 d.2 k).2 = true ∧
      bget b (along x0 y0 d.1 d.2 k).1 (along x0 y0 d.1 d.2 k).2 = 3 - p) ∧
    cellMine b p (along x0 y0 d.1 d.2 (n + 1))

theorem ray_cast_eq (b : Board) (x0 y0 : Int) (r : Int × Int) (p : Nat) :
    ray_cast b x0 y0 r p =
      if inb (x0 + r.1) (y0 + r.2) = true ∧
          bget b (x0 + r.1) (y0 + r.2) = 3 - p then
        rayLoop b p r.1 r.2 16 (x0 + r.1 + r.1) (y0 + r.2 + r.2)
      else false := rfl

/-- Core correctness of `ray_cast` against the capture-line
specification (helper; the claim-level statement is derived below). -/
theorem ray_cast_iff_spec (b : Board) (x0 y0 : Int) (i p : Nat)
    (hi : i < 8) (hwf : WF b) (hp : p = 1 ∨ p = 2) (hin : inb x0 y0 = true) :
    ray_cast b x0 y0 (RAYS i) p = true ↔ specCapture b x0 y0 (RAYS i) p := by
  have hp0 : p ≠ 0 := by rcases hp with rfl | rfl <;> decide
  rw [ray_cast_eq]
  by_cases hg : inb (x0 + (RAYS i).1) (y0 + (RAYS i).2) = true ∧
      bget b (x0 + (RAYS i).1) (y0 + (RAYS i).2) = 3 - p
  · rw [if_pos hg]
    rw [rayLoop_iff b p hp0 (RAYS i).1 (RAYS i).2 16
      (x0 + (RAYS i).1 + (RAYS i).1) (y0 + (RAYS i).2 + (RAYS i).2)]
    constructor
    · rintro ⟨j, hj16, hhit⟩
      refine ⟨j + 1, by omega, ?_, ?_⟩
      · intro k hk1 hkn
        rcases k with _ | k
        · exact absurd hk1 (by omega)
        rcases k with _ | k
        · rw [along_one]
          exact hg
        · have := hhit.2 k (by omega)
          rw [along_shift, along_shift] at this
          rw [cellOpp_iff b p hwf hp] at this
          exact this
      · have := hhit.1
        rw [along_shift, along_shift] at this
        exact this
    · rintro ⟨n, hn1, hline, hmine⟩
      have hnb : n ≤ 14 := by
        have h1 := hmine.1
        rw [inb_iff] at hin
        rw [inb_iff] at h1
        interval_cases i <;> simp [along, RAYS] at h1 <;> omega
      refine ⟨n - 1, by omega, ?_, ?_⟩
      · rw [along_shift, along_shift]
        have hrw : n - 1 + 1 + 1 = n + 1 := by omega
        rw [hrw]
        exact hmine
      · intro k hk
        rw [along_shift, along_shift]
        rw [cellOpp_iff b p hwf hp]
        exact hline (k + 1 + 1) (by omega) (by omega)
  · rw [if_neg hg]
    constructor
    · intro h
      exact Bool.noConfusion h
    · rintro ⟨n, hn1, hline, hmine⟩
      exfalso
      have := hline 1 le_rfl hn1
      rw [along_one] at this
      exact hg this

/-- Build a board from a list of rows (missing entries are empty). -/
def mkBoard (l : List (List Nat)) : Board :=
  fun x y => (l.getD x []).getD y 0

/-- The standard Othello opening used by the notebook:
`board[[3,4],[3,4]] = 2; board[[3,4],[4,3]] = 1`. -/
def openingBoard : Board := mkBoard
  [[0, 0, 0, 0, 0, 0, 0, 0],
   [0, 0, 0, 0, 0, 0, 0, 0],
   [0, 0, 0, 0, 0, 0, 0, 0],
   [0, 0, 0, 2, 1, 0, 0, 0],
   [0, 0, 0, 1, 2, 0, 0, 0],
   [0, 0, 0, 0, 0, 0, 0, 0],
   [0, 0, 0, 0, 0, 0, 0, 0],
   [0, 0, 0, 0, 0, 0, 0, 0]]

/-- C1: for every well-formed board, every empty on-board origin cell,
every one of the 8 directions and every mover, `ray_cast` returns true
iff there is a line of at least one opposing token starting one step
from the origin in that direction, terminated by a mover's token with no
empty cell in between (all on the board); in particular it returns false
immediately when the first step is off the board or not an opponent
token, and — since the specification side then fails — false when an
empty cell is reached before a mover token and false when the ray runs
off the board. -/
theorem C1_ray_cast_correct (b : Board) (x0 y0 : Int) (i p : Nat)
    (hi : i < 8) (hwf : WF b) (hp : p = 1 ∨ p = 2)
    (hin : inb x0 y0 = true) (hemp : bget b x0 y0 = 0) :
    (ray_cast b x0 y0 (RAYS i) p = true ↔ specCapture b x0 y0 (RAYS i) p) ∧
    ((inb (x0 + (RAYS i).1) (y0 + (RAYS i).2) = false ∨
        bget b (x0 + (RAYS i).1) (y0 + (RAYS i).2) ≠ 3 - p) →
      ray_cast b x0 y0 (RAYS i) p = false) := by
  refine ⟨ray_cast_iff_spec b x0 y0 i p hi hwf hp hin, ?_⟩
  intro h
  rw [ray_cast_eq]
  rw [if_neg]
  rintro ⟨h1, h2⟩
  rcases h with h | h
  · rw [h1] at h
    exact Bool.noConfusion h
  · exact h h2

/-- Witness for C1: on the opening board, player 1 at origin (2,3) in
direction south has a capture, and `ray_cast` agrees. -/
theorem C1_witness : specCapture openingBoard 2 3 (RAYS 2) 1 :=
  ((C1_ray_cast_correct openingBoard 2 3 2 1 (by decide) (by decide)
      (Or.inl rfl) (by decide) (by decide)).1).mp (by decide)

theorem dirScanFrom_pos (b : Board) (x y : Int) (p i rem : Nat)
    (h : ray_cast b x y (RAYS i) p = true) :
    dirScanFrom b x y p i (rem + 1) = (true, 1) := by
  rw [dirScanFrom, if_pos h]

theorem dirScanFrom_neg (b : Board) (x y : Int) (p i rem : Nat)
    (h : ray_cast b x y (RAYS i) p = false) :
    dirScanFrom b x y p i (rem + 1) =
      ((dirScanFrom b x y p (i + 1) rem).1,
        (dirScanFrom b x y p (i + 1) rem).2 + 1) := by
  rw [dirScanFrom, if_neg (by simp [h])]

/-- The direction loop of `find_actions` reports a hit iff one of the
scanned directions has a capturing ray. -/
theorem dirScanFrom_hit (b : Board) (x y : Int) (p : Nat) :
    ∀ rem i, ((dirScanFrom b x y p i rem).1 = true ↔
      ∃ j, i ≤ j ∧ j < i + rem ∧ ray_cast b x y (RAYS j) p = true) := by
  intro rem
  induction rem with
  | zero =>
    intro i
    constructor
    · intro h
      exact Bool.noConfusion h
    · rintro ⟨j, h1, h2, _⟩
      exact absurd h2 (by omega)
  | succ r ih =>
    intro i
    rcases hc : ray_cast b x y (RAYS i) p with _ | _
    · rw [dirScanFrom_neg b x y p i r hc]
      constructor
      · intro h
        obtain ⟨j, h1, h2, h3⟩ := (ih (i + 1)).mp h
        exact ⟨j, by omega, by omega, h3⟩
      · rintro ⟨j, h1, h2, h3⟩
        apply (ih (i + 1)).mpr
        refine ⟨j, ?_, by omega, h3⟩
        rcases Nat.eq_or_lt_of_le h1 with rfl | h4
        · rw [hc] at h3
          exact Bool.noConfusion h3
        · omega
    · rw [dirScanFrom_pos b x y p i r hc]
      constructor
      · intro _
        exact ⟨i, le_rfl, by omega, hc⟩
      · intro _
        rfl

theorem dirScan_hit (b : Board) (x y : Int) (p : Nat) :
    (dirScan b x y p).1 = true ↔ ∃ j < 8, ray_cast b x y (RAYS j) p = true := by
  rw [dirScan, dirScanFrom_hit b x y p 8 0]
  constructor
  · rintro ⟨j, _, h2, h3⟩
    exact ⟨j, by omega, h3⟩
  · rintro ⟨j, h1, h3⟩
    exact ⟨j, by omega, by omega, h3⟩

/-- C2: the score one `find_actions` thread writes is 0 when the cell is
occupied (and then not a single ray is cast, regardless of any would-be
capture), 0 when no direction has a capturing ray, and the thread's
fresh uniform draw otherwise; consequently, for a draw in (0,1), the
score is strictly positive iff the cell is empty and some one of the 8
directions satisfies the ray-cast predicate. -/
theorem C2_find_actions_cell (draw : ℚ) (b : Board) (p tx ty : Nat)
    (hd : 0 < draw ∧ draw < 1) :
    (b tx ty ≠ 0 →
      find_actions_cell draw b p tx ty = (0, false) ∧
      find_actions_rays b p tx ty = 0) ∧
    (b tx ty = 0 → (∀ j < 8, ray_cast b tx ty (RAYS j) p = false) →
      (find_actions_cell draw b p tx ty).1 = 0) ∧
    (b tx ty = 0 → (∃ j < 8, ray_cast b tx ty (RAYS j) p = true) →
      (find_actions_cell draw b p tx ty).1 = draw) ∧
    (0 < (find_actions_cell draw b p tx ty).1 ↔
      b tx ty = 0 ∧ ∃ j < 8, ray_cast b tx ty (RAYS j) p = true) := by
  have hscan := dirScan_hit b tx ty p
  refine ⟨?_, ?_, ?_, ?_⟩
  · intro h
    constructor
    · unfold find_actions_cell
      rw [if_pos h]
    · unfold find_actions_rays
      rw [if_pos h]
  · intro h0 hnone
    have hns : ¬(dirScan b tx ty p).1 = true := by
      rw [hscan]
      rintro ⟨j, hj, hc⟩
      rw [hnone j hj] at hc
      exact Bool.noConfusion hc
    unfold find_actions_cell
    rw [if_neg (fun hc => hc h0), if_neg hns]
  · intro h0 hsome
    unfold find_actions_cell
    rw [if_neg (fun hc => hc h0), if_pos (hscan.mpr hsome)]
  · constructor
    · intro hpos
      by_cases h0 : b tx ty = 0
      · refine ⟨h0, ?_⟩
        by_cases hh : (dirScan b tx ty p).1 = true
        · exact hscan.mp hh
        · exfalso
          unfold find_actions_cell at hpos
          rw [if_neg (fun hc => hc h0), if_neg hh] at hpos
          simp at hpos
      · exfalso
        unfold find_actions_cell at hpos
        rw [if_pos h0] at hpos
        simp at hpos
    · rintro ⟨h0, hsome⟩
      unfold find_actions_cell
      rw [if_neg (fun hc => hc h0), if_pos (hscan.mpr hsome)]
      exact hd.1

/-- Witness for C2: on the opening board with a draw of 1/2, player 1's
thread at the legal cell (2,3) writes the draw itself. -/
theorem C2_witness : (find_actions_cell (1/2) openingBoard 1 2 3).1 = 1/2 :=
  (C2_find_actions_cell (1/2) openingBoard 1 2 3
      ⟨by norm_num, by norm_num⟩).2.2.1 (by decide) (by decide)

/-- Invariant of the `if f i > current_max` scan started at `(0, 0)`:
either nothing exceeded 0 and the state is still `(0, 0)`, or the state
holds a positive value `v = f k` that bounds every scanned entry, with
every entry before `k` strictly below `v` (so `k` is the first index
attaining the maximum). -/
theorem scanMax_inv (f : Nat → ℚ) :
    ∀ n, (scanMax f n = (0, 0) ∧ ∀ i < n, f i ≤ 0) ∨
      (∃ v k, scanMax f n = (v, k) ∧ 0 < v ∧ k < n ∧ v = f k ∧
        (∀ i < n, f i ≤ v) ∧ (∀ i < k, f i < v)) := by
  intro n
  induction n with
  | zero =>
    left
    exact ⟨rfl, fun i hi => absurd hi (by omega)⟩
  | succ m ih =>
    have hstep : scanMax f (m + 1) = amStep f (scanMax f m) m := rfl
    rcases ih with ⟨heq, hle⟩ | ⟨v, k, heq, hpos, hlt, hvk, hub, hfirst⟩
    · by_cases hc : (0 : ℚ) < f m
      · right
        refine ⟨f m, m, ?_, hc, by omega, rfl, ?_, ?_⟩
        · rw [hstep, heq]
          unfold amStep
          rw [if_pos (show ((0 : ℚ), (0 : Nat)).1 < f m from hc)]
        · intro i hi
          rcases Nat.lt_succ_iff_lt_or_eq.mp hi with h | rfl
          · exact le_trans (hle i h) (le_of_lt hc)
          · exact le_rfl
        · intro i hi
          exact lt_of_le_of_lt (hle i hi) hc
      · left
        refine ⟨?_, ?_⟩
        · rw [hstep, heq]
          unfold amStep
          rw [if_neg (show ¬((0 : ℚ), (0 : Nat)).1 < f m from hc)]
        · intro i hi
          rcases Nat.lt_succ_iff_lt_or_eq.mp hi with h | rfl
          · exact hle i h
          · exact le_of_not_lt hc
    · by_cases hc : v < f m
      · right
        refine ⟨f m, m, ?_, lt_trans hpos hc, by omega, rfl, ?_, ?_⟩
        · rw [hstep, heq]
          unfold amStep
          rw [if_pos (show (v, k).1 < f m from hc)]
        · intro i hi
          rcases Nat.lt_succ_iff_lt_or_eq.mp hi with h | rfl
          · exact le_trans (hub i h) (le_of_lt hc)
          · exact le_rfl
        · intro i hi
          exact lt_of_le_of_lt (hub i hi) hc
      · right
        refine ⟨v, k, ?_, hpos, by omega, hvk, ?_, hfirst⟩
        · rw [hstep, heq]
          unfold amStep
          rw [if_neg (show ¬(v, k).1 < f m from hc)]
        · intro i hi
          rcases Nat.lt_succ_iff_lt_or_eq.mp hi with h | rfl
          · exact hub i h
          · exact le_of_not_lt hc

/-- The `row_max` shared array: input of phase 2 of the reduction. -/
def rowMaxes (pr : Probs) : Nat → ℚ := fun i => (rowArg pr i).1

theorem chosen_eq (pr : Probs) :
    chosen pr =
      if 0 < (scanMax (rowMaxes pr) 8).1 then
        (((scanMax (rowMaxes pr) 8).2 : Int),
          ((rowArg pr (scanMax (rowMaxes pr) 8).2).2 : Int))
      else (-1, -1) := rfl

/-- The 8-entry scan computes the maximum (over the entries and 0) and
the first index attaining it, for non-negative entries. -/
theorem scan8_spec (f : Nat → ℚ) (hnn : ∀ j < 8, 0 ≤ f j) :
    (scanMax f 8).2 < 8 ∧ (scanMax f 8).1 = f (scanMax f 8).2 ∧
    (∀ j < 8, f j ≤ (scanMax f 8).1) ∧
    (∀ j < (scanMax f 8).2, f j < (scanMax f 8).1) := by
  rcases scanMax_inv f 8 with ⟨heq, hle⟩ |
    ⟨v, k, heq, hpos, hlt, hvk, hub, hfirst⟩
  · have h0 : ∀ j < 8, f j = 0 := fun j hj => le_antisymm (hle j hj) (hnn j hj)
    rw [heq]
    refine ⟨by decide, (h0 0 (by omega)).symm, ?_, ?_⟩
    · intro j hj
      exact le_of_eq (h0 j hj)
    · intro j hj
      exact absurd (show j < 0 from hj) (by omega)
  · rw [heq]
    exact ⟨hlt, hvk, hub, hfirst⟩

/-- Row maxima are non-negative when the grid is. -/
theorem rowMaxes_nonneg (pr : Probs) (hnn : ∀ i < 8, ∀ j < 8, 0 ≤ pr i j) :
    ∀ i < 8, 0 ≤ rowMaxes pr i := by
  intro i hi
  obtain ⟨hlt, hvk, _, _⟩ := scan8_spec (fun j => pr i j) (hnn i hi)
  unfold rowMaxes rowArg
  rw [hvk]
  exact hnn i hi _ hlt

/-- C4: phase 1 reduces each row of the score grid to its maximum value
and the first column index attaining it; phase 2 reduces the row maxima
to the first row index attaining the grid-wide maximum; a grid-wide
maximum that is not positive yields the sentinel (-1, -1); and a
selected cell carries the strictly greatest score among all cells that
precede it in row-major scan order, so on exact ties the first cell in
row-major order is chosen deterministically in each phase. -/
theorem C4_two_phase_argmax (pr : Probs)
    (hnn : ∀ i < 8, ∀ j < 8, 0 ≤ pr i j) :
    (∀ tx < 8, (rowArg pr tx).2 < 8 ∧
      (rowArg pr tx).1 = pr tx (rowArg pr tx).2 ∧
      (∀ j < 8, pr tx j ≤ (rowArg pr tx).1) ∧
      (∀ j < (rowArg pr tx).2, pr tx j < (rowArg pr tx).1)) ∧
    ((scanMax (rowMaxes pr) 8).2 < 8 ∧
      (scanMax (rowMaxes pr) 8).1 = rowMaxes pr (scanMax (rowMaxes pr) 8).2 ∧
      (∀ i < 8, rowMaxes pr i ≤ (scanMax (rowMaxes pr) 8).1) ∧
      (∀ i < (scanMax (rowMaxes pr) 8).2,
        rowMaxes pr i < (scanMax (rowMaxes pr) 8).1)) ∧
    ((∀ i < 8, ∀ j < 8, pr i j = 0) → chosen pr = (-1, -1)) ∧
    (∀ r c : Nat, chosen pr = ((r : Int), (c : Int)) →
      r < 8 ∧ c < 8 ∧ 0 < pr r c ∧
      (∀ i < 8, ∀ j < 8, pr i j ≤ pr r c) ∧
      (∀ i < 8, ∀ j < 8, i < r ∨ (i = r ∧ j < c) → pr i j < pr r c)) := by
  have hph1 : ∀ tx < 8, (rowArg pr tx).2 < 8 ∧
      (rowArg pr tx).1 = pr tx (rowArg pr tx).2 ∧
      (∀ j < 8, pr tx j ≤ (rowArg pr tx).1) ∧
      (∀ j < (rowArg pr tx).2, pr tx j < (rowArg pr tx).1) :=
    fun tx htx => scan8_spec (fun j => pr tx j) (hnn tx htx)
  have hph2 := scan8_spec (rowMaxes pr) (rowMaxes_nonneg pr hnn)
  refine ⟨hph1, hph2, ?_, ?_⟩
  · intro hz
    rw [chosen_eq]
    rw [if_neg ?_]
    intro hpos
    obtain ⟨hlt2, hvk2, _, _⟩ := hph2
    rw [hvk2, show rowMaxes pr (scanMax (rowMaxes pr) 8).2 =
      (rowArg pr (scanMax (rowMaxes pr) 8).2).1 from rfl] at hpos
    obtain ⟨hlt1, hvk1, _, _⟩ := hph1 _ hlt2
    rw [hvk1] at hpos
    rw [hz _ hlt2 _ hlt1] at hpos
    exact lt_irrefl 0 hpos
  · intro r c hch
    rw [chosen_eq] at hch
    obtain ⟨hlt2, hvk2, hub2, hfirst2⟩ := hph2
    by_cases hpos : 0 < (scanMax (rowMaxes pr) 8).1
    · rw [if_pos hpos] at hch
      have h1 : ((scanMax (rowMaxes pr) 8).2 : Int) = (r : Int) :=
        congrArg Prod.fst hch
      have h2 : (((rowArg pr (scanMax (rowMaxes pr) 8).2).2 : Nat) : Int) =
          (c : Int) := congrArg Prod.snd hch
      have hr : (scanMax (rowMaxes pr) 8).2 = r := by omega
      rw [hr] at h2 hvk2 hfirst2 hlt2
      have hc2 : (rowArg pr r).2 = c := by omega
      obtain ⟨hlt1, hvk1, hub1, hfirst1⟩ := hph1 r hlt2
      have hval : (scanMax (rowMaxes pr) 8).1 = pr r c := by
        rw [hvk2, show rowMaxes pr r = (rowArg pr r).1 from rfl, hvk1, hc2]
      refine ⟨hlt2, ?_, ?_, ?_, ?_⟩
      · rw [← hc2]
        exact hlt1
      · rw [← hval]
        exact hpos
      · intro i hi j hj
        calc pr i j ≤ rowMaxes pr i := (hph1 i hi).2.2.1 j hj
          _ ≤ (scanMax (rowMaxes pr) 8).1 := hub2 i hi
          _ = pr r c := hval
      · intro i hi j hj hij
        rcases hij with hir | ⟨rfl, hjc⟩
        · calc pr i j ≤ rowMaxes pr i := (hph1 i hi).2.2.1 j hj
            _ < (scanMax (rowMaxes pr) 8).1 := hfirst2 i hir
            _ = pr r c := hval
        · calc pr i j < (rowArg pr i).1 := hfirst1 j (by omega)
            _ = pr i c := by rw [hvk1, hc2]
    · rw [if_neg hpos] at hch
      exfalso
      have h1 : (-1 : Int) = (r : Int) := congrArg Prod.fst hch
      omega

/-- Concrete score grid with an exact tie between cells (1,2) and (1,5). -/
def tieGrid : Probs := fun i j =>
  if (i = 1 ∧ j = 2) ∨ (i = 1 ∧ j = 5) ∨ (i = 3 ∧ j = 1) then 1 else 0

theorem tieGrid_nonneg : ∀ i < 8, ∀ j < 8, 0 ≤ tieGrid i j := by
  intro i _ j _
  unfold tieGrid
  split <;> norm_num

set_option maxRecDepth 8000 in
/-- Witness for C4: on a grid with two tied maximal cells the reduction
deterministically selects (1,2), the first in row-major order. -/
theorem C4_witness :
    chosen tieGrid = (1, 2) ∧ 0 < tieGrid 1 2 ∧ tieGrid 1 2 = tieGrid 1 5 := by
  have h := (C4_two_phase_argmax tieGrid tieGrid_nonneg).2.2.2 1 2 (by decide)
  exact ⟨by decide, h.2.2.1, by decide⟩

/-- An all-zero score grid makes phase 2 keep `current_max = 0`, so the
sentinel action (-1, -1) is stored. -/
theorem chosen_zero (pr : Probs) (hz : ∀ i < 8, ∀ j < 8, pr i j = 0) :
    chosen pr = (-1, -1) := by
  have hnn : ∀ i < 8, ∀ j < 8, 0 ≤ pr i j :=
    fun i hi j hj => le_of_eq (hz i hi j hj).symm
  have hph1 : ∀ tx < 8, (rowArg pr tx).2 < 8 ∧
      (rowArg pr tx).1 = pr tx (rowArg pr tx).2 ∧
      (∀ j < 8, pr tx j ≤ (rowArg pr tx).1) ∧
      (∀ j < (rowArg pr tx).2, pr tx j < (rowArg pr tx).1) :=
    fun tx htx => scan8_spec (fun j => pr tx j) (hnn tx htx)
  rw [chosen_eq]
  rw [if_neg ?_]
  intro hpos
  obtain ⟨hlt2, hvk2, _, _⟩ := scan8_spec (rowMaxes pr) (rowMaxes_nonneg pr hnn)
  rw [hvk2, show rowMaxes pr (scanMax (rowMaxes pr) 8).2 =
    (rowArg pr (scanMax (rowMaxes pr) 8).2).1 from rfl] at hpos
  obtain ⟨hlt1, hvk1, _, _⟩ := hph1 _ hlt2
  rw [hvk1] at hpos
  rw [hz _ hlt2 _ hlt1] at hpos
  exact lt_irrefl 0 hpos

theorem select_and_step_pass (pr : Probs) (b : Board) (p : Nat)
    (hz : ∀ i < 8, ∀ j < 8, pr i j = 0) :
    select_and_step pr b p = (b, 1) := by
  unfold select_and_step
  rw [chosen_zero pr hz]
  rfl

set_option maxRecDepth 2000 in
/-- C5: a game whose score grid is all zeros for the current turn gets
no board mutation from `select_and_step`, and the current mover's status
flag for that game is set to 1 ("passed"). -/
theorem C5_pass_on_zero_grid (stream : DrawStream) (s : RState) (g : Nat)
    (hz : ∀ i < 8, ∀ j < 8, gameProbs stream s g i j = 0) :
    (halfStep stream s).boards g = s.boards g ∧
    (halfStep stream s).status g (s.player - 1) = 1 := by
  have h := select_and_step_pass (gameProbs stream s g) (s.boards g) s.player hz
  constructor
  · show (select_and_step (gameProbs stream s g) (s.boards g) s.player).1 =
      s.boards g
    rw [h]
  · show (if s.player - 1 = s.player - 1 then
        (select_and_step (gameProbs stream s g) (s.boards g) s.player).2
      else s.status g (s.player - 1)) = 1
    rw [if_pos rfl, h]

/-- Board with every cell held by player 1 (no legal move for anyone). -/
def onesBoard : Board := fun _ _ => 1

/-- The rational 1/2 as a normalized literal (so that kernel reduction
of comparisons never has to normalize via `Nat.gcd`). -/
def oneHalf : ℚ := Rat.mk' 1 2 (by decide) (Nat.coprime_one_left 2)

/-- Constant stream of draws 1/2. -/
def halfStream : DrawStream := fun _ _ => oneHalf

set_option maxRecDepth 8000 in
/-- Witness for C5: on a batch of full boards, game 0's board is frozen
by the turn and the mover's flag is set to passed. -/
theorem C5_witness :
    (halfStep halfStream (initState onesBoard 1 (fun _ => 0))).boards 0 =
      (initState onesBoard 1 (fun _ => 0)).boards 0 ∧
    (halfStep halfStream (initState onesBoard 1 (fun _ => 0))).status 0 0 = 1 :=
  C5_pass_on_zero_grid halfStream (initState onesBoard 1 (fun _ => 0)) 0
    (by decide)

theorem bget_eval (b : Board) (x y : Int) :
    bget b x y = if inb x y = true then b x.toNat y.toNat else 0 := rfl

theorem bset_eval (b : Board) (x y : Int) (v : Nat) (a c : Nat) :
    bset b x y v a c =
      if inb x y = true ∧ a = x.toNat ∧ c = y.toNat then v else b a c := rfl

/-- A cell write does not affect reads at a different position. -/
theorem bget_bset_ne (b : Board) (u w x y : Int) (v : Nat)
    (h : ¬(x = u ∧ y = w)) :
    bget (bset b u w v) x y = bget b x y := by
  rw [bget_eval, bget_eval]
  by_cases hxy : inb x y = true
  · rw [if_pos hxy, if_pos hxy, bset_eval]
    rw [if_neg ?_]
    rintro ⟨huw, h1, h2⟩
    apply h
    rw [inb_iff] at hxy
    rw [inb_iff] at huw
    constructor <;> omega
  · rw [if_neg hxy, if_neg hxy]

/-- A non-empty read is in bounds (out-of-bounds reads give 0). -/
theorem bget_ne_zero_inb (b : Board) (x y : Int) (h : bget b x y ≠ 0) :
    inb x y = true := by
  rw [bget_eval] at h
  by_cases hxy : inb x y = true
  · exact hxy
  · rw [if_neg hxy] at h
    exact absurd rfl h

/-- A cell at least one step out along a genuine direction is not the
start cell (componentwise). -/
theorem along_ne (x y dx dy : Int) (hd : ¬(dx = 0 ∧ dy = 0)) (k : Nat)
    (hk : 1 ≤ k) :
    ¬((along x y dx dy k).1 = x ∧ (along x y dx dy k).2 = y) := by
  rintro ⟨h1, h2⟩
  unfold along at h1 h2
  simp only [] at h1 h2
  have hk0 : ((k : Int)) ≠ 0 := by omega
  have hx : (k : Int) * dx = 0 := by omega
  have hy : (k : Int) * dy = 0 := by omega
  rcases mul_eq_zero.mp hx with h | h
  · exact absurd h hk0
  · rcases mul_eq_zero.mp hy with h3 | h3
    · exact absurd h3 hk0
    · exact hd ⟨h, h3⟩

/-- Length of the contiguous run of cells holding `t` from `(x, y)`
along `(dx, dy)` (with a fuel bound). -/
def runLen (b : Board) (t : Nat) (dx dy : Int) : Nat → Int → Int → Nat
  | 0, _, _ => 0
  | fuel + 1, x, y =>
    if bget b x y = t then runLen b t dx dy fuel (x + dx) (y + dy) + 1 else 0

/-- `runLen` only reads the cells along the ray. -/
theorem runLen_congr (t : Nat) (dx dy : Int) :
    ∀ (fuel : Nat) (b1 b2 : Board) (x y : Int),
      (∀ k < fuel, bget b1 (along x y dx dy k).1 (along x y dx dy k).2 =
        bget b2 (along x y dx dy k).1 (along x y dx dy k).2) →
      runLen b1 t dx dy fuel x y = runLen b2 t dx dy fuel x y := by
  intro fuel
  induction fuel with
  | zero => intro b1 b2 x y _; rfl
  | succ f ih =>
    intro b1 b2 x y h
    have h0 := h 0 (by omega)
    rw [along_zero] at h0
    rw [runLen, runLen, h0]
    by_cases hc : bget b2 x y = t
    · rw [if_pos hc, if_pos hc]
      rw [ih b1 b2 (x + dx) (y + dy) ?_]
      intro k hk
      rw [along_shift]
      exact h (k + 1) (by omega)
    · rw [if_neg hc, if_neg hc]

/-- `runLen` computes the length of the run when the run genuinely ends
within the fuel bound. -/
theorem runLen_eq_of (b : Board) (t : Nat) (dx dy : Int) :
    ∀ (m fuel : Nat) (x y : Int), m ≤ fuel →
      (∀ k < m, bget b (along x y dx dy k).1 (along x y dx dy k).2 = t) →
      bget b (along x y dx dy m).1 (along x y dx dy m).2 ≠ t →
      runLen b t dx dy fuel x y = m := by
  intro m
  induction m with
  | zero =>
    intro fuel x y _ _ hstop
    rw [along_zero] at hstop
    rcases fuel with _ | f
    · rfl
    · rw [runLen, if_neg hstop]
  | succ n ih =>
    intro fuel x y hmf hrun hstop
    rcases fuel with _ | f
    · omega
    · have h0 := hrun 0 (by omega)
      rw [along_zero] at h0
      rw [runLen, if_pos h0]
      rw [ih f (x + dx) (y + dy) (by omega) ?_ ?_]
      · intro k hk
        rw [along_shift]
        exact hrun (k + 1) (by omega)
      · rw [along_shift]
        exact hstop

/-- Length of the capturing run of opponent tokens that the flip thread
for direction `i` walks from the selected cell. -/
def capLen (b : Board) (p : Nat) (ax ay : Int) (i : Nat) : Nat :=
  runLen b (3 - p) (RAYS i).1 (RAYS i).2 8
    (ax + (RAYS i).1) (ay + (RAYS i).2)

/-- Every direction of the table has a nonzero component. -/
theorem RAYS_ne_zero (i : Nat) (hi : i < 8) :
    ¬((RAYS i).1 = 0 ∧ (RAYS i).2 = 0) := by
  interval_cases i <;> simp [RAYS]

/-- A capturing hit pins down the run: `capLen` is the length `n ≥ 1` of
the opponent line, every cell of the line is on the board holding the
opponent, and the cell after the line holds the mover's token. -/
theorem hit_run (b : Board) (ax ay : Int) (i p : Nat) (hi : i < 8)
    (hwf : WF b) (hp : p = 1 ∨ p = 2) (hin : inb ax ay = true)
    (hhit : ray_cast b ax ay (RAYS i) p = true) :
    1 ≤ capLen b p ax ay i ∧ capLen b p ax ay i ≤ 6 ∧
    (∀ k, 1 ≤ k → k ≤ capLen b p ax ay i →
      inb (along ax ay (RAYS i).1 (RAYS i).2 k).1
        (along ax ay (RAYS i).1 (RAYS i).2 k).2 = true ∧
      bget b (along ax ay (RAYS i).1 (RAYS i).2 k).1
        (along ax ay (RAYS i).1 (RAYS i).2 k).2 = 3 - p) ∧
    cellMine b p (along ax ay (RAYS i).1 (RAYS i).2 (capLen b p ax ay i + 1)) := by
  have hp3 : p ≠ 3 - p := by rcases hp with rfl | rfl <;> decide
  obtain ⟨n, hn1, hline, hmine⟩ :=
    (ray_cast_iff_spec b ax ay i p hi hwf hp hin).mp hhit
  have hn6 : n ≤ 6 := by
    have h1 := hmine.1
    rw [inb_iff] at hin
    rw [inb_iff] at h1
    interval_cases i <;> simp [along, RAYS] at h1 <;> omega
  have hcap : capLen b p ax ay i = n := by
    unfold capLen
    apply runLen_eq_of b (3 - p) (RAYS i).1 (RAYS i).2 n 8
      (ax + (RAYS i).1) (ay + (RAYS i).2) (by omega)
    · intro k hk
      rw [along_shift]
      exact (hline (k + 1) (by omega) (by omega)).2
    · rw [along_shift]
      rw [hmine.2]
      exact hp3
  rw [hcap]
  exact ⟨hn1, hn6, fun k h1 h2 => hline k h1 h2, hmine⟩

/-- Board after flipping the `m` cells of a run starting at `(x, y)`
along `(dx, dy)` to the mover's token. -/
def setRun (b : Board) (p : Nat) (x y dx dy : Int) (m : Nat) : Board :=
  fun a c =>
    if ∃ k < m, inb (along x y dx dy k).1 (along x y dx dy k).2 = true ∧
        a = (along x y dx dy k).1.toNat ∧ c = (along x y dx dy k).2.toNat
    then p else b a c

/-- The flip walk flips exactly the opponent run in front of it: if the
run from `(x, y)` has length `m` (and genuinely ends) and the fuel is at
least `m`, the result is `setRun` — independent of the fuel. -/
theorem flipLoop_spec (p : Nat) (hp : p = 1 ∨ p = 2) (dx dy : Int)
    (hd : ¬(dx = 0 ∧ dy = 0)) :
    ∀ (m fuel : Nat) (b : Board) (x y : Int), m ≤ fuel →
      (∀ k < m, bget b (along x y dx dy k).1 (along x y dx dy k).2 = 3 - p) →
      bget b (along x y dx dy m).1 (along x y dx dy m).2 ≠ 3 - p →
      flipLoop p dx dy fuel b x y = setRun b p x y dx dy m := by
  have h30 : 3 - p ≠ 0 := by rcases hp with rfl | rfl <;> decide
  intro m
  induction m with
  | zero =>
    intro fuel b x y _ _ hstop
    rw [along_zero] at hstop
    have hsr : setRun b p x y dx dy 0 = b := by
      funext a c
      unfold setRun
      rw [if_neg ?_]
      rintro ⟨k, hk, _⟩
      omega
    rw [hsr]
    rcases fuel with _ | f
    · rfl
    · rw [flipLoop, if_neg hstop]
  | succ n ih =>
    intro fuel b x y hmf hrun hstop
    rcases fuel with _ | f
    · omega
    have h0 : bget b x y = 3 - p := by
      have := hrun 0 (by omega)
      rwa [along_zero] at this
    have hinb0 : inb x y = true := by
      apply bget_ne_zero_inb b x y
      rw [h0]
      exact h30
    rw [flipLoop, if_pos h0]
    rw [ih f (bset b x y p) (x + dx) (y + dy) (by omega) ?_ ?_]
    · funext a c
      unfold setRun
      by_cases hc1 : ∃ k < n,
          inb (along (x + dx) (y + dy) dx dy k).1
            (along (x + dx) (y + dy) dx dy k).2 = true ∧
          a = (along (x + dx) (y + dy) dx dy k).1.toNat ∧
          c = (along (x + dx) (y + dy) dx dy k).2.toNat
      · rw [if_pos hc1, if_pos ?_]
        obtain ⟨k, hk, hin, ha, hcc⟩ := hc1
        rw [along_shift] at hin ha hcc
        exact ⟨k + 1, by omega, hin, ha, hcc⟩
      · rw [if_neg hc1]
        rw [bset_eval]
        by_cases hc0 : a = x.toNat ∧ c = y.toNat
        · rw [if_pos ⟨hinb0, hc0.1, hc0.2⟩, if_pos ?_]
          refine ⟨0, by omega, ?_, ?_, ?_⟩
          · rw [along_zero]
            exact hinb0
          · rw [along_zero]
            exact hc0.1
          · rw [along_zero]
            exact hc0.2
        · rw [if_neg ?_, if_neg ?_]
          · rintro ⟨k, hk, hin, ha, hcc⟩
            rcases k with _ | k
            · rw [along_zero] at ha hcc
              exact hc0 ⟨ha, hcc⟩
            · apply hc1
              refine ⟨k, by omega, ?_, ?_, ?_⟩ <;> rw [along_shift]
              · exact hin
              · exact ha
              · exact hcc
          · rintro ⟨hin0, ha, hcc⟩
            exact hc0 ⟨ha, hcc⟩
    · intro k hk
      rw [along_shift]
      rw [bget_bset_ne b x y (along x y dx dy (k + 1)).1
        (along x y dx dy (k + 1)).2 p (along_ne x y dx dy hd (k + 1) (by omega))]
      exact hrun (k + 1) (by omega)
    · rw [along_shift]
      rw [bget_bset_ne b x y (along x y dx dy (n + 1)).1
        (along x y dx dy (n + 1)).2 p (along_ne x y dx dy hd (n + 1) (by omega))]
      exact hstop

/-- Distinct directions of the table reach distinct cells: the capture
rays of one origin are pairwise disjoint, so the 8 concurrent flip
threads of `select_and_step` never touch each other's cells. -/
theorem rays_disjoint (ax ay : Int) (i j : Nat) (hi : i < 8) (hj : j < 8)
    (hij : i ≠ j) (k l : Nat) (hk : 1 ≤ k) (hl : 1 ≤ l) :
    ¬((along ax ay (RAYS i).1 (RAYS i).2 k).1 =
        (along ax ay (RAYS j).1 (RAYS j).2 l).1 ∧
      (along ax ay (RAYS i).1 (RAYS i).2 k).2 =
        (along ax ay (RAYS j).1 (RAYS j).2 l).2) := by
  rintro ⟨h1, h2⟩
  unfold along at h1 h2
  simp only [] at h1 h2
  interval_cases i <;> interval_cases j <;> simp [RAYS] at h1 h2 <;> omega

/-- The cell `(a, c)` is flipped by the capture thread of direction `i`:
the ray hits, and the cell sits strictly between the selected cell and
the terminating token of that ray. -/
def capCell (b : Board) (p : Nat) (ax ay : Int) (i : Nat) (a c : Nat) :
    Prop :=
  ray_cast b ax ay (RAYS i) p = true ∧
  ∃ k < capLen b p ax ay i + 1, 1 ≤ k ∧
    inb (along ax ay (RAYS i).1 (RAYS i).2 k).1
      (along ax ay (RAYS i).1 (RAYS i).2 k).2 = true ∧
    a = (along ax ay (RAYS i).1 (RAYS i).2 k).1.toNat ∧
    c = (along ax ay (RAYS i).1 (RAYS i).2 k).2.toNat

instance capCell.instDec (b : Board) (p : Nat) (ax ay : Int) (i a c : Nat) :
    Decidable (capCell b p ax ay i a c) := by
  unfold capCell
  infer_instance

/-- Board after the capture threads of the first `n` directions ran. -/
def capBoard (b : Board) (p : Nat) (ax ay : Int) (n : Nat) : Board :=
  fun a c => if ∃ i < n, capCell b p ax ay i a c then p else b a c

theorem capBoard_zero (b : Board) (p : Nat) (ax ay : Int) :
    capBoard b p ax ay 0 = b := by
  funext a c
  unfold capBoard
  rw [if_neg ?_]
  rintro ⟨i, hi, _⟩
  omega

theorem bget_capBoard (b : Board) (p : Nat) (ax ay : Int) (n : Nat)
    (x y : Int) :
    bget (capBoard b p ax ay n) x y =
      if inb x y = true ∧ ∃ i < n, capCell b p ax ay i x.toNat y.toNat
      then p else bget b x y := by
  rw [bget_eval, bget_eval]
  by_cases hxy : inb x y = true
  · rw [if_pos hxy]
    unfold capBoard
    by_cases hex : ∃ i < n, capCell b p ax ay i x.toNat y.toNat
    · rw [if_pos hex, if_pos ⟨hxy, hex⟩]
    · rw [if_neg hex, if_neg (fun h => hex h.2), if_pos hxy]
  · rw [if_neg hxy, if_neg hxy, if_neg (fun h => hxy h.1)]

theorem setRun_eval (b : Board) (p : Nat) (x y dx dy : Int) (m : Nat)
    (a c : Nat) :
    setRun b p x y dx dy m a c =
      if ∃ k < m, inb (along x y dx dy k).1 (along x y dx dy k).2 = true ∧
          a = (along x y dx dy k).1.toNat ∧ c = (along x y dx dy k).2.toNat
      then p else b a c := rfl

theorem capBoard_eval (b : Board) (p : Nat) (ax ay : Int) (n : Nat)
    (a c : Nat) :
    capBoard b p ax ay n a c =
      if ∃ i < n, capCell b p ax ay i a c then p else b a c := rfl

/-- Capture application of `select_and_step` computes `capBoard`: each
hit direction flips exactly its opponent run.  Each thread's ray lies on
cells no other thread writes (`rays_disjoint`), so the fold in direction
order used by the embedding computes the board the concurrent threads
produce, with every ray evaluated against the pre-move board. -/
theorem execRays_eq (b : Board) (p : Nat) (ax ay : Int) (hwf : WF b)
    (hp : p = 1 ∨ p = 2) (hin : inb ax ay = true) :
    execRays b p ax ay = capBoard b p ax ay 8 := by
  have hp3 : p ≠ 3 - p := by rcases hp with rfl | rfl <;> decide
  have key : ∀ n, n ≤ 8 →
      (List.range n).foldl
        (fun bb i =>
          if ray_cast b ax ay (RAYS i) p then
            flipLoop p (RAYS i).1 (RAYS i).2 8 bb
              (ax + (RAYS i).1) (ay + (RAYS i).2)
          else bb)
        b = capBoard b p ax ay n := by
    intro n
    induction n with
    | zero =>
      intro _
      rw [List.range_zero, List.foldl_nil, capBoard_zero]
    | succ m ih =>
      intro hm8
      rw [List.range_succ, List.foldl_append, List.foldl_cons, List.foldl_nil]
      rw [ih (by omega)]
      show (if ray_cast b ax ay (RAYS m) p then
          flipLoop p (RAYS m).1 (RAYS m).2 8 (capBoard b p ax ay m)
            (ax + (RAYS m).1) (ay + (RAYS m).2)
        else capBoard b p ax ay m) = capBoard b p ax ay (m + 1)
      by_cases hhit : ray_cast b ax ay (RAYS m) p = true
      · rw [if_pos hhit]
        obtain ⟨hm1, hm6, hline, hmine⟩ :=
          hit_run b ax ay m p (by omega) hwf hp hin hhit
        have hagree : ∀ k, 1 ≤ k →
            bget (capBoard b p ax ay m)
              (along ax ay (RAYS m).1 (RAYS m).2 k).1
              (along ax ay (RAYS m).1 (RAYS m).2 k).2 =
            bget b (along ax ay (RAYS m).1 (RAYS m).2 k).1
              (along ax ay (RAYS m).1 (RAYS m).2 k).2 := by
          intro k hk
          rw [bget_capBoard]
          rw [if_neg ?_]
          rintro ⟨hinp, i, hilt, hcap⟩
          obtain ⟨_, k2, hk2lt, hk21, hinp2, ha2, hc2⟩ := hcap
          apply rays_disjoint ax ay m i (by omega) (by omega) (by omega)
            k k2 hk hk21
          rw [inb_iff] at hinp hinp2
          constructor <;> omega
        rw [flipLoop_spec p hp (RAYS m).1 (RAYS m).2
          (RAYS_ne_zero m (by omega)) (capLen b p ax ay m) 8
          (capBoard b p ax ay m) (ax + (RAYS m).1) (ay + (RAYS m).2)
          (by omega) ?_ ?_]
        · funext a c
          rw [setRun_eval, capBoard_eval, capBoard_eval]
          by_cases hCL : ∃ k < capLen b p ax ay m,
              inb (along (ax + (RAYS m).1) (ay + (RAYS m).2)
                  (RAYS m).1 (RAYS m).2 k).1
                (along (ax + (RAYS m).1) (ay + (RAYS m).2)
                  (RAYS m).1 (RAYS m).2 k).2 = true ∧
              a = (along (ax + (RAYS m).1) (ay + (RAYS m).2)
                  (RAYS m).1 (RAYS m).2 k).1.toNat ∧
              c = (along (ax + (RAYS m).1) (ay + (RAYS m).2)
                  (RAYS m).1 (RAYS m).2 k).2.toNat
          · rw [if_pos hCL, if_pos ?_]
            obtain ⟨k, hklt, hinp, ha, hc⟩ := hCL
            rw [along_shift] at hinp ha hc
            refine ⟨m, by omega, hhit, k + 1, by omega, by omega,
              hinp, ha, hc⟩
          · rw [if_neg hCL]
            by_cases hCm : ∃ i < m, capCell b p ax ay i a c
            · rw [if_pos hCm, if_pos ?_]
              obtain ⟨i, hilt, hcap⟩ := hCm
              exact ⟨i, by omega, hcap⟩
            · rw [if_neg hCm, if_neg ?_]
              rintro ⟨i, hilt, hcap⟩
              rcases Nat.lt_succ_iff_lt_or_eq.mp hilt with hlt | rfl
              · exact hCm ⟨i, hlt, hcap⟩
              · apply hCL
                obtain ⟨_, k2, hk2lt, hk21, hinp2, ha2, hc2⟩ := hcap
                refine ⟨k2 - 1, by omega, ?_, ?_, ?_⟩ <;>
                  rw [along_shift, show k2 - 1 + 1 = k2 from by omega]
                · exact hinp2
                · exact ha2
                · exact hc2
        · intro k hk
          rw [along_shift]
          rw [hagree (k + 1) (by omega)]
          exact (hline (k + 1) (by omega) (by omega)).2
        · rw [along_shift]
          rw [hagree (capLen b p ax ay m + 1) (by omega)]
          rw [hmine.2]
          exact hp3
      · rw [if_neg hhit]
        funext a c
        rw [capBoard_eval, capBoard_eval]
        by_cases hCm : ∃ i < m, capCell b p ax ay i a c
        · rw [if_pos hCm, if_pos ?_]
          obtain ⟨i, hilt, hcap⟩ := hCm
          exact ⟨i, by omega, hcap⟩
        · rw [if_neg hCm, if_neg ?_]
          rintro ⟨i, hilt, hcap⟩
          rcases Nat.lt_succ_iff_lt_or_eq.mp hilt with hlt | rfl
          · exact hCm ⟨i, hlt, hcap⟩
          · exact hhit hcap.1
  exact key 8 le_rfl

/-- When a cell was selected (no sentinel), `select_and_step` applies
the capture rule and reports status 0 ("played"). -/
theorem select_and_step_play (pr : Probs) (b : Board) (p r c : Nat)
    (hch : chosen pr = ((r : Int), (c : Int))) :
    select_and_step pr b p =
      (bset (execRays b p r c) r c p, 0) := by
  unfold select_and_step
  rw [hch]
  have hne : ¬((r : Int), (c : Int)).1 = -1 := by
    show ¬(r : Int) = -1
    omega
  rw [if_neg hne]

theorem scanMax_congr (f g : Nat → ℚ) :
    ∀ n, (∀ i < n, f i = g i) → scanMax f n = scanMax g n := by
  intro n
  induction n with
  | zero => intro _; rfl
  | succ m ih =>
    intro h
    rw [scanMax, scanMax, ih (fun i hi => h i (by omega))]
    unfold amStep
    rw [h m (by omega)]

set_option maxRecDepth 4000 in
/-- The reduction reads only the 64 on-grid scores. -/
theorem chosen_congr (pr1 pr2 : Probs)
    (h : ∀ i < 8, ∀ j < 8, pr1 i j = pr2 i j) :
    chosen pr1 = chosen pr2 := by
  have hrow : ∀ i < 8, rowArg pr1 i = rowArg pr2 i :=
    fun i hi => scanMax_congr _ _ 8 (fun j hj => h i hi j hj)
  have hmax : scanMax (rowMaxes pr1) 8 = scanMax (rowMaxes pr2) 8 := by
    apply scanMax_congr _ _ 8
    intro i hi
    show (rowArg pr1 i).1 = (rowArg pr2 i).1
    rw [hrow i hi]
  have hidx : (scanMax (rowMaxes pr2) 8).2 < 8 := by
    rcases scanMax_inv (rowMaxes pr2) 8 with ⟨heq, _⟩ |
      ⟨v, k, heq, _, hlt, _, _, _⟩
    · rw [heq]
      decide
    · rw [heq]
      exact hlt
  rw [chosen_eq, chosen_eq, hmax, hrow _ hidx]

set_option maxRecDepth 8000 in
/-- The `select_and_step` block of game `g` reads and writes only game
`g`'s board, scores and status: its result depends only on that game's
own state (so no other game's board is mutated by it). -/
theorem halfStep_local (stream : DrawStream) (s1 s2 : RState) (g : Nat)
    (hb : s1.boards g = s2.boards g) (hpl : s1.player = s2.player)
    (hpos : ∀ tx < 8, s1.pos (g * 8 + tx) = s2.pos (g * 8 + tx)) :
    (halfStep stream s1).boards g = (halfStep stream s2).boards g := by
  show (select_and_step (gameProbs stream s1 g) (s1.boards g) s1.player).1 =
    (select_and_step (gameProbs stream s2 g) (s2.boards g) s2.player).1
  rw [hb, hpl]
  have hpr : chosen (gameProbs stream s1 g) =
      chosen (gameProbs stream s2 g) := by
    apply chosen_congr
    intro i hi j hj
    unfold gameProbs
    rw [hpos i hi, hb, hpl]
  unfold select_and_step
  rw [hpr]

/-- C3: when `select_and_step` selects cell `(r, c)` for a game, then
after the update the selected cell holds the mover's token and the
status is "played"; along every direction whose ray-cast holds from the
selected cell, every opponent token strictly between the selected cell
and the terminating mover token (which exists, on the board) is flipped
to the mover; every cell that is neither the selected cell nor on such a
capturing run is unchanged; and the block of one game reads and writes
only that game's state, so no other game's board is mutated. -/
theorem C3_apply_capture (pr : Probs) (b : Board) (p r c : Nat)
    (hwf : WF b) (hp : p = 1 ∨ p = 2) (hr : r < 8) (hc : c < 8)
    (hch : chosen pr = ((r : Int), (c : Int))) :
    (select_and_step pr b p).2 = 0 ∧
    (select_and_step pr b p).1 r c = p ∧
    (∀ i < 8, ray_cast b r c (RAYS i) p = true →
      ∀ k, 1 ≤ k → k ≤ capLen b p r c i →
        bget b (along r c (RAYS i).1 (RAYS i).2 k).1
          (along r c (RAYS i).1 (RAYS i).2 k).2 = 3 - p ∧
        bget (select_and_step pr b p).1
          (along r c (RAYS i).1 (RAYS i).2 k).1
          (along r c (RAYS i).1 (RAYS i).2 k).2 = p) ∧
    (∀ i < 8, ray_cast b r c (RAYS i) p = true →
      cellMine b p (along r c (RAYS i).1 (RAYS i).2 (capLen b p r c i + 1))) ∧
    (∀ a d : Nat, ¬(a = r ∧ d = c) →
      (¬∃ i < 8, capCell b p r c i a d) →
      (select_and_step pr b p).1 a d = b a d) ∧
    (∀ (stream : DrawStream) (s1 s2 : RState) (g : Nat),
      s1.boards g = s2.boards g → s1.player = s2.player →
      (∀ tx < 8, s1.pos (g * 8 + tx) = s2.pos (g * 8 + tx)) →
      (halfStep stream s1).boards g = (halfStep stream s2).boards g) := by
  have hinb : inb r c = true := by
    rw [inb_iff]
    omega
  have hsel := select_and_step_play pr b p r c hch
  have hex := execRays_eq b p r c hwf hp hinb
  refine ⟨?_, ?_, ?_, ?_, ?_, ?_⟩
  · rw [hsel]
  · rw [hsel]
    show bset (execRays b p r c) r c p r c = p
    rw [bset_eval]
    rw [if_pos ⟨hinb, by omega, by omega⟩]
  · intro i hi hhit k hk1 hk2
    obtain ⟨hm1, hm6, hline, hmine⟩ := hit_run b r c i p hi hwf hp hinb hhit
    refine ⟨(hline k hk1 hk2).2, ?_⟩
    rw [hsel]
    show bget (bset (execRays b p r c) r c p)
      (along r c (RAYS i).1 (RAYS i).2 k).1
      (along r c (RAYS i).1 (RAYS i).2 k).2 = p
    rw [bget_bset_ne (execRays b p r c) r c
      (along r c (RAYS i).1 (RAYS i).2 k).1
      (along r c (RAYS i).1 (RAYS i).2 k).2 p
      (along_ne r c (RAYS i).1 (RAYS i).2 (RAYS_ne_zero i hi) k hk1)]
    rw [hex, bget_capBoard]
    rw [if_pos ⟨(hline k hk1 hk2).1, i, hi, hhit, k, by omega, hk1,
      (hline k hk1 hk2).1, rfl, rfl⟩]
  · intro i hi hhit
    exact (hit_run b r c i p hi hwf hp hinb hhit).2.2.2
  · intro a d hne hncap
    rw [hsel]
    show bset (execRays b p r c) r c p a d = b a d
    rw [bset_eval]
    rw [if_neg ?_]
    · rw [hex, capBoard_eval, if_neg hncap]
    · rintro ⟨_, ha, hd⟩
      apply hne
      constructor <;> omega
  · exact fun stream s1 s2 g hb hpl hpos =>
      halfStep_local stream s1 s2 g hb hpl hpos

/-- Score grid selecting cell (2, 3). -/
def selGrid : Probs := fun i j => if i = 2 ∧ j = 3 then 1 else 0

set_option maxRecDepth 8000 in
/-- Witness for C3: on the opening board, player 1 placing at (2,3)
flips the opponent token at (3,3) and the status records "played". -/
theorem C3_witness :
    bget (select_and_step selGrid openingBoard 1).1
      (along 2 3 (RAYS 2).1 (RAYS 2).2 1).1
      (along 2 3 (RAYS 2).1 (RAYS 2).2 1).2 = 1 ∧
    (select_and_step selGrid openingBoard 1).2 = 0 := by
  have h := C3_apply_capture selGrid openingBoard 1 2 3 (by decide)
    (Or.inl rfl) (by decide) (by decide) (by decide)
  exact ⟨(h.2.2.1 2 (by decide) (by decide) 1 (by decide) (by decide)).2, h.1⟩

theorem bget_congr (b1 b2 : Board)
    (h : ∀ x < 8, ∀ y < 8, b1 x y = b2 x y) (x y : Int) :
    bget b1 x y = bget b2 x y := by
  rw [bget_eval, bget_eval]
  by_cases hxy : inb x y = true
  · rw [if_pos hxy, if_pos hxy]
    rw [inb_iff] at hxy
    exact h _ (by omega) _ (by omega)
  · rw [if_neg hxy, if_neg hxy]

theorem rayLoop_congr (b1 b2 : Board) (p : Nat) (dx dy : Int)
    (h : ∀ x < 8, ∀ y < 8, b1 x y = b2 x y) :
    ∀ (fuel : Nat) (x y : Int),
      rayLoop b1 p dx dy fuel x y = rayLoop b2 p dx dy fuel x y := by
  intro fuel
  induction fuel with
  | zero => intro x y; rfl
  | succ f ih =>
    intro x y
    rw [rayLoop, rayLoop, bget_congr b1 b2 h x y, ih (x + dx) (y + dy)]

/-- `ray_cast` reads only on-board cells: boards agreeing on the 8×8
grid give identical results. -/
theorem ray_cast_congr (b1 b2 : Board) (x0 y0 : Int) (r : Int × Int)
    (p : Nat) (h : ∀ x < 8, ∀ y < 8, b1 x y = b2 x y) :
    ray_cast b1 x0 y0 r p = ray_cast b2 x0 y0 r p := by
  rw [ray_cast_eq, ray_cast_eq, bget_congr b1 b2 h,
    rayLoop_congr b1 b2 p r.1 r.2 h]

/-- C10: every board access is in bounds.  `ray_cast` bound-checks
before every read, so its value depends only on the 8×8 on-board cells;
and when `ray_cast` holds for the selected cell and a direction, the
flip loop visits exactly the opponent tokens strictly between the
selected cell and the terminating mover token — all on the board — and
stops at the mover's token, so its result is the same for every fuel
bound at least the run length (at most 6): it terminates before reading
past the board. -/
theorem C10_in_bounds (b1 b2 b : Board) (x0 y0 ax ay : Int) (j i p q : Nat)
    (hagree : ∀ x < 8, ∀ y < 8, b1 x y = b2 x y)
    (hi : i < 8) (hwf : WF b) (hp : p = 1 ∨ p = 2)
    (hin : inb ax ay = true)
    (hhit : ray_cast b ax ay (RAYS i) p = true) :
    ray_cast b1 x0 y0 (RAYS j) q = ray_cast b2 x0 y0 (RAYS j) q ∧
    (∀ k, 1 ≤ k → k ≤ capLen b p ax ay i →
      inb (along ax ay (RAYS i).1 (RAYS i).2 k).1
        (along ax ay (RAYS i).1 (RAYS i).2 k).2 = true ∧
      bget b (along ax ay (RAYS i).1 (RAYS i).2 k).1
        (along ax ay (RAYS i).1 (RAYS i).2 k).2 = 3 - p) ∧
    1 ≤ capLen b p ax ay i ∧ capLen b p ax ay i ≤ 6 ∧
    cellMine b p (along ax ay (RAYS i).1 (RAYS i).2 (capLen b p ax ay i + 1)) ∧
    (∀ fuel, capLen b p ax ay i ≤ fuel →
      flipLoop p (RAYS i).1 (RAYS i).2 fuel b
        (ax + (RAYS i).1) (ay + (RAYS i).2) =
      setRun b p (ax + (RAYS i).1) (ay + (RAYS i).2)
        (RAYS i).1 (RAYS i).2 (capLen b p ax ay i)) := by
  obtain ⟨hm1, hm6, hline, hmine⟩ := hit_run b ax ay i p hi hwf hp hin hhit
  have hp3 : p ≠ 3 - p := by rcases hp with rfl | rfl <;> decide
  refine ⟨ray_cast_congr b1 b2 x0 y0 (RAYS j) q hagree, hline, hm1, hm6,
    hmine, ?_⟩
  intro fuel hfuel
  apply flipLoop_spec p hp (RAYS i).1 (RAYS i).2 (RAYS_ne_zero i hi)
    (capLen b p ax ay i) fuel b (ax + (RAYS i).1) (ay + (RAYS i).2) hfuel
  · intro k hk
    rw [along_shift]
    exact (hline (k + 1) (by omega) (by omega)).2
  · rw [along_shift]
    rw [hmine.2]
    exact hp3

set_option maxRecDepth 8000 in
/-- Witness for C10: on the opening board, player 1's southward hit at
(2,3) has a one-token run whose single flipped cell (3,3) is on the
board, and the flip walk computes the same board with fuel 1 and 8. -/
theorem C10_witness :
    inb (along 2 3 (RAYS 2).1 (RAYS 2).2 1).1
      (along 2 3 (RAYS 2).1 (RAYS 2).2 1).2 = true ∧
    flipLoop 1 (RAYS 2).1 (RAYS 2).2 8 openingBoard (2 + (RAYS 2).1)
        (3 + (RAYS 2).2) =
      setRun openingBoard 1 (2 + (RAYS 2).1) (3 + (RAYS 2).2)
        (RAYS 2).1 (RAYS 2).2 (capLen openingBoard 1 2 3 2) := by
  have h := C10_in_bounds openingBoard openingBoard openingBoard 0 0 2 3
    0 2 1 1 (fun x _ y _ => rfl) (by decide) (by decide) (Or.inl rfl)
    (by decide) (by decide)
  exact ⟨(h.2.1 1 (by decide) (by decide)).1, h.2.2.2.2.2 8 (by decide)⟩

theorem loopA_step (stream : DrawStream) (f : Nat) (s : RState)
    (hc : statusSum s.status < 2 * N_GAMES) :
    loopA stream (f + 1) s = loopA stream f (halfStep stream s) := by
  rw [loopA, if_pos hc]

theorem loopA_exit (stream : DrawStream) (f : Nat) (s : RState)
    (hc : ¬statusSum s.status < 2 * N_GAMES) :
    loopA stream f s = some s := by
  rcases f with _ | f
  · rw [loopA, if_neg hc]
  · rw [loopA, if_neg hc]

/-- C8: finalization counts each player's tokens per game and assigns
the winner: strictly more tokens wins, equal counts give a draw (0);
every outcome is in {0, 1, 2}; and a completed `rollout` returns
exactly one outcome per game, computed by `outcome` from that game's
final board. -/
theorem C8_finalize (b : Board) :
    (outcome b = 1 ↔ countTok b 2 < countTok b 1) ∧
    (outcome b = 2 ↔ countTok b 1 < countTok b 2) ∧
    (outcome b = 0 ↔ countTok b 1 = countTok b 2) ∧
    outcome b ≤ 2 ∧
    (∀ (stream : DrawStream) (fuel : Nat) (b0 : Board) (planner : Nat)
        (pos0 : Nat → Nat) (w : Nat → Nat) (s : RState),
      rollout stream fuel b0 planner pos0 = some (w, s) →
      ∀ g, w g = outcome (s.boards g)) := by
  have houtc : outcome b = if countTok b 1 = countTok b 2 then 0
      else if countTok b 1 < countTok b 2 then 2 else 1 := rfl
  have hall : (outcome b = 1 ↔ countTok b 2 < countTok b 1) ∧
      (outcome b = 2 ↔ countTok b 1 < countTok b 2) ∧
      (outcome b = 0 ↔ countTok b 1 = countTok b 2) ∧ outcome b ≤ 2 := by
    rw [houtc]
    by_cases h1 : countTok b 1 = countTok b 2
    · rw [if_pos h1]
      refine ⟨?_, ?_, ?_, ?_⟩ <;> omega
    · rw [if_neg h1]
      by_cases h2 : countTok b 1 < countTok b 2
      · rw [if_pos h2]
        refine ⟨?_, ?_, ?_, ?_⟩ <;> omega
      · rw [if_neg h2]
        refine ⟨?_, ?_, ?_, ?_⟩ <;> omega
  refine ⟨hall.1, hall.2.1, hall.2.2.1, hall.2.2.2, ?_⟩
  intro stream fuel b0 planner pos0 w s hro g
  unfold rollout at hro
  rcases Option.map_eq_some'.mp hro with ⟨s0, hs0, heq⟩
  injection heq with h1 h2
  subst h1
  subst h2
  rfl

set_option maxRecDepth 8000 in
/-- Witness for C8: a batch of boards fully held by player 1 finishes
after two all-pass turns, and game 0's reported outcome is the outcome
computed from game 0's final board. -/
theorem C8_witness :
    (fun g => outcome ((halfStep halfStream (halfStep halfStream
        (initState onesBoard 1 (fun _ => 0)))).boards g)) 0 =
      outcome ((halfStep halfStream (halfStep halfStream
        (initState onesBoard 1 (fun _ => 0)))).boards 0) := by
  have hro : rollout halfStream 5 onesBoard 1 (fun _ => 0) =
      some ((fun g => outcome ((halfStep halfStream (halfStep halfStream
          (initState onesBoard 1 (fun _ => 0)))).boards g)),
        halfStep halfStream (halfStep halfStream
          (initState onesBoard 1 (fun _ => 0)))) := by
    unfold rollout
    rw [loopA_step _ _ _ (by decide), loopA_step _ _ _ (by decide),
      loopA_exit _ _ _ (by decide)]
    rfl
  exact (C8_finalize onesBoard).2.2.2.2 halfStream 5 onesBoard 1
    (fun _ => 0) _ _ hro 0

/-- The all-empty board: a starting configuration from which neither
mover has a legal move — by §7 of the spec an invalid configuration
that must be rejected before Init. -/
def zeroBoard : Board := fun _ _ => 0

set_option maxRecDepth 8000 in
/-- C9 (code bug): `rollout` performs no validation whatsoever.  On the
all-empty board — a malformed configuration with both movers un-movable
from the start — the invocation is not rejected: Init broadcasts the
board, the loop runs (two all-pass turns) and finalization returns a
draw outcome for game 0, contradicting the requirement that such a
configuration be fatal before Init. -/
theorem C9_no_validation :
    rollout halfStream 5 zeroBoard 1 (fun _ => 0) =
      some ((fun g => outcome ((halfStep halfStream (halfStep halfStream
          (initState zeroBoard 1 (fun _ => 0)))).boards g)),
        halfStep halfStream (halfStep halfStream
          (initState zeroBoard 1 (fun _ => 0)))) ∧
    (fun g => outcome ((halfStep halfStream (halfStep halfStream
        (initState zeroBoard 1 (fun _ => 0)))).boards g)) 0 = 0 := by
  constructor
  · unfold rollout
    rw [loopA_step _ _ _ (by decide), loopA_step _ _ _ (by decide),
      loopA_exit _ _ _ (by decide)]
    rfl
  · decide

/-- Two boards that agree on the 8×8 grid. -/
def bAgree (b1 b2 : Board) : Prop := ∀ x < 8, ∀ y < 8, b1 x y = b2 x y

instance : ∀ b1 b2, Decidable (bAgree b1 b2) := by
  intro b1 b2
  unfold bAgree
  infer_instance

theorem dirScanFrom_congr (b1 b2 : Board) (h : bAgree b1 b2) (x y : Int)
    (p : Nat) :
    ∀ rem i, dirScanFrom b1 x y p i rem = dirScanFrom b2 x y p i rem := by
  intro rem
  induction rem with
  | zero => intro i; rfl
  | succ r ih =>
    intro i
    rw [dirScanFrom, dirScanFrom, ray_cast_congr b1 b2 x y (RAYS i) p h,
      ih (i + 1)]

theorem find_actions_cell_congr (d : ℚ) (b1 b2 : Board) (h : bAgree b1 b2)
    (p tx ty : Nat) (htx : tx < 8) (hty : ty < 8) :
    find_actions_cell d b1 p tx ty = find_actions_cell d b2 p tx ty := by
  unfold find_actions_cell
  rw [h tx htx ty hty,
    show dirScan b1 tx ty p = dirScan b2 tx ty p from
      dirScanFrom_congr b1 b2 h tx ty p 8 0]

theorem foldl_congr_mem {α β : Type} (f1 f2 : α → β → α) :
    ∀ (l : List β) (acc : α), (∀ a b, b ∈ l → f1 a b = f2 a b) →
      l.foldl f1 acc = l.foldl f2 acc := by
  intro l
  induction l with
  | nil => intro acc _; rfl
  | cons x xs ih =>
    intro acc h
    rw [List.foldl_cons, List.foldl_cons, h acc x (by simp)]
    exact ih _ (fun a b hb => h a b (by simp [hb]))

theorem rowScores_board_congr (stream : DrawStream) (tid pos0 : Nat)
    (b1 b2 : Board) (h : bAgree b1 b2) (p tx : Nat) (htx : tx < 8) :
    rowScores stream tid pos0 b1 p tx = rowScores stream tid pos0 b2 p tx := by
  unfold rowScores
  apply foldl_congr_mem
  intro a ty hty
  rw [find_actions_cell_congr (stream tid (pos0 + a.2)) b1 b2 h p tx ty htx
    (List.mem_range.mp hty)]

/-- Score grid of one game when every draw is the constant 1/2: the
grid every game of a uniform batch computes under `halfStream`. -/
def uprobs (b : Board) (p : Nat) : Probs :=
  fun tx ty => (rowScores halfStream 0 0 b p tx).1 ty

theorem uprobs_congr (b1 b2 : Board) (h : bAgree b1 b2) (p : Nat) :
    ∀ i < 8, ∀ j < 8, uprobs b1 p i j = uprobs b2 p i j := by
  intro i hi j hj
  unfold uprobs
  rw [rowScores_board_congr halfStream 0 0 b1 b2 h p i hi]

theorem rowScores_draws_congr (s1 s2 : DrawStream) (t1 t2 q1 q2 : Nat)
    (b : Board) (p tx : Nat) (h : ∀ n m, s1 t1 n = s2 t2 m) :
    rowScores s1 t1 q1 b p tx = rowScores s2 t2 q2 b p tx := by
  unfold rowScores
  apply foldl_congr_mem
  intro a ty _
  rw [h (q1 + a.2) (q2 + a.2)]

/-- Under the constant stream every game computes the same score grid,
independent of its stream index and position. -/
theorem gameProbs_halfStream (s : RState) (g : Nat) :
    gameProbs halfStream s g = uprobs (s.boards g) s.player := by
  funext tx ty
  unfold gameProbs uprobs
  rw [rowScores_draws_congr halfStream halfStream (g * 8 + tx) 0
    (s.pos (g * 8 + tx)) 0 (s.boards g) s.player tx (fun n m => rfl)]

theorem capLen_congr (b1 b2 : Board) (h : bAgree b1 b2) (p : Nat)
    (ax ay : Int) (i : Nat) :
    capLen b1 p ax ay i = capLen b2 p ax ay i := by
  unfold capLen
  apply runLen_congr
  intro k _
  exact bget_congr b1 b2 h _ _

theorem capCell_congr (b1 b2 : Board) (h : bAgree b1 b2) (p : Nat)
    (ax ay : Int) (i a c : Nat) :
    capCell b1 p ax ay i a c ↔ capCell b2 p ax ay i a c := by
  unfold capCell
  rw [ray_cast_congr b1 b2 ax ay (RAYS i) p h, capLen_congr b1 b2 h p ax ay i]

theorem select_and_step_sentinel (pr : Probs) (b : Board) (p : Nat)
    (h : chosen pr = (-1, -1)) :
    select_and_step pr b p = (b, 1) := by
  unfold select_and_step
  rw [h]
  rfl

/-- A `select_and_step` turn on a board that agrees with the reference
board `L` on the grid produces (on the grid) the reference result. -/
theorem step_play_approx (b L Lnext : Board) (p r c : Nat)
    (hp : p = 1 ∨ p = 2) (hr : r < 8) (hc : c < 8)
    (hag : bAgree b L) (hwfL : WF L)
    (hch : chosen (uprobs L p) = ((r : Int), (c : Int)))
    (hres : ∀ x < 8, ∀ y < 8,
      (select_and_step (uprobs L p) L p).1 x y = Lnext x y) :
    (∀ x < 8, ∀ y < 8,
      (select_and_step (uprobs b p) b p).1 x y = Lnext x y) ∧
    (select_and_step (uprobs b p) b p).2 = 0 := by
  have hwfb : WF b := by
    intro x hx y hy
    rw [hag x hx y hy]
    exact hwfL x hx y hy
  have hchb : chosen (uprobs b p) = ((r : Int), (c : Int)) := by
    rw [chosen_congr (uprobs b p) (uprobs L p) (uprobs_congr b L hag p), hch]
  have hinb : inb r c = true := by
    rw [inb_iff]
    omega
  have hselb := select_and_step_play (uprobs b p) b p r c hchb
  have hselL := select_and_step_play (uprobs L p) L p r c hch
  constructor
  · intro x hx y hy
    rw [hselb, ← hres x hx y hy, hselL]
    show bset (execRays b p r c) r c p x y =
      bset (execRays L p r c) r c p x y
    rw [bset_eval, bset_eval]
    by_cases h0 : inb r c = true ∧ x = ((r : Int)).toNat ∧ y = ((c : Int)).toNat
    · rw [if_pos h0, if_pos h0]
    · rw [if_neg h0, if_neg h0]
      rw [execRays_eq b p r c hwfb hp hinb, execRays_eq L p r c hwfL hp hinb]
      rw [capBoard_eval, capBoard_eval]
      by_cases hcc : ∃ i < 8, capCell b p r c i x y
      · rw [if_pos hcc, if_pos ?_]
        obtain ⟨i, hi, hcap⟩ := hcc
        exact ⟨i, hi, (capCell_congr b L hag p r c i x y).mp hcap⟩
      · rw [if_neg hcc, if_neg ?_]
        · exact hag x hx y hy
        · rintro ⟨i, hi, hcap⟩
          exact hcc ⟨i, hi, (capCell_congr b L hag p r c i x y).mpr hcap⟩
  · rw [hselb]

theorem step_pass_approx (b L : Board) (p : Nat) (hag : bAgree b L)
    (hch : chosen (uprobs L p) = (-1, -1)) :
    select_and_step (uprobs b p) b p = (b, 1) := by
  apply select_and_step_sentinel
  rw [chosen_congr (uprobs b p) (uprobs L p) (uprobs_congr b L hag p), hch]

theorem statusSum_uniform (st : Nat → Nat → Nat) (f0 f1 : Nat)
    (h0 : ∀ g, st g 0 = f0) (h1 : ∀ g, st g 1 = f1) :
    statusSum st = N_GAMES * (f0 + f1) := by
  unfold statusSum
  rw [Finset.sum_congr rfl (fun g _ => by rw [h0 g, h1 g])]
  rw [Finset.sum_const, Finset.card_range, smul_eq_mul]

set_option maxRecDepth 8000 in
/-- One driver iteration on a uniform batch (every game holding a board
that agrees with `L`, uniform flags, constant draws) in which the mover
plays: all games step to `Lnext`, the mover's flag is cleared, the
player swaps, and the loop guard held before the iteration. -/
theorem halfStep_inv_play (s : RState) (L Lnext : Board) (p r c f0 f1 : Nat)
    (hb : ∀ g, bAgree (s.boards g) L)
    (h0 : ∀ g, s.status g 0 = f0) (h1 : ∀ g, s.status g 1 = f1)
    (hpl : s.player = p)
    (hp : p = 1 ∨ p = 2) (hr : r < 8) (hc : c < 8)
    (hsum : f0 + f1 < 2) (hwfL : WF L)
    (hch : chosen (uprobs L p) = ((r : Int), (c : Int)))
    (hres : ∀ x < 8, ∀ y < 8,
      (select_and_step (uprobs L p) L p).1 x y = Lnext x y) :
    (∀ g, bAgree ((halfStep halfStream s).boards g) Lnext) ∧
    (∀ g, (halfStep halfStream s).status g 0 = if 0 = p - 1 then 0 else f0) ∧
    (∀ g, (halfStep halfStream s).status g 1 = if 1 = p - 1 then 0 else f1) ∧
    (halfStep halfStream s).player = 3 - p ∧
    statusSum s.status < 2 * N_GAMES := by
  have happ : ∀ g,
      (∀ x < 8, ∀ y < 8,
        (select_and_step (uprobs (s.boards g) p) (s.boards g) p).1 x y =
          Lnext x y) ∧
      (select_and_step (uprobs (s.boards g) p) (s.boards g) p).2 = 0 :=
    fun g => step_play_approx (s.boards g) L Lnext p r c hp hr hc (hb g)
      hwfL hch hres
  refine ⟨?_, ?_, ?_, ?_, ?_⟩
  · intro g x hx y hy
    show (select_and_step (gameProbs halfStream s g) (s.boards g)
      s.player).1 x y = Lnext x y
    rw [gameProbs_halfStream, hpl]
    exact (happ g).1 x hx y hy
  · intro g
    show (if 0 = s.player - 1 then
        (select_and_step (gameProbs halfStream s g) (s.boards g) s.player).2
      else s.status g 0) = if 0 = p - 1 then 0 else f0
    rw [gameProbs_halfStream, hpl, h0 g]
    by_cases hq : 0 = p - 1
    · rw [if_pos hq, if_pos hq, (happ g).2]
    · rw [if_neg hq, if_neg hq]
  · intro g
    show (if 1 = s.player - 1 then
        (select_and_step (gameProbs halfStream s g) (s.boards g) s.player).2
      else s.status g 1) = if 1 = p - 1 then 0 else f1
    rw [gameProbs_halfStream, hpl, h1 g]
    by_cases hq : 1 = p - 1
    · rw [if_pos hq, if_pos hq, (happ g).2]
    · rw [if_neg hq, if_neg hq]
  · show 3 - s.player = 3 - p
    rw [hpl]
  · rw [statusSum_uniform s.status f0 f1 h0 h1]
    show 32 * (f0 + f1) < 2 * 32
    omega

set_option maxRecDepth 8000 in
/-- One driver iteration on a uniform batch in which the mover passes:
boards are untouched, the mover's flag is set, the player swaps, and
the loop guard held before the iteration. -/
theorem halfStep_inv_pass (s : RState) (L : Board) (p f0 f1 : Nat)
    (hb : ∀ g, bAgree (s.boards g) L)
    (h0 : ∀ g, s.status g 0 = f0) (h1 : ∀ g, s.status g 1 = f1)
    (hpl : s.player = p) (hsum : f0 + f1 < 2)
    (hch : chosen (uprobs L p) = (-1, -1)) :
    (∀ g, bAgree ((halfStep halfStream s).boards g) L) ∧
    (∀ g, (halfStep halfStream s).status g 0 = if 0 = p - 1 then 1 else f0) ∧
    (∀ g, (halfStep halfStream s).status g 1 = if 1 = p - 1 then 1 else f1) ∧
    (halfStep halfStream s).player = 3 - p ∧
    statusSum s.status < 2 * N_GAMES := by
  have happ : ∀ g,
      select_and_step (uprobs (s.boards g) p) (s.boards g) p =
        (s.boards g, 1) :=
    fun g => step_pass_approx (s.boards g) L p (hb g) hch
  refine ⟨?_, ?_, ?_, ?_, ?_⟩
  · intro g x hx y hy
    show (select_and_step (gameProbs halfStream s g) (s.boards g)
      s.player).1 x y = L x y
    rw [gameProbs_halfStream, hpl, happ g]
    exact hb g x hx y hy
  · intro g
    show (if 0 = s.player - 1 then
        (select_and_step (gameProbs halfStream s g) (s.boards g) s.player).2
      else s.status g 0) = if 0 = p - 1 then 1 else f0
    rw [gameProbs_halfStream, hpl, h0 g]
    by_cases hq : 0 = p - 1
    · rw [if_pos hq, if_pos hq, happ g]
    · rw [if_neg hq, if_neg hq]
  · intro g
    show (if 1 = s.player - 1 then
        (select_and_step (gameProbs halfStream s g) (s.boards g) s.player).2
      else s.status g 1) = if 1 = p - 1 then 1 else f1
    rw [gameProbs_halfStream, hpl, h1 g]
    by_cases hq : 1 = p - 1
    · rw [if_pos hq, if_pos hq, happ g]
    · rw [if_neg hq, if_neg hq]
  · show 3 - s.player = 3 - p
    rw [hpl]
  · rw [statusSum_uniform s.status f0 f1 h0 h1]
    show 32 * (f0 + f1) < 2 * 32
    omega

/-!
C6 counterexample data: the deterministic playout of the notebook's
engine from the standard opening when every draw is 1/2 (ties broken by
the reduction's first-in-scan-order rule).  `cexB(t)` is the board after
`t` driver iterations; pass iterations (19, 21, 23 and 51) leave the
board unchanged.  The playout fills the board: after 60 iterations no
game has had two consecutive passes, so the loop guard still holds and
the while loop runs strictly more than 60 iterations (it exits after
66).
-/

def cexB1 : Board := mkBoard
  [[0, 0, 0, 0, 0, 0, 0, 0],
   [0, 0, 0, 0, 0, 0, 0, 0],
   [0, 0, 0, 1, 0, 0, 0, 0],
   [0, 0, 0, 1, 1, 0, 0, 0],
   [0, 0, 0, 1, 2, 0, 0, 0],
   [0, 0, 0, 0, 0, 0, 0, 0],
   [0, 0, 0, 0, 0, 0, 0, 0],
   [0, 0, 0, 0, 0, 0, 0, 0]]
def cexB2 : Board := mkBoard
  [[0, 0, 0, 0, 0, 0, 0, 0],
   [0, 0, 0, 0, 0, 0, 0, 0],
   [0, 0, 2, 1, 0, 0, 0, 0],
   [0, 0, 0, 2, 1, 0, 0, 0],
   [0, 0, 0, 1, 2, 0, 0, 0],
   [0, 0, 0, 0, 0, 0, 0, 0],
   [0, 0, 0, 0, 0, 0, 0, 0],
   [0, 0, 0, 0, 0, 0, 0, 0]]
def cexB3 : Board := mkBoard
  [[0, 0, 0, 0, 0, 0, 0, 0],
   [0, 0, 0, 0, 0, 0, 0, 0],
   [0, 1, 1, 1, 0, 0, 0, 0],
   [0, 0, 0, 2, 1, 0, 0, 0],
   [0, 0, 0, 1, 2, 0, 0, 0],
   [0, 0, 0, 0, 0, 0, 0, 0],
   [0, 0, 0, 0, 0, 0, 0, 0],
   [0, 0, 0, 0, 0, 0, 0, 0]]
def cexB4 : Board := mkBoard
  [[0, 0, 0, 0, 0, 0, 0, 0],
   [0, 2, 0, 0, 0, 0, 0, 0],
   [0, 1, 2, 1, 0, 0, 0, 0],
   [0, 0, 0, 2, 1, 0, 0, 0],
   [0, 0, 0, 1, 2, 0, 0, 0],
   [0, 0, 0, 0, 0, 0, 0, 0],
   [0, 0, 0, 0, 0, 0, 0, 0],
   [0, 0, 0, 0, 0, 0, 0, 0]]
def cexB5 : Board := mkBoard
  [[0, 1, 0, 0, 0, 0, 0, 0],
   [0, 1, 0, 0, 0, 0, 0, 0],
   [0, 1, 2, 1, 0, 0, 0, 0],
   [0, 0, 0, 2, 1, 0, 0, 0],
   [0, 0, 0, 1, 2, 0, 0, 0],
   [0, 0, 0, 0, 0, 0, 0, 0],
   [0, 0, 0, 0, 0, 0, 0, 0],
   [0, 0, 0, 0, 0, 0, 0, 0]]
def cexB6 : Board := mkBoard
  [[2, 1, 0, 0, 0, 0, 0, 0],
   [0, 2, 0, 0, 0, 0, 0, 0],
   [0, 1, 2, 1, 0, 0, 0, 0],
   [0, 0, 0, 2, 1, 0, 0, 0],
   [0, 0, 0, 1, 2, 0, 0, 0],
   [0, 0, 0, 0, 0, 0, 0, 0],
   [0, 0, 0, 0, 0, 0, 0, 0],
   [0, 0, 0, 0, 0, 0, 0, 0]]
def cexB7 : Board := mkBoard
  [[2, 1, 0, 0, 0, 0, 0, 0],
   [0, 2, 0, 0, 0, 0, 0, 0],
   [0, 1, 2, 1, 0, 0, 0, 0],
   [0, 0, 1, 1, 1, 0, 0, 0],
   [0, 0, 0, 1, 2, 0, 0, 0],
   [0, 0, 0, 0, 0, 0, 0, 0],
   [0, 0, 0, 0, 0, 0, 0, 0],
   [0, 0, 0, 0, 0, 0, 0, 0]]
def cexB8 : Board := mkBoard
  [[2, 2, 2, 0, 0, 0, 0, 0],
   [0, 2, 0, 0, 0, 0, 0, 0],
   [0, 1, 2, 1, 0, 0, 0, 0],
   [0, 0, 1, 1, 1, 0, 0, 0],
   [0, 0, 0, 1, 2, 0, 0, 0],
   [0, 0, 0, 0, 0, 0, 0, 0],
   [0, 0, 0, 0, 0, 0, 0, 0],
   [0, 0, 0, 0, 0, 0, 0, 0]]
def cexB9 : Board := mkBoard
  [[2, 2, 2, 0, 0, 0, 0, 0],
   [0, 2, 1, 0, 0, 0, 0, 0],
   [0, 1, 1, 1, 0, 0, 0, 0],
   [0, 0, 1, 1, 1, 0, 0, 0],
   [0, 0, 0, 1, 2, 0, 0, 0],
   [0, 0, 0, 0, 0, 0, 0, 0],
   [0, 0, 0, 0, 0, 0, 0, 0],
   [0, 0, 0, 0, 0, 0, 0, 0]]
def cexB10 : Board := mkBoard
  [[2, 2, 2, 0, 0, 0, 0, 0],
   [0, 2, 2, 2, 0, 0, 0, 0],
   [0, 1, 1, 1, 0, 0, 0, 0],
   [0, 0, 1, 1, 1, 0, 0, 0],
   [0, 0, 0, 1, 2, 0, 0, 0],
   [0, 0, 0, 0, 0, 0, 0, 0],
   [0, 0, 0, 0, 0, 0, 0, 0],
   [0, 0, 0, 0, 0, 0, 0, 0]]
def cexB11 : Board := mkBoard
  [[2, 2, 2, 1, 0, 0, 0, 0],
   [0, 2, 1, 1, 0, 0, 0, 0],
   [0, 1, 1, 1, 0, 0, 0, 0],
   [0, 0, 1, 1, 1, 0, 0, 0],
   [0, 0, 0, 1, 2, 0, 0, 0],
   [0, 0, 0, 0, 0, 0, 0, 0],
   [0, 0, 0, 0, 0, 0, 0, 0],
   [0, 0, 0, 0, 0, 0, 0, 0]]
def cexB12 : Board := mkBoard
  [[2, 2, 2, 2, 2, 0, 0, 0],
   [0, 2, 1, 1, 0, 0, 0, 0],
   [0, 1, 1, 1, 0, 0, 0, 0],
   [0, 0, 1, 1, 1, 0, 0, 0],
   [0, 0, 0, 1, 2, 0, 0, 0],
   [0, 0, 0, 0, 0, 0, 0, 0],
   [0, 0, 0, 0, 0, 0, 0, 0],
   [0, 0, 0, 0, 0, 0, 0, 0]]
def cexB13 : Board := mkBoard
  [[2, 2, 2, 2, 2, 0, 0, 0],
   [1, 1, 1, 1, 0, 0, 0, 0],
   [0, 1, 1, 1, 0, 0, 0, 0],
   [0, 0, 1, 1, 1, 0, 0, 0],
   [0, 0, 0, 1, 2, 0, 0, 0],
   [0, 0, 0, 0, 0, 0, 0, 0],
   [0, 0, 0, 0, 0, 0, 0, 0],
   [0, 0, 0, 0, 0, 0, 0, 0]]
def cexB14 : Board := mkBoard
  [[2, 2, 2, 2, 2, 0, 0, 0],
   [2, 2, 1, 1, 0, 0, 0, 0],
   [2, 1, 1, 1, 0, 0, 0, 0],
   [0, 0, 1, 1, 1, 0, 0, 0],
   [0, 0, 0, 1, 2, 0, 0, 0],
   [0, 0, 0, 0, 0, 0, 0, 0],
   [0, 0, 0, 0, 0, 0, 0, 0],
   [0, 0, 0, 0, 0, 0, 0, 0]]
def cexB15 : Board := mkBoard
  [[2, 2, 2, 2, 2, 0, 0, 0],
   [2, 2, 1, 1, 0, 0, 0, 0],
   [2, 1, 1, 1, 0, 0, 0, 0],
   [0, 0, 1, 1, 1, 0, 0, 0],
   [0, 0, 0, 1, 1, 1, 0, 0],
   [0, 0, 0, 0, 0, 0, 0, 0],
   [0, 0, 0, 0, 0, 0, 0, 0],
   [0, 0, 0, 0, 0, 0, 0, 0]]
def cexB16 : Board := mkBoard
  [[2, 2, 2, 2, 2, 0, 0, 0],
   [2, 2, 2, 2, 2, 0, 0, 0],
   [2, 1, 1, 1, 0, 0, 0, 0],
   [0, 0, 1, 1, 1, 0, 0, 0],
   [0, 0, 0, 1, 1, 1, 0, 0],
   [0, 0, 0, 0, 0, 0, 0, 0],
   [0, 0, 0, 0, 0, 0, 0, 0],
   [0, 0, 0, 0, 0, 0, 0, 0]]
def cexB17 : Board := mkBoard
  [[2, 2, 2, 2, 2, 1, 0, 0],
   [2, 2, 2, 2, 1, 0, 0, 0],
   [2, 1, 1, 1, 0, 0, 0, 0],
   [0, 0, 1, 1, 1, 0, 0, 0],
   [0, 0, 0, 1, 1, 1, 0, 0],
   [0, 0, 0, 0, 0, 0, 0, 0],
   [0, 0, 0, 0, 0, 0, 0, 0],
   [0, 0, 0, 0, 0, 0, 0, 0]]
def cexB18 : Board := mkBoard
  [[2, 2, 2, 2, 2, 2, 2, 0],
   [2, 2, 2, 2, 1, 0, 0, 0],
   [2, 1, 1, 1, 0, 0, 0, 0],
   [0, 0, 1, 1, 1, 0, 0, 0],
   [0, 0, 0, 1, 1, 1, 0, 0],
   [0, 0, 0, 0, 0, 0, 0, 0],
   [0, 0, 0, 0, 0, 0, 0, 0],
   [0, 0, 0, 0, 0, 0, 0, 0]]
def cexB20 : Board := mkBoard
  [[2, 2, 2, 2, 2, 2, 2, 0],
   [2, 2, 2, 2, 2, 2, 0, 0],
   [2, 1, 1, 1, 0, 0, 0, 0],
   [0, 0, 1, 1, 1, 0, 0, 0],
   [0, 0, 0, 1, 1, 1, 0, 0],
   [0, 0, 0, 0, 0, 0, 0, 0],
   [0, 0, 0, 0, 0, 0, 0, 0],
   [0, 0, 0, 0, 0, 0, 0, 0]]
def cexB22 : Board := mkBoard
  [[2, 2, 2, 2, 2, 2, 2, 0],
   [2, 2, 2, 2, 2, 2, 0, 0],
   [2, 2, 2, 2, 2, 0, 0, 0],
   [0, 0, 1, 1, 1, 0, 0, 0],
   [0, 0, 0, 1, 1, 1, 0, 0],
   [0, 0, 0, 0, 0, 0, 0, 0],
   [0, 0, 0, 0, 0, 0, 0, 0],
   [0, 0, 0, 0, 0, 0, 0, 0]]
def cexB24 : Board := mkBoard
  [[2, 2, 2, 2, 2, 2, 2, 0],
   [2, 2, 2, 2, 2, 2, 0, 0],
   [2, 2, 2, 2, 2, 0, 0, 0],
   [0, 0, 2, 1, 1, 0, 0, 0],
   [0, 2, 0, 1, 1, 1, 0, 0],
   [0, 0, 0, 0, 0, 0, 0, 0],
   [0, 0, 0, 0, 0, 0, 0, 0],
   [0, 0, 0, 0, 0, 0, 0, 0]]
def cexB25 : Board := mkBoard
  [[2, 2, 2, 2, 2, 2, 2, 0],
   [2, 2, 2, 2, 2, 2, 0, 0],
   [2, 2, 2, 2, 2, 0, 0, 0],
   [0, 1, 1, 1, 1, 0, 0, 0],
   [0, 2, 0, 1, 1, 1, 0, 0],
   [0, 0, 0, 0, 0, 0, 0, 0],
   [0, 0, 0, 0, 0, 0, 0, 0],
   [0, 0, 0, 0, 0, 0, 0, 0]]
def cexB26 : Board := mkBoard
  [[2, 2, 2, 2, 2, 2, 2, 0],
   [2, 2, 2, 2, 2, 2, 0, 0],
   [2, 2, 2, 2, 2, 0, 0, 0],
   [0, 2, 1, 1, 1, 0, 0, 0],
   [2, 2, 0, 1, 1, 1, 0, 0],
   [0, 0, 0, 0, 0, 0, 0, 0],
   [0, 0, 0, 0, 0, 0, 0, 0],
   [0, 0, 0, 0, 0, 0, 0, 0]]
def cexB27 : Board := mkBoard
  [[2, 2, 2, 2, 2, 2, 2, 0],
   [2, 2, 2, 2, 2, 2, 0, 0],
   [2, 2, 2, 2, 2, 0, 0, 0],
   [1, 1, 1, 1, 1, 0, 0, 0],
   [2, 2, 0, 1, 1, 1, 0, 0],
   [0, 0, 0, 0, 0, 0, 0, 0],
   [0, 0, 0, 0, 0, 0, 0, 0],
   [0, 0, 0, 0, 0, 0, 0, 0]]
def cexB28 : Board := mkBoard
  [[2, 2, 2, 2, 2, 2, 2, 0],
   [2, 2, 2, 2, 2, 2, 0, 0],
   [2, 2, 2, 2, 2, 0, 0, 0],
   [1, 2, 2, 2, 1, 0, 0, 0],
   [2, 2, 2, 1, 1, 1, 0, 0],
   [0, 0, 0, 0, 0, 0, 0, 0],
   [0, 0, 0, 0, 0, 0, 0, 0],
   [0, 0, 0, 0, 0, 0, 0, 0]]
def cexB29 : Board := mkBoard
  [[2, 2, 2, 2, 2, 2, 2, 0],
   [2, 2, 2, 2, 2, 2, 0, 0],
   [2, 2, 2, 2, 2, 0, 0, 0],
   [1, 2, 2, 2, 1, 0, 0, 0],
   [1, 2, 2, 1, 1, 1, 0, 0],
   [1, 0, 0, 0, 0, 0, 0, 0],
   [0, 0, 0, 0, 0, 0, 0, 0],
   [0, 0, 0, 0, 0, 0, 0, 0]]
def cexB30 : Board := mkBoard
  [[2, 2, 2, 2, 2, 2, 2, 0],
   [2, 2, 2, 2, 2, 2, 0, 0],
   [2, 2, 2, 2, 2, 0, 0, 0],
   [1, 2, 2, 2, 2, 2, 0, 0],
   [1, 2, 2, 1, 1, 1, 0, 0],
   [1, 0, 0, 0, 0, 0, 0, 0],
   [0, 0, 0, 0, 0, 0, 0, 0],
   [0, 0, 0, 0, 0, 0, 0, 0]]
def cexB31 : Board := mkBoard
  [[2, 2, 2, 2, 2, 2, 2, 0],
   [2, 2, 2, 2, 2, 2, 0, 0],
   [2, 2, 2, 2, 2, 1, 0, 0],
   [1, 2, 2, 2, 1, 1, 0, 0],
   [1, 2, 2, 1, 1, 1, 0, 0],
   [1, 0, 0, 0, 0, 0, 0, 0],
   [0, 0, 0, 0, 0, 0, 0, 0],
   [0, 0, 0, 0, 0, 0, 0, 0]]
def cexB32 : Board := mkBoard
  [[2, 2, 2, 2, 2, 2, 2, 0],
   [2, 2, 2, 2, 2, 2, 0, 0],
   [2, 2, 2, 2, 2, 2, 2, 0],
   [1, 2, 2, 2, 1, 1, 0, 0],
   [1, 2, 2, 1, 1, 1, 0, 0],
   [1, 0, 0, 0, 0, 0, 0, 0],
   [0, 0, 0, 0, 0, 0, 0, 0],
   [0, 0, 0, 0, 0, 0, 0, 0]]
def cexB33 : Board := mkBoard
  [[2, 2, 2, 2, 2, 2, 2, 0],
   [2, 2, 2, 2, 2, 2, 1, 0],
   [2, 2, 2, 2, 2, 1, 2, 0],
   [1, 2, 2, 2, 1, 1, 0, 0],
   [1, 2, 2, 1, 1, 1, 0, 0],
   [1, 0, 0, 0, 0, 0, 0, 0],
   [0, 0, 0, 0, 0, 0, 0, 0],
   [0, 0, 0, 0, 0, 0, 0, 0]]
def cexB34 : Board := mkBoard
  [[2, 2, 2, 2, 2, 2, 2, 0],
   [2, 2, 2, 2, 2, 2, 2, 2],
   [2, 2, 2, 2, 2, 1, 2, 0],
   [1, 2, 2, 2, 1, 1, 0, 0],
   [1, 2, 2, 1, 1, 1, 0, 0],
   [1, 0, 0, 0, 0, 0, 0, 0],
   [0, 0, 0, 0, 0, 0, 0, 0],
   [0, 0, 0, 0, 0, 0, 0, 0]]
def cexB35 : Board := mkBoard
  [[2, 2, 2, 2, 2, 2, 2, 1],
   [2, 2, 2, 2, 2, 2, 1, 2],
   [2, 2, 2, 2, 2, 1, 2, 0],
   [1, 2, 2, 2, 1, 1, 0, 0],
   [1, 2, 2, 1, 1, 1, 0, 0],
   [1, 0, 0, 0, 0, 0, 0, 0],
   [0, 0, 0, 0, 0, 0, 0, 0],
   [0, 0, 0, 0, 0, 0, 0, 0]]
def cexB36 : Board := mkBoard
  [[2, 2, 2, 2, 2, 2, 2, 1],
   [2, 2, 2, 2, 2, 2, 2, 2],
   [2, 2, 2, 2, 2, 1, 2, 2],
   [1, 2, 2, 2, 1, 1, 0, 0],
   [1, 2, 2, 1, 1, 1, 0, 0],
   [1, 0, 0, 0, 0, 0, 0, 0],
   [0, 0, 0, 0, 0, 0, 0, 0],
   [0, 0, 0, 0, 0, 0, 0, 0]]
def cexB37 : Board := mkBoard
  [[2, 2, 2, 2, 2, 2, 2, 1],
   [2, 2, 2, 2, 2, 2, 2, 1],
   [2, 2, 2, 2, 2, 1, 2, 1],
   [1, 2, 2, 2, 1, 1, 0, 1],
   [1, 2, 2, 1, 1, 1, 0, 0],
   [1, 0, 0, 0, 0, 0, 0, 0],
   [0, 0, 0, 0, 0, 0, 0, 0],
   [0, 0, 0, 0, 0, 0, 0, 0]]
def cexB38 : Board := mkBoard
  [[2, 2, 2, 2, 2, 2, 2, 1],
   [2, 2, 2, 2, 2, 2, 2, 1],
   [2, 2, 2, 2, 2, 2, 2, 1],
   [1, 2, 2, 2, 2, 2, 2, 1],
   [1, 2, 2, 1, 1, 1, 0, 0],
   [1, 0, 0, 0, 0, 0, 0, 0],
   [0, 0, 0, 0, 0, 0, 0, 0],
   [0, 0, 0, 0, 0, 0, 0, 0]]
def cexB39 : Board := mkBoard
  [[2, 2, 2, 2, 2, 2, 2, 1],
   [2, 2, 2, 2, 2, 2, 2, 1],
   [2, 2, 2, 2, 2, 2, 2, 1],
   [1, 2, 2, 2, 2, 2, 2, 1],
   [1, 1, 2, 1, 1, 1, 0, 0],
   [1, 0, 1, 0, 0, 0, 0, 0],
   [0, 0, 0, 0, 0, 0, 0, 0],
   [0, 0, 0, 0, 0, 0, 0, 0]]
def cexB40 : Board := mkBoard
  [[2, 2, 2, 2, 2, 2, 2, 1],
   [2, 2, 2, 2, 2, 2, 2, 1],
   [2, 2, 2, 2, 2, 2, 2, 1],
   [1, 2, 2, 2, 2, 2, 2, 1],
   [1, 1, 2, 2, 2, 2, 2, 0],
   [1, 0, 1, 0, 0, 0, 0, 0],
   [0, 0, 0, 0, 0, 0, 0, 0],
   [0, 0, 0, 0, 0, 0, 0, 0]]
def cexB41 : Board := mkBoard
  [[2, 2, 2, 2, 2, 2, 2, 1],
   [2, 2, 2, 2, 2, 2, 2, 1],
   [2, 2, 2, 2, 2, 2, 2, 1],
   [1, 2, 2, 2, 2, 2, 2, 1],
   [1, 1, 1, 1, 1, 1, 1, 1],
   [1, 0, 1, 0, 0, 0, 0, 0],
   [0, 0, 0, 0, 0, 0, 0, 0],
   [0, 0, 0, 0, 0, 0, 0, 0]]
def cexB42 : Board := mkBoard
  [[2, 2, 2, 2, 2, 2, 2, 1],
   [2, 2, 2, 2, 2, 2, 2, 1],
   [2, 2, 2, 2, 2, 2, 2, 1],
   [1, 2, 2, 2, 2, 2, 2, 1],
   [1, 2, 2, 1, 1, 1, 1, 1],
   [1, 2, 1, 0, 0, 0, 0, 0],
   [0, 0, 0, 0, 0, 0, 0, 0],
   [0, 0, 0, 0, 0, 0, 0, 0]]
def cexB43 : Board := mkBoard
  [[2, 2, 2, 2, 2, 2, 2, 1],
   [2, 2, 2, 2, 2, 2, 2, 1],
   [2, 2, 2, 2, 2, 2, 2, 1],
   [1, 2, 2, 2, 2, 2, 2, 1],
   [1, 2, 2, 1, 1, 1, 1, 1],
   [1, 1, 1, 0, 0, 0, 0, 0],
   [0, 0, 1, 0, 0, 0, 0, 0],
   [0, 0, 0, 0, 0, 0, 0, 0]]
def cexB44 : Board := mkBoard
  [[2, 2, 2, 2, 2, 2, 2, 1],
   [2, 2, 2, 2, 2, 2, 2, 1],
   [2, 2, 2, 2, 2, 2, 2, 1],
   [1, 2, 2, 2, 2, 2, 2, 1],
   [1, 2, 2, 2, 2, 1, 1, 1],
   [1, 1, 1, 2, 0, 0, 0, 0],
   [0, 0, 1, 0, 0, 0, 0, 0],
   [0, 0, 0, 0, 0, 0, 0, 0]]
def cexB45 : Board := mkBoard
  [[2, 2, 2, 2, 2, 2, 2, 1],
   [2, 2, 2, 2, 2, 2, 2, 1],
   [2, 2, 2, 2, 2, 2, 2, 1],
   [1, 2, 2, 2, 2, 2, 2, 1],
   [1, 2, 2, 2, 2, 1, 1, 1],
   [1, 1, 1, 1, 1, 0, 0, 0],
   [0, 0, 1, 0, 0, 0, 0, 0],
   [0, 0, 0, 0, 0, 0, 0, 0]]
def cexB46 : Board := mkBoard
  [[2, 2, 2, 2, 2, 2, 2, 1],
   [2, 2, 2, 2, 2, 2, 2, 1],
   [2, 2, 2, 2, 2, 2, 2, 1],
   [1, 2, 2, 2, 2, 2, 2, 1],
   [1, 2, 2, 2, 2, 2, 1, 1],
   [1, 1, 1, 1, 1, 2, 0, 0],
   [0, 0, 1, 0, 0, 0, 0, 0],
   [0, 0, 0, 0, 0, 0, 0, 0]]
def cexB47 : Board := mkBoard
  [[2, 2, 2, 2, 2, 2, 2, 1],
   [2, 2, 2, 2, 2, 2, 2, 1],
   [2, 2, 2, 2, 2, 2, 2, 1],
   [1, 2, 2, 2, 2, 2, 2, 1],
   [1, 2, 2, 2, 2, 2, 1, 1],
   [1, 1, 1, 1, 1, 1, 1, 0],
   [0, 0, 1, 0, 0, 0, 0, 0],
   [0, 0, 0, 0, 0, 0, 0, 0]]
def cexB48 : Board := mkBoard
  [[2, 2, 2, 2, 2, 2, 2, 1],
   [2, 2, 2, 2, 2, 2, 2, 1],
   [2, 2, 2, 2, 2, 2, 2, 1],
   [1, 2, 2, 2, 2, 2, 2, 1],
   [1, 2, 2, 2, 2, 2, 2, 1],
   [1, 1, 1, 1, 1, 1, 1, 2],
   [0, 0, 1, 0, 0, 0, 0, 0],
   [0, 0, 0, 0, 0, 0, 0, 0]]
def cexB49 : Board := mkBoard
  [[2, 2, 2, 2, 2, 2, 2, 1],
   [2, 2, 2, 2, 2, 2, 2, 1],
   [2, 2, 2, 2, 2, 2, 2, 1],
   [1, 2, 2, 2, 2, 2, 2, 1],
   [1, 2, 2, 2, 2, 2, 2, 1],
   [1, 1, 1, 1, 1, 1, 1, 1],
   [0, 0, 1, 0, 0, 0, 0, 1],
   [0, 0, 0, 0, 0, 0, 0, 0]]
def cexB50 : Board := mkBoard
  [[2, 2, 2, 2, 2, 2, 2, 1],
   [2, 2, 2, 2, 2, 2, 2, 1],
   [2, 2, 2, 2, 2, 2, 2, 1],
   [2, 2, 2, 2, 2, 2, 2, 1],
   [2, 2, 2, 2, 2, 2, 2, 1],
   [2, 2, 1, 1, 1, 1, 1, 1],
   [2, 0, 1, 0, 0, 0, 0, 1],
   [0, 0, 0, 0, 0, 0, 0, 0]]
def cexB52 : Board := mkBoard
  [[2, 2, 2, 2, 2, 2, 2, 1],
   [2, 2, 2, 2, 2, 2, 2, 1],
   [2, 2, 2, 2, 2, 2, 2, 1],
   [2, 2, 2, 2, 2, 2, 2, 1],
   [2, 2, 2, 2, 2, 2, 2, 1],
   [2, 2, 2, 1, 1, 1, 1, 1],
   [2, 2, 1, 0, 0, 0, 0, 1],
   [0, 0, 0, 0, 0, 0, 0, 0]]
def cexB53 : Board := mkBoard
  [[2, 2, 2, 2, 2, 2, 2, 1],
   [2, 2, 2, 2, 2, 2, 1, 1],
   [2, 2, 2, 2, 2, 1, 2, 1],
   [2, 2, 2, 2, 1, 2, 2, 1],
   [2, 2, 2, 1, 2, 2, 2, 1],
   [2, 2, 1, 1, 1, 1, 1, 1],
   [2, 1, 1, 0, 0, 0, 0, 1],
   [1, 0, 0, 0, 0, 0, 0, 0]]
def cexB54 : Board := mkBoard
  [[2, 2, 2, 2, 2, 2, 2, 1],
   [2, 2, 2, 2, 2, 2, 1, 1],
   [2, 2, 2, 2, 2, 1, 2, 1],
   [2, 2, 2, 2, 1, 2, 2, 1],
   [2, 2, 2, 2, 2, 2, 2, 1],
   [2, 2, 2, 2, 2, 1, 1, 1],
   [2, 2, 2, 2, 0, 0, 0, 1],
   [1, 0, 0, 0, 0, 0, 0, 0]]
def cexB55 : Board := mkBoard
  [[2, 2, 2, 2, 2, 2, 2, 1],
   [2, 2, 2, 2, 2, 2, 1, 1],
   [2, 2, 2, 2, 2, 1, 2, 1],
   [2, 2, 2, 2, 1, 2, 2, 1],
   [2, 2, 2, 2, 1, 2, 2, 1],
   [2, 2, 2, 2, 1, 1, 1, 1],
   [2, 2, 2, 2, 1, 0, 0, 1],
   [1, 0, 0, 0, 0, 0, 0, 0]]
def cexB56 : Board := mkBoard
  [[2, 2, 2, 2, 2, 2, 2, 1],
   [2, 2, 2, 2, 2, 2, 1, 1],
   [2, 2, 2, 2, 2, 1, 2, 1],
   [2, 2, 2, 2, 1, 2, 2, 1],
   [2, 2, 2, 2, 1, 2, 2, 1],
   [2, 2, 2, 2, 2, 2, 1, 1],
   [2, 2, 2, 2, 2, 2, 0, 1],
   [1, 0, 0, 0, 0, 0, 0, 0]]
def cexB57 : Board := mkBoard
  [[2, 2, 2, 2, 2, 2, 2, 1],
   [2, 2, 2, 2, 2, 2, 1, 1],
   [2, 2, 2, 2, 2, 1, 2, 1],
   [2, 2, 2, 2, 1, 2, 2, 1],
   [2, 2, 2, 2, 1, 2, 2, 1],
   [2, 2, 2, 2, 2, 1, 1, 1],
   [2, 2, 2, 2, 2, 2, 1, 1],
   [1, 0, 0, 0, 0, 0, 0, 0]]
def cexB58 : Board := mkBoard
  [[2, 2, 2, 2, 2, 2, 2, 1],
   [2, 2, 2, 2, 2, 2, 1, 1],
   [2, 2, 2, 2, 2, 1, 2, 1],
   [2, 2, 2, 2, 1, 2, 2, 1],
   [2, 2, 2, 2, 1, 2, 2, 1],
   [2, 2, 2, 2, 2, 1, 2, 1],
   [2, 2, 2, 2, 2, 2, 2, 1],
   [1, 0, 0, 0, 0, 0, 2, 0]]
def cexB59 : Board := mkBoard
  [[2, 2, 2, 2, 2, 2, 2, 1],
   [2, 2, 2, 2, 2, 2, 1, 1],
   [2, 2, 2, 2, 2, 1, 2, 1],
   [2, 2, 2, 2, 1, 2, 2, 1],
   [2, 2, 2, 2, 1, 2, 2, 1],
   [2, 2, 2, 1, 2, 1, 2, 1],
   [2, 2, 1, 2, 2, 2, 2, 1],
   [1, 1, 0, 0, 0, 0, 2, 0]]
def cexB60 : Board := mkBoard
  [[2, 2, 2, 2, 2, 2, 2, 1],
   [2, 2, 2, 2, 2, 2, 1, 1],
   [2, 2, 2, 2, 2, 1, 2, 1],
   [2, 2, 2, 2, 1, 2, 2, 1],
   [2, 2, 2, 2, 1, 2, 2, 1],
   [2, 2, 2, 1, 2, 1, 2, 1],
   [2, 2, 2, 2, 2, 2, 2, 1],
   [1, 1, 2, 0, 0, 0, 2, 0]]

set_option maxRecDepth 100000 in
set_option maxHeartbeats 1600000 in
/-- C6 counterexample: starting from the standard opening (a reachable
board state) with player 1 to move, under the draw stream constantly
1/2 the driver's while loop is still running after 60 iterations —
`loopA` with fuel 60 exhausts its fuel with the guard still true — so
the loop does not terminate within 60 turns. -/
theorem C6_counterexample :
    loopA halfStream 60 (initState openingBoard 1 (fun _ => 0)) = none := by
  have hb0 : ∀ g, bAgree
      ((initState openingBoard 1 (fun _ => 0)).boards g) openingBoard :=
    fun g x hx y hy => rfl
  have h00 : ∀ g, (initState openingBoard 1 (fun _ => 0)).status g 0 = 0 :=
    fun g => rfl
  have h10 : ∀ g, (initState openingBoard 1 (fun _ => 0)).status g 1 = 0 :=
    fun g => rfl
  have hp0 : (initState openingBoard 1 (fun _ => 0)).player = 1 := rfl
  obtain ⟨hb1, h01, h11, hp1, hc0⟩ :=
    halfStep_inv_play _ openingBoard cexB1 1 2 3 0 0
      hb0 h00 h10 hp0 (Or.inl rfl) (by decide) (by decide) (by decide)
      (by decide) (by decide) (by decide)
  obtain ⟨hb2, h02, h12, hp2, hc1⟩ :=
    halfStep_inv_play _ cexB1 cexB2 2 2 2 0 0
      hb1 h01 h11 hp1 (Or.inr rfl) (by decide) (by decide) (by decide)
      (by decide) (by decide) (by decide)
  obtain ⟨hb3, h03, h13, hp3, hc2⟩ :=
    halfStep_inv_play _ cexB2 cexB3 1 2 1 0 0
      hb2 h02 h12 hp2 (Or.inl rfl) (by decide) (by decide) (by decide)
      (by decide) (by decide) (by decide)
  obtain ⟨hb4, h04, h14, hp4, hc3⟩ :=
    halfStep_inv_play _ cexB3 cexB4 2 1 1 0 0
      hb3 h03 h13 hp3 (Or.inr rfl) (by decide) (by decide) (by decide)
      (by decide) (by decide) (by decide)
  obtain ⟨hb5, h05, h15, hp5, hc4⟩ :=
    halfStep_inv_play _ cexB4 cexB5 1 0 1 0 0
      hb4 h04 h14 hp4 (Or.inl rfl) (by decide) (by decide) (by decide)
      (by decide) (by decide) (by decide)
  obtain ⟨hb6, h06, h16, hp6, hc5⟩ :=
    halfStep_inv_play _ cexB5 cexB6 2 0 0 0 0
      hb5 h05 h15 hp5 (Or.inr rfl) (by decide) (by decide) (by decide)
      (by decide) (by decide) (by decide)
  obtain ⟨hb7, h07, h17, hp7, hc6⟩ :=
    halfStep_inv_play _ cexB6 cexB7 1 3 2 0 0
      hb6 h06 h16 hp6 (Or.inl rfl) (by decide) (by decide) (by decide)
      (by decide) (by decide) (by decide)
  obtain ⟨hb8, h08, h18, hp8, hc7⟩ :=
    halfStep_inv_play _ cexB7 cexB8 2 0 2 0 0
      hb7 h07 h17 hp7 (Or.inr rfl) (by decide) (by decide) (by decide)
      (by decide) (by decide) (by decide)
  obtain ⟨hb9, h09, h19, hp9, hc8⟩ :=
    halfStep_inv_play _ cexB8 cexB9 1 1 2 0 0
      hb8 h08 h18 hp8 (Or.inl rfl) (by decide) (by decide) (by decide)
      (by decide) (by decide) (by decide)
  obtain ⟨hb10, h010, h110, hp10, hc9⟩ :=
    halfStep_inv_play _ cexB9 cexB10 2 1 3 0 0
      hb9 h09 h19 hp9 (Or.inr rfl) (by decide) (by decide) (by decide)
      (by decide) (by decide) (by decide)
  obtain ⟨hb11, h011, h111, hp11, hc10⟩ :=
    halfStep_inv_play _ cexB10 cexB11 1 0 3 0 0
      hb10 h010 h110 hp10 (Or.inl rfl) (by decide) (by decide) (by decide)
      (by decide) (by decide) (by decide)
  obtain ⟨hb12, h012, h112, hp12, hc11⟩ :=
    halfStep_inv_play _ cexB11 cexB12 2 0 4 0 0
      hb11 h011 h111 hp11 (Or.inr rfl) (by decide) (by decide) (by decide)
      (by decide) (by decide) (by decide)
  obtain ⟨hb13, h013, h113, hp13, hc12⟩ :=
    halfStep_inv_play _ cexB12 cexB13 1 1 0 0 0
      hb12 h012 h112 hp12 (Or.inl rfl) (by decide) (by decide) (by decide)
      (by decide) (by decide) (by decide)
  obtain ⟨hb14, h014, h114, hp14, hc13⟩ :=
    halfStep_inv_play _ cexB13 cexB14 2 2 0 0 0
      hb13 h013 h113 hp13 (Or.inr rfl) (by decide) (by decide) (by decide)
      (by decide) (by decide) (by decide)
  obtain ⟨hb15, h015, h115, hp15, hc14⟩ :=
    halfStep_inv_play _ cexB14 cexB15 1 4 5 0 0
      hb14 h014 h114 hp14 (Or.inl rfl) (by decide) (by decide) (by decide)
      (by decide) (by decide) (by decide)
  obtain ⟨hb16, h016, h116, hp16, hc15⟩ :=
    halfStep_inv_play _ cexB15 cexB16 2 1 4 0 0
      hb15 h015 h115 hp15 (Or.inr rfl) (by decide) (by decide) (by decide)
      (by decide) (by decide) (by decide)
  obtain ⟨hb17, h017, h117, hp17, hc16⟩ :=
    halfStep_inv_play _ cexB16 cexB17 1 0 5 0 0
      hb16 h016 h116 hp16 (Or.inl rfl) (by decide) (by decide) (by decide)
      (by decide) (by decide) (by decide)
  obtain ⟨hb18, h018, h118, hp18, hc17⟩ :=
    halfStep_inv_play _ cexB17 cexB18 2 0 6 0 0
      hb17 h017 h117 hp17 (Or.inr rfl) (by decide) (by decide) (by decide)
      (by decide) (by decide) (by decide)
  obtain ⟨hb19, h019, h119, hp19, hc18⟩ :=
    halfStep_inv_pass _ cexB18 1 0 0
      hb18 h018 h118 hp18 (by decide) (by decide)
  obtain ⟨hb20, h020, h120, hp20, hc19⟩ :=
    halfStep_inv_play _ cexB18 cexB20 2 1 5 1 0
      hb19 h019 h119 hp19 (Or.inr rfl) (by decide) (by decide) (by decide)
      (by decide) (by decide) (by decide)
  obtain ⟨hb21, h021, h121, hp21, hc20⟩ :=
    halfStep_inv_pass _ cexB20 1 1 0
      hb20 h020 h120 hp20 (by decide) (by decide)
  obtain ⟨hb22, h022, h122, hp22, hc21⟩ :=
    halfStep_inv_play _ cexB20 cexB22 2 2 4 1 0
      hb21 h021 h121 hp21 (Or.inr rfl) (by decide) (by decide) (by decide)
      (by decide) (by decide) (by decide)
  obtain ⟨hb23, h023, h123, hp23, hc22⟩ :=
    halfStep_inv_pass _ cexB22 1 1 0
      hb22 h022 h122 hp22 (by decide) (by decide)
  obtain ⟨hb24, h024, h124, hp24, hc23⟩ :=
    halfStep_inv_play _ cexB22 cexB24 2 4 1 1 0
      hb23 h023 h123 hp23 (Or.inr rfl) (by decide) (by decide) (by decide)
      (by decide) (by decide) (by decide)
  obtain ⟨hb25, h025, h125, hp25, hc24⟩ :=
    halfStep_inv_play _ cexB24 cexB25 1 3 1 1 0
      hb24 h024 h124 hp24 (Or.inl rfl) (by decide) (by decide) (by decide)
      (by decide) (by decide) (by decide)
  obtain ⟨hb26, h026, h126, hp26, hc25⟩ :=
    halfStep_inv_play _ cexB25 cexB26 2 4 0 0 0
      hb25 h025 h125 hp25 (Or.inr rfl) (by decide) (by decide) (by decide)
      (by decide) (by decide) (by decide)
  obtain ⟨hb27, h027, h127, hp27, hc26⟩ :=
    halfStep_inv_play _ cexB26 cexB27 1 3 0 0 0
      hb26 h026 h126 hp26 (Or.inl rfl) (by decide) (by decide) (by decide)
      (by decide) (by decide) (by decide)
  obtain ⟨hb28, h028, h128, hp28, hc27⟩ :=
    halfStep_inv_play _ cexB27 cexB28 2 4 2 0 0
      hb27 h027 h127 hp27 (Or.inr rfl) (by decide) (by decide) (by decide)
      (by decide) (by decide) (by decide)
  obtain ⟨hb29, h029, h129, hp29, hc28⟩ :=
    halfStep_inv_play _ cexB28 cexB29 1 5 0 0 0
      hb28 h028 h128 hp28 (Or.inl rfl) (by decide) (by decide) (by decide)
      (by decide) (by decide) (by decide)
  obtain ⟨hb30, h030, h130, hp30, hc29⟩ :=
    halfStep_inv_play _ cexB29 cexB30 2 3 5 0 0
      hb29 h029 h129 hp29 (Or.inr rfl) (by decide) (by decide) (by decide)
      (by decide) (by decide) (by decide)
  obtain ⟨hb31, h031, h131, hp31, hc30⟩ :=
    halfStep_inv_play _ cexB30 cexB31 1 2 5 0 0
      hb30 h030 h130 hp30 (Or.inl rfl) (by decide) (by decide) (by decide)
      (by decide) (by decide) (by decide)
  obtain ⟨hb32, h032, h132, hp32, hc31⟩ :=
    halfStep_inv_play _ cexB31 cexB32 2 2 6 0 0
      hb31 h031 h131 hp31 (Or.inr rfl) (by decide) (by decide) (by decide)
      (by decide) (by decide) (by decide)
  obtain ⟨hb33, h033, h133, hp33, hc32⟩ :=
    halfStep_inv_play _ cexB32 cexB33 1 1 6 0 0
      hb32 h032 h132 hp32 (Or.inl rfl) (by decide) (by decide) (by decide)
      (by decide) (by decide) (by decide)
  obtain ⟨hb34, h034, h134, hp34, hc33⟩ :=
    halfStep_inv_play _ cexB33 cexB34 2 1 7 0 0
      hb33 h033 h133 hp33 (Or.inr rfl) (by decide) (by decide) (by decide)
      (by decide) (by decide) (by decide)
  obtain ⟨hb35, h035, h135, hp35, hc34⟩ :=
    halfStep_inv_play _ cexB34 cexB35 1 0 7 0 0
      hb34 h034 h134 hp34 (Or.inl rfl) (by decide) (by decide) (by decide)
      (by decide) (by decide) (by decide)
  obtain ⟨hb36, h036, h136, hp36, hc35⟩ :=
    halfStep_inv_play _ cexB35 cexB36 2 2 7 0 0
      hb35 h035 h135 hp35 (Or.inr rfl) (by decide) (by decide) (by decide)
      (by decide) (by decide) (by decide)
  obtain ⟨hb37, h037, h137, hp37, hc36⟩ :=
    halfStep_inv_play _ cexB36 cexB37 1 3 7 0 0
      hb36 h036 h136 hp36 (Or.inl rfl) (by decide) (by decide) (by decide)
      (by decide) (by decide) (by decide)
  obtain ⟨hb38, h038, h138, hp38, hc37⟩ :=
    halfStep_inv_play _ cexB37 cexB38 2 3 6 0 0
      hb37 h037 h137 hp37 (Or.inr rfl) (by decide) (by decide) (by decide)
      (by decide) (by decide) (by decide)
  obtain ⟨hb39, h039, h139, hp39, hc38⟩ :=
    halfStep_inv_play _ cexB38 cexB39 1 5 2 0 0
      hb38 h038 h138 hp38 (Or.inl rfl) (by decide) (by decide) (by decide)
      (by decide) (by decide) (by decide)
  obtain ⟨hb40, h040, h140, hp40, hc39⟩ :=
    halfStep_inv_play _ cexB39 cexB40 2 4 6 0 0
      hb39 h039 h139 hp39 (Or.inr rfl) (by decide) (by decide) (by decide)
      (by decide) (by decide) (by decide)
  obtain ⟨hb41, h041, h141, hp41, hc40⟩ :=
    halfStep_inv_play _ cexB40 cexB41 1 4 7 0 0
      hb40 h040 h140 hp40 (Or.inl rfl) (by decide) (by decide) (by decide)
      (by decide) (by decide) (by decide)
  obtain ⟨hb42, h042, h142, hp42, hc41⟩ :=
    halfStep_inv_play _ cexB41 cexB42 2 5 1 0 0
      hb41 h041 h141 hp41 (Or.inr rfl) (by decide) (by decide) (by decide)
      (by decide) (by decide) (by decide)
  obtain ⟨hb43, h043, h143, hp43, hc42⟩ :=
    halfStep_inv_play _ cexB42 cexB43 1 6 2 0 0
      hb42 h042 h142 hp42 (Or.inl rfl) (by decide) (by decide) (by decide)
      (by decide) (by decide) (by decide)
  obtain ⟨hb44, h044, h144, hp44, hc43⟩ :=
    halfStep_inv_play _ cexB43 cexB44 2 5 3 0 0
      hb43 h043 h143 hp43 (Or.inr rfl) (by decide) (by decide) (by decide)
      (by decide) (by decide) (by decide)
  obtain ⟨hb45, h045, h145, hp45, hc44⟩ :=
    halfStep_inv_play _ cexB44 cexB45 1 5 4 0 0
      hb44 h044 h144 hp44 (Or.inl rfl) (by decide) (by decide) (by decide)
      (by decide) (by decide) (by decide)
  obtain ⟨hb46, h046, h146, hp46, hc45⟩ :=
    halfStep_inv_play _ cexB45 cexB46 2 5 5 0 0
      hb45 h045 h145 hp45 (Or.inr rfl) (by decide) (by decide) (by decide)
      (by decide) (by decide) (by decide)
  obtain ⟨hb47, h047, h147, hp47, hc46⟩ :=
    halfStep_inv_play _ cexB46 cexB47 1 5 6 0 0
      hb46 h046 h146 hp46 (Or.inl rfl) (by decide) (by decide) (by decide)
      (by decide) (by decide) (by decide)
  obtain ⟨hb48, h048, h148, hp48, hc47⟩ :=
    halfStep_inv_play _ cexB47 cexB48 2 5 7 0 0
      hb47 h047 h147 hp47 (Or.inr rfl) (by decide) (by decide) (by decide)
      (by decide) (by decide) (by decide)
  obtain ⟨hb49, h049, h149, hp49, hc48⟩ :=
    halfStep_inv_play _ cexB48 cexB49 1 6 7 0 0
      hb48 h048 h148 hp48 (Or.inl rfl) (by decide) (by decide) (by decide)
      (by decide) (by decide) (by decide)
  obtain ⟨hb50, h050, h150, hp50, hc49⟩ :=
    halfStep_inv_play _ cexB49 cexB50 2 6 0 0 0
      hb49 h049 h149 hp49 (Or.inr rfl) (by decide) (by decide) (by decide)
      (by decide) (by decide) (by decide)
  obtain ⟨hb51, h051, h151, hp51, hc50⟩ :=
    halfStep_inv_pass _ cexB50 1 0 0
      hb50 h050 h150 hp50 (by decide) (by decide)
  obtain ⟨hb52, h052, h152, hp52, hc51⟩ :=
    halfStep_inv_play _ cexB50 cexB52 2 6 1 1 0
      hb51 h051 h151 hp51 (Or.inr rfl) (by decide) (by decide) (by decide)
      (by decide) (by decide) (by decide)
  obtain ⟨hb53, h053, h153, hp53, hc52⟩ :=
    halfStep_inv_play _ cexB52 cexB53 1 7 0 1 0
      hb52 h052 h152 hp52 (Or.inl rfl) (by decide) (by decide) (by decide)
      (by decide) (by decide) (by decide)
  obtain ⟨hb54, h054, h154, hp54, hc53⟩ :=
    halfStep_inv_play _ cexB53 cexB54 2 6 3 0 0
      hb53 h053 h153 hp53 (Or.inr rfl) (by decide) (by decide) (by decide)
      (by decide) (by decide) (by decide)
  obtain ⟨hb55, h055, h155, hp55, hc54⟩ :=
    halfStep_inv_play _ cexB54 cexB55 1 6 4 0 0
      hb54 h054 h154 hp54 (Or.inl rfl) (by decide) (by decide) (by decide)
      (by decide) (by decide) (by decide)
  obtain ⟨hb56, h056, h156, hp56, hc55⟩ :=
    halfStep_inv_play _ cexB55 cexB56 2 6 5 0 0
      hb55 h055 h155 hp55 (Or.inr rfl) (by decide) (by decide) (by decide)
      (by decide) (by decide) (by decide)
  obtain ⟨hb57, h057, h157, hp57, hc56⟩ :=
    halfStep_inv_play _ cexB56 cexB57 1 6 6 0 0
      hb56 h056 h156 hp56 (Or.inl rfl) (by decide) (by decide) (by decide)
      (by decide) (by decide) (by decide)
  obtain ⟨hb58, h058, h158, hp58, hc57⟩ :=
    halfStep_inv_play _ cexB57 cexB58 2 7 6 0 0
      hb57 h057 h157 hp57 (Or.inr rfl) (by decide) (by decide) (by decide)
      (by decide) (by decide) (by decide)
  obtain ⟨hb59, h059, h159, hp59, hc58⟩ :=
    halfStep_inv_play _ cexB58 cexB59 1 7 1 0 0
      hb58 h058 h158 hp58 (Or.inl rfl) (by decide) (by decide) (by decide)
      (by decide) (by decide) (by decide)
  obtain ⟨hb60, h060, h160, hp60, hc59⟩ :=
    halfStep_inv_play _ cexB59 cexB60 2 7 2 0 0
      hb59 h059 h159 hp59 (Or.inr rfl) (by decide) (by decide) (by decide)
      (by decide) (by decide) (by decide)
  refine Eq.trans (loopA_step halfStream 59 _ hc0) ?_
  refine Eq.trans (loopA_step halfStream 58 _ hc1) ?_
  refine Eq.trans (loopA_step halfStream 57 _ hc2) ?_
  refine Eq.trans (loopA_step halfStream 56 _ hc3) ?_
  refine Eq.trans (loopA_step halfStream 55 _ hc4) ?_
  refine Eq.trans (loopA_step halfStream 54 _ hc5) ?_
  refine Eq.trans (loopA_step halfStream 53 _ hc6) ?_
  refine Eq.trans (loopA_step halfStream 52 _ hc7) ?_
  refine Eq.trans (loopA_step halfStream 51 _ hc8) ?_
  refine Eq.trans (loopA_step halfStream 50 _ hc9) ?_
  refine Eq.trans (loopA_step halfStream 49 _ hc10) ?_
  refine Eq.trans (loopA_step halfStream 48 _ hc11) ?_
  refine Eq.trans (loopA_step halfStream 47 _ hc12) ?_
  refine Eq.trans (loopA_step halfStream 46 _ hc13) ?_
  refine Eq.trans (loopA_step halfStream 45 _ hc14) ?_
  refine Eq.trans (loopA_step halfStream 44 _ hc15) ?_
  refine Eq.trans (loopA_step halfStream 43 _ hc16) ?_
  refine Eq.trans (loopA_step halfStream 42 _ hc17) ?_
  refine Eq.trans (loopA_step halfStream 41 _ hc18) ?_
  refine Eq.trans (loopA_step halfStream 40 _ hc19) ?_
  refine Eq.trans (loopA_step halfStream 39 _ hc20) ?_
  refine Eq.trans (loopA_step halfStream 38 _ hc21) ?_
  refine Eq.trans (loopA_step halfStream 37 _ hc22) ?_
  refine Eq.trans (loopA_step halfStream 36 _ hc23) ?_
  refine Eq.trans (loopA_step halfStream 35 _ hc24) ?_
  refine Eq.trans (loopA_step halfStream 34 _ hc25) ?_
  refine Eq.trans (loopA_step halfStream 33 _ hc26) ?_
  refine Eq.trans (loopA_step halfStream 32 _ hc27) ?_
  refine Eq.trans (loopA_step halfStream 31 _ hc28) ?_
  refine Eq.trans (loopA_step halfStream 30 _ hc29) ?_
  refine Eq.trans (loopA_step halfStream 29 _ hc30) ?_
  refine Eq.trans (loopA_step halfStream 28 _ hc31) ?_
  refine Eq.trans (loopA_step halfStream 27 _ hc32) ?_
  refine Eq.trans (loopA_step halfStream 26 _ hc33) ?_
  refine Eq.trans (loopA_step halfStream 25 _ hc34) ?_
  refine Eq.trans (loopA_step halfStream 24 _ hc35) ?_
  refine Eq.trans (loopA_step halfStream 23 _ hc36) ?_
  refine Eq.trans (loopA_step halfStream 22 _ hc37) ?_
  refine Eq.trans (loopA_step halfStream 21 _ hc38) ?_
  refine Eq.trans (loopA_step halfStream 20 _ hc39) ?_
  refine Eq.trans (loopA_step halfStream 19 _ hc40) ?_
  refine Eq.trans (loopA_step halfStream 18 _ hc41) ?_
  refine Eq.trans (loopA_step halfStream 17 _ hc42) ?_
  refine Eq.trans (loopA_step halfStream 16 _ hc43) ?_
  refine Eq.trans (loopA_step halfStream 15 _ hc44) ?_
  refine Eq.trans (loopA_step halfStream 14 _ hc45) ?_
  refine Eq.trans (loopA_step halfStream 13 _ hc46) ?_
  refine Eq.trans (loopA_step halfStream 12 _ hc47) ?_
  refine Eq.trans (loopA_step halfStream 11 _ hc48) ?_
  refine Eq.trans (loopA_step halfStream 10 _ hc49) ?_
  refine Eq.trans (loopA_step halfStream 9 _ hc50) ?_
  refine Eq.trans (loopA_step halfStream 8 _ hc51) ?_
  refine Eq.trans (loopA_step halfStream 7 _ hc52) ?_
  refine Eq.trans (loopA_step halfStream 6 _ hc53) ?_
  refine Eq.trans (loopA_step halfStream 5 _ hc54) ?_
  refine Eq.trans (loopA_step halfStream 4 _ hc55) ?_
  refine Eq.trans (loopA_step halfStream 3 _ hc56) ?_
  refine Eq.trans (loopA_step halfStream 2 _ hc57) ?_
  refine Eq.trans (loopA_step halfStream 1 _ hc58) ?_
  refine Eq.trans (loopA_step halfStream 0 _ hc59) ?_
  have hz := statusSum_uniform _ 0 0 h060 h160
  rw [loopA, if_pos (lt_of_eq_of_lt hz (by decide))]

/-!
C6 amended theorem: per-iteration monotonicity and termination.  A turn
either passes (board frozen, mover's flag set) or places a token on an
empty cell (that game's empty count decreases by exactly one), and the
driver's while loop exits within `2 * totalEmpty + 2` iterations — not
within 60, as the counterexample above shows.
-/

/-- The mover has a legal move on `b`: an empty cell with a capturing
ray — exactly the condition under which that cell's `find_actions`
thread takes the branch that writes its draw. -/
def hasMove (b : Board) (p : Nat) : Prop :=
  ∃ x < 8, ∃ y < 8, b x y = 0 ∧ (dirScan b x y p).1 = true

/-- The score-accumulation of one `find_actions` row, cell by cell
(recursive form of the `rowScores` fold, for reasoning by induction). -/
def faFold (stream : DrawStream) (tid pos0 : Nat) (b : Board) (p tx : Nat) :
    Nat → (Nat → ℚ) × Nat
  | 0 => ((fun _ => 0), 0)
  | n + 1 =>
    let acc : (Nat → ℚ) × Nat := faFold stream tid pos0 b p tx n
    let r := find_actions_cell (stream tid (pos0 + acc.2)) b p tx n
    (fun c => if c = n then r.1 else acc.1 c, acc.2 + (if r.2 then 1 else 0))

theorem faFold_eq_rowScores (stream : DrawStream) (tid pos0 : Nat)
    (b : Board) (p tx : Nat) :
    rowScores stream tid pos0 b p tx = faFold stream tid pos0 b p tx 8 := by
  have key : ∀ n, (List.range n).foldl
      (fun (acc : (Nat → ℚ) × Nat) ty =>
        let r := find_actions_cell (stream tid (pos0 + acc.2)) b p tx ty
        (fun c => if c = ty then r.1 else acc.1 c,
         acc.2 + (if r.2 then 1 else 0)))
      ((fun _ => 0), 0) = faFold stream tid pos0 b p tx n := by
    intro n
    induction n with
    | zero => rfl
    | succ m ih =>
      rw [List.range_succ, List.foldl_append, List.foldl_cons, List.foldl_nil,
        ih]
      rfl
  exact key 8

/-- Each cell's score is 0 when the cell is occupied or capture-less,
and is some stream draw (at an offset from `pos0`) when the cell is a
legal move. -/
theorem faFold_spec (stream : DrawStream) (tid pos0 : Nat) (b : Board)
    (p tx : Nat) :
    ∀ n, (∀ ty, n ≤ ty → (faFold stream tid pos0 b p tx n).1 ty = 0) ∧
      (∀ ty, ty < n →
        (¬(b tx ty = 0 ∧ (dirScan b tx ty p).1 = true) →
          (faFold stream tid pos0 b p tx n).1 ty = 0) ∧
        ((b tx ty = 0 ∧ (dirScan b tx ty p).1 = true) →
          ∃ d, (faFold stream tid pos0 b p tx n).1 ty =
            stream tid (pos0 + d))) := by
  intro n
  induction n with
  | zero =>
    exact ⟨fun ty _ => rfl, fun ty hty => absurd hty (Nat.not_lt_zero ty)⟩
  | succ m ih =>
    obtain ⟨ihz, ihlt⟩ := ih
    have hup : ∀ ty2, (faFold stream tid pos0 b p tx (m + 1)).1 ty2 =
        if ty2 = m then
          (find_actions_cell
            (stream tid (pos0 + (faFold stream tid pos0 b p tx m).2))
            b p tx m).1
        else (faFold stream tid pos0 b p tx m).1 ty2 := fun ty2 => rfl
    constructor
    · intro ty hty
      rw [hup ty, if_neg (by omega)]
      exact ihz ty (by omega)
    · intro ty hty
      by_cases hque : ty = m
      · subst hque
        constructor
        · intro hnl
          rw [hup ty, if_pos rfl]
          unfold find_actions_cell
          by_cases h0 : b tx ty ≠ 0
          · rw [if_pos h0]
          · rw [if_neg h0]
            have hempty : b tx ty = 0 := not_not.mp h0
            have hnh : ¬(dirScan b tx ty p).1 = true :=
              fun hh => hnl ⟨hempty, hh⟩
            rw [if_neg hnh]
        · intro hl
          rw [hup ty, if_pos rfl]
          refine ⟨(faFold stream tid pos0 b p tx ty).2, ?_⟩
          unfold find_actions_cell
          rw [if_neg (fun hcon => hcon hl.1), if_pos hl.2]
      · have h2 : ty < m := by omega
        refine ⟨fun hnl => ?_, fun hl => ?_⟩
        · rw [hup ty, if_neg hque]
          exact (ihlt ty h2).1 hnl
        · obtain ⟨d, hd⟩ := (ihlt ty h2).2 hl
          refine ⟨d, ?_⟩
          rw [hup ty, if_neg hque]
          exact hd

/-- `rowScores` score characterization at one cell of the row. -/
theorem rowScores_spec (stream : DrawStream) (tid pos0 : Nat) (b : Board)
    (p tx ty : Nat) (hty : ty < 8) :
    (¬(b tx ty = 0 ∧ (dirScan b tx ty p).1 = true) →
      (rowScores stream tid pos0 b p tx).1 ty = 0) ∧
    ((b tx ty = 0 ∧ (dirScan b tx ty p).1 = true) →
      ∃ d, (rowScores stream tid pos0 b p tx).1 ty =
        stream tid (pos0 + d)) := by
  rw [faFold_eq_rowScores]
  exact (faFold_spec stream tid pos0 b p tx 8).2 ty hty

/-- With strictly positive draws, the score grid of a game is
non-negative, and a cell scores positive exactly when it is a legal
move of the current player. -/
theorem gameProbs_spec (stream : DrawStream) (s : RState) (g : Nat)
    (hpos : ∀ t i, 0 < stream t i) :
    ∀ tx, tx < 8 → ∀ ty, ty < 8 →
      0 ≤ gameProbs stream s g tx ty ∧
      (0 < gameProbs stream s g tx ty ↔
        (s.boards g tx ty = 0 ∧
          (dirScan (s.boards g) tx ty s.player).1 = true)) := by
  intro tx htx ty hty
  have h := rowScores_spec stream (g * 8 + tx) (s.pos (g * 8 + tx))
    (s.boards g) s.player tx ty hty
  by_cases hleg : s.boards g tx ty = 0 ∧
      (dirScan (s.boards g) tx ty s.player).1 = true
  · obtain ⟨d, hd⟩ := h.2 hleg
    have heq : gameProbs stream s g tx ty =
        stream (g * 8 + tx) (s.pos (g * 8 + tx) + d) := hd
    constructor
    · rw [heq]
      exact le_of_lt (hpos _ _)
    · constructor
      · intro _
        exact hleg
      · intro _
        rw [heq]
        exact hpos _ _
  · have hz : gameProbs stream s g tx ty = 0 := h.1 hleg
    rw [hz]
    exact ⟨le_refl 0, ⟨fun hc => absurd hc (lt_irrefl 0),
      fun hc => absurd hc hleg⟩⟩

set_option maxRecDepth 8000 in
/-- The two-phase reduction either returns the sentinel with the whole
grid non-positive, or an on-grid cell with a positive score. -/
theorem chosen_cases (pr : Probs) (hnn : ∀ i < 8, ∀ j < 8, 0 ≤ pr i j) :
    (chosen pr = (-1, -1) ∧ ∀ i < 8, ∀ j < 8, ¬0 < pr i j) ∨
    (∃ r c : Nat, r < 8 ∧ c < 8 ∧ chosen pr = ((r : Int), (c : Int)) ∧
      0 < pr r c) := by
  obtain ⟨hk8, hveq, hub, _⟩ := scan8_spec (rowMaxes pr) (rowMaxes_nonneg pr hnn)
  by_cases hpos : 0 < (scanMax (rowMaxes pr) 8).1
  · right
    obtain ⟨hc8, hcv, _, _⟩ :=
      scan8_spec (fun j => pr (scanMax (rowMaxes pr) 8).2 j)
        (hnn _ hk8)
    refine ⟨(scanMax (rowMaxes pr) 8).2,
      (rowArg pr (scanMax (rowMaxes pr) 8).2).2, hk8, hc8, ?_, ?_⟩
    · rw [chosen_eq, if_pos hpos]
    · have h1 : (rowArg pr (scanMax (rowMaxes pr) 8).2).1 =
          pr (scanMax (rowMaxes pr) 8).2
            (rowArg pr (scanMax (rowMaxes pr) 8).2).2 := hcv
      have h2 : (scanMax (rowMaxes pr) 8).1 =
          (rowArg pr (scanMax (rowMaxes pr) 8).2).1 := hveq
      rw [← h1, ← h2]
      exact hpos
  · left
    constructor
    · rw [chosen_eq, if_neg hpos]
    · intro i hi j hj hcon
      have h1 : pr i j ≤ rowMaxes pr i :=
        (scan8_spec (fun j => pr i j) (hnn i hi)).2.2.1 j hj
      have h2 : rowMaxes pr i ≤ (scanMax (rowMaxes pr) 8).1 := hub i hi
      have h3 : (scanMax (rowMaxes pr) 8).1 ≤ 0 := le_of_not_lt hpos
      exact absurd (lt_of_lt_of_le hcon (le_trans h1 (le_trans h2 h3)))
        (lt_irrefl 0)

theorem emptyCount_pos_of_empty (b : Board) (x y : Nat) (hx : x < 8)
    (hy : y < 8) (h : b x y = 0) : 0 < emptyCount b := by
  unfold emptyCount
  apply Finset.card_pos.mpr
  exact ⟨(x, y), Finset.mem_filter.mpr
    ⟨Finset.mem_product.mpr
      ⟨Finset.mem_range.mpr hx, Finset.mem_range.mpr hy⟩, h⟩⟩

theorem hasMove_emptyCount (b : Board) (p : Nat) (h : hasMove b p) :
    0 < emptyCount b := by
  obtain ⟨x, hx, y, hy, h0, _⟩ := h
  exact emptyCount_pos_of_empty b x y hx hy h0

/-- A placement fills exactly the selected (empty) cell: the flips only
recolor occupied cells, so the empty count decreases by exactly one. -/
theorem emptyCount_play (b : Board) (p r c : Nat) (hp : p = 1 ∨ p = 2)
    (hwf : WF b) (hr : r < 8) (hc : c < 8) (hb0 : b r c = 0) :
    emptyCount (bset (execRays b p ((r : Int)) ((c : Int)))
      ((r : Int)) ((c : Int)) p) + 1 = emptyCount b := by
  have hp0 : p ≠ 0 := by rcases hp with rfl | rfl <;> decide
  have hinb : inb ((r : Int)) ((c : Int)) = true := by
    rw [inb_iff]
    omega
  have hcells : ∀ x, x < 8 → ∀ y, y < 8 →
      (bset (execRays b p ((r : Int)) ((c : Int))) ((r : Int)) ((c : Int))
          p x y = 0 ↔
        (b x y = 0 ∧ ¬(x = r ∧ y = c))) := by
    intro x hx y hy
    rw [bset_eval]
    by_cases hxy : x = r ∧ y = c
    · rw [if_pos ⟨hinb, hxy.1, hxy.2⟩]
      constructor
      · intro h
        exact absurd h hp0
      · rintro ⟨_, hne⟩
        exact absurd hxy hne
    · rw [if_neg (fun hcon => hxy ⟨hcon.2.1, hcon.2.2⟩)]
      rw [execRays_eq b p ((r : Int)) ((c : Int)) hwf hp hinb, capBoard_eval]
      by_cases hcap : ∃ i < 8, capCell b p ((r : Int)) ((c : Int)) i x y
      · rw [if_pos hcap]
        constructor
        · intro h
          exact absurd h hp0
        · rintro ⟨hbz, _⟩
          exfalso
          obtain ⟨i, hi, hhit, k, hklt, hk1, hinbk, hxeq, hyeq⟩ := hcap
          obtain ⟨_, _, hline, _⟩ :=
            hit_run b ((r : Int)) ((c : Int)) i p hi hwf hp hinb hhit
          have hcellv := (hline k hk1 (by omega)).2
          rw [bget_eval, if_pos hinbk] at hcellv
          rw [hxeq, hyeq] at hbz
          rw [hbz] at hcellv
          rcases hp with rfl | rfl <;> exact absurd hcellv (by decide)
      · rw [if_neg hcap]
        constructor
        · intro h
          exact ⟨h, hxy⟩
        · rintro ⟨h, _⟩
          exact h
  have hmem : ((r, c) : Nat × Nat) ∈
      ((Finset.range 8) ×ˢ (Finset.range 8)).filter
        (fun q => b q.1 q.2 = 0) :=
    Finset.mem_filter.mpr ⟨Finset.mem_product.mpr
      ⟨Finset.mem_range.mpr hr, Finset.mem_range.mpr hc⟩, hb0⟩
  have hseteq : ((Finset.range 8) ×ˢ (Finset.range 8)).filter
      (fun q => bset (execRays b p ((r : Int)) ((c : Int)))
        ((r : Int)) ((c : Int)) p q.1 q.2 = 0) =
      (((Finset.range 8) ×ˢ (Finset.range 8)).filter
        (fun q => b q.1 q.2 = 0)).erase (r, c) := by
    ext q
    simp only [Finset.mem_filter, Finset.mem_erase, Finset.mem_product,
      Finset.mem_range]
    constructor
    · rintro ⟨⟨hq1, hq2⟩, hz⟩
      have hch := (hcells q.1 hq1 q.2 hq2).mp hz
      refine ⟨?_, ⟨hq1, hq2⟩, hch.1⟩
      intro hqe
      exact hch.2 ⟨by rw [hqe], by rw [hqe]⟩
    · rintro ⟨hne, ⟨hq1, hq2⟩, hz⟩
      refine ⟨⟨hq1, hq2⟩, (hcells q.1 hq1 q.2 hq2).mpr ⟨hz, ?_⟩⟩
      rintro ⟨h1, h2⟩
      exact hne (Prod.ext h1 h2)
  show (((Finset.range 8) ×ˢ (Finset.range 8)).filter
    (fun q => bset (execRays b p ((r : Int)) ((c : Int)))
      ((r : Int)) ((c : Int)) p q.1 q.2 = 0)).card + 1 =
    (((Finset.range 8) ×ˢ (Finset.range 8)).filter
      (fun q => b q.1 q.2 = 0)).card
  rw [hseteq, Finset.card_erase_of_mem hmem]
  have hposc : 0 < (((Finset.range 8) ×ˢ (Finset.range 8)).filter
      (fun q => b q.1 q.2 = 0)).card :=
    Finset.card_pos.mpr ⟨_, hmem⟩
  omega

theorem WF_bset (b : Board) (x y : Int) (v : Nat) (hv : v ≤ 2)
    (hb : WF b) : WF (bset b x y v) := by
  intro a ha e he
  rw [bset_eval]
  by_cases hcon : inb x y = true ∧ a = x.toNat ∧ e = y.toNat
  · rw [if_pos hcon]
    exact hv
  · rw [if_neg hcon]
    exact hb a ha e he

theorem WF_flipLoop (p : Nat) (hp : p ≤ 2) (dx dy : Int) :
    ∀ (fuel : Nat) (b : Board) (x y : Int),
      WF b → WF (flipLoop p dx dy fuel b x y) := by
  intro fuel
  induction fuel with
  | zero =>
    intro b x y hb
    exact hb
  | succ f ih =>
    intro b x y hb
    rw [flipLoop]
    by_cases hcell : bget b x y = 3 - p
    · rw [if_pos hcell]
      exact ih _ _ _ (WF_bset b x y p hp hb)
    · rw [if_neg hcell]
      exact hb

theorem WF_execRays (b : Board) (p : Nat) (hp : p ≤ 2) (ax ay : Int)
    (hb : WF b) : WF (execRays b p ax ay) := by
  have key : ∀ (l : List Nat) (acc : Board), WF acc →
      WF (l.foldl
        (fun bb i =>
          if ray_cast b ax ay (RAYS i) p then
            flipLoop p (RAYS i).1 (RAYS i).2 8 bb
              (ax + (RAYS i).1) (ay + (RAYS i).2)
          else bb)
        acc) := by
    intro l
    induction l with
    | nil =>
      intro acc h
      exact h
    | cons i is ih =>
      intro acc h
      rw [List.foldl_cons]
      apply ih
      by_cases hraw : ray_cast b ax ay (RAYS i) p = true
      · rw [if_pos hraw]
        exact WF_flipLoop p hp (RAYS i).1 (RAYS i).2 8 acc _ _ h
      · rw [if_neg hraw]
        exact h
  exact key (List.range 8) b hb

set_option maxRecDepth 8000 in
theorem WF_select (pr : Probs) (b : Board) (p : Nat) (hp : p ≤ 2)
    (hb : WF b) : WF (select_and_step pr b p).1 := by
  show WF (if (chosen pr).1 = -1 then ((b, 1) : Board × Nat)
    else (bset (execRays b p (chosen pr).1 (chosen pr).2)
      (chosen pr).1 (chosen pr).2 p, 0)).1
  by_cases h : (chosen pr).1 = -1
  · rw [if_pos h]
    exact hb
  · rw [if_neg h]
    exact WF_bset _ _ _ p hp (WF_execRays b p hp _ _ hb)

set_option maxRecDepth 8000 in
theorem select_status_le (pr : Probs) (b : Board) (p : Nat) :
    (select_and_step pr b p).2 ≤ 1 := by
  show (if (chosen pr).1 = -1 then ((b, 1) : Board × Nat)
    else (bset (execRays b p (chosen pr).1 (chosen pr).2)
      (chosen pr).1 (chosen pr).2 p, 0)).2 ≤ 1
  by_cases h : (chosen pr).1 = -1
  · rw [if_pos h]
  · rw [if_neg h]
    exact Nat.zero_le 1

set_option maxRecDepth 8000 in
/-- One driver iteration, seen from one game: with positive draws the
game passes (board frozen, mover's flag set to 1) exactly when the
mover has no legal move, and otherwise places (the game's empty count
decreases by exactly one, mover's flag cleared). -/
theorem halfStep_game (stream : DrawStream) (s : RState) (g : Nat)
    (hpos : ∀ t i, 0 < stream t i)
    (hp : s.player = 1 ∨ s.player = 2) (hwf : WF (s.boards g)) :
    (¬hasMove (s.boards g) s.player ∧
      (halfStep stream s).boards g = s.boards g ∧
      (halfStep stream s).status g (s.player - 1) = 1) ∨
    (hasMove (s.boards g) s.player ∧
      emptyCount ((halfStep stream s).boards g) + 1 =
        emptyCount (s.boards g) ∧
      (halfStep stream s).status g (s.player - 1) = 0) := by
  have hspec := gameProbs_spec stream s g hpos
  have hnn : ∀ i < 8, ∀ j < 8, 0 ≤ gameProbs stream s g i j :=
    fun i hi j hj => (hspec i hi j hj).1
  rcases chosen_cases (gameProbs stream s g) hnn with ⟨hch, hz⟩ |
    ⟨r, c, hr, hc, hch, hpr⟩
  · left
    have hnm : ¬hasMove (s.boards g) s.player := by
      rintro ⟨x, hx, y, hy, h0, hhit⟩
      exact hz x hx y hy ((hspec x hx y hy).2.mpr ⟨h0, hhit⟩)
    have hsel := select_and_step_sentinel (gameProbs stream s g)
      (s.boards g) s.player hch
    refine ⟨hnm, ?_, ?_⟩
    · show (select_and_step (gameProbs stream s g) (s.boards g)
        s.player).1 = s.boards g
      rw [hsel]
    · show (if s.player - 1 = s.player - 1 then
          (select_and_step (gameProbs stream s g) (s.boards g) s.player).2
        else s.status g (s.player - 1)) = 1
      rw [if_pos rfl, hsel]
  · right
    have hleg := (hspec r hr c hc).2.mp hpr
    have hm : hasMove (s.boards g) s.player :=
      ⟨r, hr, c, hc, hleg.1, hleg.2⟩
    have hsel := select_and_step_play (gameProbs stream s g) (s.boards g)
      s.player r c hch
    refine ⟨hm, ?_, ?_⟩
    · show emptyCount (select_and_step (gameProbs stream s g) (s.boards g)
          s.player).1 + 1 = emptyCount (s.boards g)
      rw [hsel]
      exact emptyCount_play (s.boards g) s.player r c hp hwf hr hc hleg.1
    · show (if s.player - 1 = s.player - 1 then
          (select_and_step (gameProbs stream s g) (s.boards g) s.player).2
        else s.status g (s.player - 1)) = 0
      rw [if_pos rfl, hsel]

set_option maxRecDepth 8000 in
theorem halfStep_status_frame (stream : DrawStream) (s : RState)
    (g q : Nat) (hq : ¬q = s.player - 1) :
    (halfStep stream s).status g q = s.status g q := by
  show (if q = s.player - 1 then
      (select_and_step (gameProbs stream s g) (s.boards g) s.player).2
    else s.status g q) = s.status g q
  rw [if_neg hq]

theorem halfStep_player (stream : DrawStream) (s : RState) :
    (halfStep stream s).player = 3 - s.player := rfl

/-- Batch invariant preserved by every iteration: a genuine player, all
boards well-formed, all flags 0 or 1. -/
def RInv (s : RState) : Prop :=
  (s.player = 1 ∨ s.player = 2) ∧ (∀ g, WF (s.boards g)) ∧
  (∀ g q, s.status g q ≤ 1)

set_option maxRecDepth 8000 in
theorem RInv_halfStep (stream : DrawStream) (s : RState) (h : RInv s) :
    RInv (halfStep stream s) := by
  obtain ⟨hp, hwf, hst⟩ := h
  have hp2 : s.player ≤ 2 := by rcases hp with h | h <;> omega
  refine ⟨?_, ?_, ?_⟩
  · show 3 - s.player = 1 ∨ 3 - s.player = 2
    rcases hp with h | h <;> rw [h]
    · right
      rfl
    · left
      rfl
  · intro g
    show WF (select_and_step (gameProbs stream s g) (s.boards g)
      s.player).1
    exact WF_select _ _ _ hp2 (hwf g)
  · intro g q
    show (if q = s.player - 1 then
        (select_and_step (gameProbs stream s g) (s.boards g) s.player).2
      else s.status g q) ≤ 1
    by_cases hq : q = s.player - 1
    · rw [if_pos hq]
      exact select_status_le _ _ _
    · rw [if_neg hq]
      exact hst g q

/-- Iterated driver iterations (`iterH stream n s` is the state after
`n` launches of the kernel pair). -/
def iterH (stream : DrawStream) : Nat → RState → RState
  | 0, s => s
  | n + 1, s => iterH stream n (halfStep stream s)

theorem iterH_add (stream : DrawStream) (m : Nat) :
    ∀ (n : Nat) (s : RState),
      iterH stream (m + n) s = iterH stream m (iterH stream n s) := by
  intro n
  induction n with
  | zero =>
    intro s
    rfl
  | succ k ih =>
    intro s
    show iterH stream (m + k + 1) s = iterH stream m (iterH stream (k + 1) s)
    rw [show iterH stream (m + k + 1) s =
      iterH stream (m + k) (halfStep stream s) from rfl]
    exact ih (halfStep stream s)

theorem RInv_iterH (stream : DrawStream) (n : Nat) :
    ∀ s, RInv s → RInv (iterH stream n s) := by
  induction n with
  | zero =>
    intro s h
    exact h
  | succ k ih =>
    intro s h
    exact ih (halfStep stream s) (RInv_halfStep stream s h)

/-- A finished game: both flags set and neither player movable — stable
under further iterations (the game passes forever). -/
def DoneG (s : RState) (g : Nat) : Prop :=
  s.status g 0 = 1 ∧ s.status g 1 = 1 ∧
  ¬hasMove (s.boards g) 1 ∧ ¬hasMove (s.boards g) 2

set_option maxRecDepth 8000 in
theorem DoneG_halfStep (stream : DrawStream) (s : RState) (g : Nat)
    (hpos : ∀ t i, 0 < stream t i) (hinv : RInv s) (hd : DoneG s g) :
    DoneG (halfStep stream s) g := by
  obtain ⟨hp, hwf, _⟩ := hinv
  obtain ⟨h0, h1, hm1, hm2⟩ := hd
  have hnm : ¬hasMove (s.boards g) s.player := by
    rcases hp with h | h <;> rw [h] <;> assumption
  rcases halfStep_game stream s g hpos hp (hwf g) with
    ⟨_, hbeq, hflag⟩ | ⟨hm, _, _⟩
  · refine ⟨?_, ?_, ?_, ?_⟩
    · by_cases hq : (0 : Nat) = s.player - 1
      · rw [← hq] at hflag
        exact hflag
      · rw [halfStep_status_frame stream s g 0 hq]
        exact h0
    · by_cases hq : (1 : Nat) = s.player - 1
      · rw [← hq] at hflag
        exact hflag
      · rw [halfStep_status_frame stream s g 1 hq]
        exact h1
    · rw [hbeq]
      exact hm1
    · rw [hbeq]
      exact hm2
  · exact absurd hm hnm

theorem DoneG_iterH (stream : DrawStream)
    (hpos : ∀ t i, 0 < stream t i) :
    ∀ (n : Nat) (s : RState) (g : Nat), RInv s → DoneG s g →
      DoneG (iterH stream n s) g := by
  intro n
  induction n with
  | zero =>
    intro s g _ hd
    exact hd
  | succ k ih =>
    intro s g hinv hd
    exact ih (halfStep stream s) g (RInv_halfStep stream s hinv)
      (DoneG_halfStep stream s g hpos hinv hd)

set_option maxRecDepth 8000 in
/-- Two consecutive passes finish the game. -/
theorem twoPass (stream : DrawStream) (s : RState) (g : Nat)
    (hpos : ∀ t i, 0 < stream t i) (hinv : RInv s)
    (h1 : ¬hasMove (s.boards g) s.player)
    (h2 : ¬hasMove (s.boards g) (3 - s.player)) :
    DoneG (iterH stream 2 s) g := by
  obtain ⟨hp, hwf, hst⟩ := hinv
  rcases halfStep_game stream s g hpos hp (hwf g) with
    ⟨_, hbeq, hflag⟩ | ⟨hm, _, _⟩
  swap
  · exact absurd hm h1
  obtain ⟨hp1, hwf1, hst1⟩ := RInv_halfStep stream s ⟨hp, hwf, hst⟩
  have hm1' : ¬hasMove ((halfStep stream s).boards g)
      ((halfStep stream s).player) := by
    rw [hbeq, halfStep_player]
    exact h2
  rcases halfStep_game stream (halfStep stream s) g hpos hp1 (hwf1 g) with
    ⟨_, hbeq2, hflag2⟩ | ⟨hm2, _, _⟩
  swap
  · exact absurd hm2 hm1'
  show DoneG (halfStep stream (halfStep stream s)) g
  refine ⟨?_, ?_, ?_, ?_⟩
  · rcases hp with h | h
    · have hfr : (halfStep stream (halfStep stream s)).status g 0 =
          (halfStep stream s).status g 0 :=
        halfStep_status_frame stream (halfStep stream s) g 0
          (by rw [halfStep_player, h]; decide)
      have hqe : (0 : Nat) = s.player - 1 := by rw [h]
      rw [← hqe] at hflag
      rw [hfr]
      exact hflag
    · have hqe : (0 : Nat) = (halfStep stream s).player - 1 := by
        rw [halfStep_player, h]
      rw [← hqe] at hflag2
      exact hflag2
  · rcases hp with h | h
    · have hqe : (1 : Nat) = (halfStep stream s).player - 1 := by
        rw [halfStep_player, h]
      rw [← hqe] at hflag2
      exact hflag2
    · have hfr : (halfStep stream (halfStep stream s)).status g 1 =
          (halfStep stream s).status g 1 :=
        halfStep_status_frame stream (halfStep stream s) g 1
          (by rw [halfStep_player, h]; decide)
      have hqe : (1 : Nat) = s.player - 1 := by rw [h]
      rw [← hqe] at hflag
      rw [hfr]
      exact hflag
  · rw [hbeq2, hbeq]
    rcases hp with h | h
    · rw [← h]
      exact h1
    · rw [show (1 : Nat) = 3 - s.player from by rw [h]]
      exact h2
  · rw [hbeq2, hbeq]
    rcases hp with h | h
    · rw [show (2 : Nat) = 3 - s.player from by rw [h]]
      exact h2
    · rw [← h]
      exact h1

/-- Every game finishes within `2 * (its empty count) + 2` iterations:
plays are bounded by the empty cells, non-final passes are each followed
by a play, and two consecutive passes finish the game. -/
theorem gameDone_within (stream : DrawStream)
    (hpos : ∀ t i, 0 < stream t i) :
    ∀ (e : Nat) (s : RState) (g : Nat), RInv s →
      emptyCount (s.boards g) ≤ e →
      ∃ n, n ≤ 2 * e + 2 ∧ DoneG (iterH stream n s) g := by
  intro e
  induction e with
  | zero =>
    intro s g hinv he
    have h1 : ¬hasMove (s.boards g) s.player := fun h => by
      have := hasMove_emptyCount _ _ h
      omega
    have h2 : ¬hasMove (s.boards g) (3 - s.player) := fun h => by
      have := hasMove_emptyCount _ _ h
      omega
    exact ⟨2, by omega, twoPass stream s g hpos hinv h1 h2⟩
  | succ e ih =>
    intro s g hinv he
    obtain ⟨hp, hwf, hst⟩ := hinv
    by_cases hm : hasMove (s.boards g) s.player
    · rcases halfStep_game stream s g hpos hp (hwf g) with
        ⟨hnm, _, _⟩ | ⟨_, hdec, _⟩
      · exact absurd hm hnm
      have he1 : emptyCount ((halfStep stream s).boards g) ≤ e := by omega
      obtain ⟨m, hmle, hd⟩ := ih (halfStep stream s) g
        (RInv_halfStep stream s ⟨hp, hwf, hst⟩) he1
      exact ⟨m + 1, by omega, hd⟩
    · rcases halfStep_game stream s g hpos hp (hwf g) with
        ⟨_, hbeq, _⟩ | ⟨hm', _, _⟩
      swap
      · exact absurd hm' hm
      by_cases hm2 : hasMove (s.boards g) (3 - s.player)
      · obtain ⟨hp1, hwf1, hst1⟩ := RInv_halfStep stream s ⟨hp, hwf, hst⟩
        have hm2' : hasMove ((halfStep stream s).boards g)
            ((halfStep stream s).player) := by
          rw [hbeq, halfStep_player]
          exact hm2
        rcases halfStep_game stream (halfStep stream s) g hpos hp1
          (hwf1 g) with ⟨hnm2, _, _⟩ | ⟨_, hdec2, _⟩
        · exact absurd hm2' hnm2
        have he2 : emptyCount
            ((halfStep stream (halfStep stream s)).boards g) ≤ e := by
          rw [hbeq] at hdec2
          omega
        obtain ⟨m, hmle, hd⟩ := ih (halfStep stream (halfStep stream s)) g
          (RInv_halfStep stream (halfStep stream s) ⟨hp1, hwf1, hst1⟩) he2
        exact ⟨m + 2, by omega, hd⟩
      · exact ⟨2, by omega, twoPass stream s g hpos ⟨hp, hwf, hst⟩ hm hm2⟩

/-- The fueled loop returns a state as soon as the guard fails within
the fuel. -/
theorem loopA_isSome (stream : DrawStream) :
    ∀ (f : Nat) (s : RState),
      (∃ n ≤ f, ¬statusSum (iterH stream n s).status < 2 * N_GAMES) →
      (loopA stream f s).isSome = true := by
  intro f
  induction f with
  | zero =>
    rintro s ⟨n, hn, hg⟩
    have hn0 : n = 0 := Nat.le_zero.mp hn
    subst hn0
    have hg0 : ¬statusSum s.status < 2 * N_GAMES := hg
    rw [loopA, if_neg hg0]
    rfl
  | succ f ih =>
    rintro s ⟨n, hn, hg⟩
    by_cases h0 : statusSum s.status < 2 * N_GAMES
    · rw [loopA, if_pos h0]
      apply ih
      rcases n with _ | m
      · exact absurd h0 hg
      · exact ⟨m, by omega, hg⟩
    · rw [loopA, if_neg h0]
      rfl

theorem statusSum_done (s : RState)
    (h : ∀ g, g < N_GAMES → s.status g 0 = 1 ∧ s.status g 1 = 1) :
    statusSum s.status = 2 * N_GAMES := by
  unfold statusSum
  have hconst : ∀ g ∈ Finset.range N_GAMES,
      s.status g 0 + s.status g 1 = 2 := by
    intro g hg
    obtain ⟨h0, h1⟩ := h g (Finset.mem_range.mp hg)
    rw [h0, h1]
  rw [Finset.sum_congr rfl hconst, Finset.sum_const, Finset.card_range,
    smul_eq_mul]
  exact Nat.mul_comm N_GAMES 2

theorem le_sum_range (f : Nat → Nat) :
    ∀ n g, g < n → f g ≤ (Finset.range n).sum f := by
  intro n
  induction n with
  | zero =>
    intro g hg
    exact absurd hg (Nat.not_lt_zero g)
  | succ m ih =>
    intro g hg
    rw [Finset.sum_range_succ]
    rcases Nat.lt_succ_iff_lt_or_eq.mp hg with h | rfl
    · exact le_trans (ih g h) (Nat.le_add_right _ _)
    · exact Nat.le_add_left _ _

theorem emptyCount_le_totalEmpty (s : RState) (g : Nat)
    (hg : g < N_GAMES) : emptyCount (s.boards g) ≤ totalEmpty s :=
  le_sum_range (fun i => emptyCount (s.boards i)) N_GAMES g hg

set_option maxRecDepth 8000 in
/-- C6 (amended): with strictly positive draws, from any batch state
with a genuine player, well-formed boards and 0/1 flags, each driver
iteration either freezes a game's board and sets the mover's flag (a
pass), or places on an empty cell so that the game's empty count
decreases by exactly one; and the driver's while loop terminates within
`2 * totalEmpty + 2` iterations (the 60-iteration bound of the original
claim is refuted by the counterexample above). -/
theorem C6_termination (stream : DrawStream) (s : RState)
    (hpos : ∀ t i, 0 < stream t i)
    (hp : s.player = 1 ∨ s.player = 2)
    (hwf : ∀ g, WF (s.boards g))
    (hst : ∀ g q, s.status g q ≤ 1) :
    (∀ g, ((halfStep stream s).boards g = s.boards g ∧
        (halfStep stream s).status g (s.player - 1) = 1) ∨
      (emptyCount ((halfStep stream s).boards g) + 1 =
          emptyCount (s.boards g) ∧
        (halfStep stream s).status g (s.player - 1) = 0)) ∧
    (loopA stream (2 * totalEmpty s + 2) s).isSome = true := by
  constructor
  · intro g
    rcases halfStep_game stream s g hpos hp (hwf g) with
      ⟨_, hb, hf⟩ | ⟨_, hd, hf⟩
    · exact Or.inl ⟨hb, hf⟩
    · exact Or.inr ⟨hd, hf⟩
  · apply loopA_isSome
    refine ⟨2 * totalEmpty s + 2, le_refl _, ?_⟩
    have hdone : ∀ g, g < N_GAMES →
        DoneG (iterH stream (2 * totalEmpty s + 2) s) g := by
      intro g hg
      obtain ⟨n, hn, hd⟩ := gameDone_within stream hpos (totalEmpty s) s g
        ⟨hp, hwf, hst⟩ (emptyCount_le_totalEmpty s g hg)
      have hsplit : 2 * totalEmpty s + 2 =
          (2 * totalEmpty s + 2 - n) + n := by omega
      rw [hsplit, iterH_add]
      exact DoneG_iterH stream hpos (2 * totalEmpty s + 2 - n)
        (iterH stream n s) g (RInv_iterH stream n s ⟨hp, hwf, hst⟩) hd
    intro hlt
    have heq := statusSum_done (iterH stream (2 * totalEmpty s + 2) s)
      (fun g hg => ⟨(hdone g hg).1, (hdone g hg).2.1⟩)
    omega

/-- Witness for the amended C6 theorem: a batch of full boards under
the constant positive stream. -/
theorem C6_term_witness :
    (∀ g, ((halfStep halfStream
          (initState onesBoard 1 (fun _ => 0))).boards g =
          (initState onesBoard 1 (fun _ => 0)).boards g ∧
        (halfStep halfStream
          (initState onesBoard 1 (fun _ => 0))).status g
          ((initState onesBoard 1 (fun _ => 0)).player - 1) = 1) ∨
      (emptyCount ((halfStep halfStream
            (initState onesBoard 1 (fun _ => 0))).boards g) + 1 =
          emptyCount ((initState onesBoard 1 (fun _ => 0)).boards g) ∧
        (halfStep halfStream
          (initState onesBoard 1 (fun _ => 0))).status g
          ((initState onesBoard 1 (fun _ => 0)).player - 1) = 0)) ∧
    (loopA halfStream
      (2 * totalEmpty (initState onesBoard 1 (fun _ => 0)) + 2)
      (initState onesBoard 1 (fun _ => 0))).isSome = true :=
  C6_termination halfStream (initState onesBoard 1 (fun _ => 0))
    (fun t i => (by decide : (0 : ℚ) < oneHalf)) (Or.inl rfl)
    (fun g => (by decide : WF onesBoard))
    (fun g q => (by decide : (0 : Nat) ≤ 1))

/-!
C7: reproducibility across invocations.  The xoroshiro states are
module-scoped and never re-seeded between `rollout` invocations, so a
second call under the same seed resumes from advanced stream positions.
Below: a concrete board and stream on which two back-to-back
invocations return different winners (the counterexample), and the
amended determinism theorem — outcomes are a function of the draw
values, the on-grid board, the planner and the RNG positions, so equal
RNG state gives bit-identical outcome sequences.
-/

/-- The two-phase reduction returns the sentinel or an on-grid cell. -/
theorem chosen_shape (pr : Probs) :
    chosen pr = (-1, -1) ∨
    ∃ r c : Nat, r < 8 ∧ c < 8 ∧ chosen pr = ((r : Int), (c : Int)) := by
  by_cases h : 0 < (scanMax (rowMaxes pr) 8).1
  · right
    have hk : (scanMax (rowMaxes pr) 8).2 < 8 := by
      rcases scanMax_inv (rowMaxes pr) 8 with ⟨heq, _⟩ |
        ⟨v, k, heq, _, hlt, _, _, _⟩
      · rw [heq]
        decide
      · rw [heq]
        exact hlt
    have hm : (rowArg pr (scanMax (rowMaxes pr) 8).2).2 < 8 := by
      rcases scanMax_inv (fun i => pr (scanMax (rowMaxes pr) 8).2 i) 8 with
        ⟨heq, _⟩ | ⟨v, k, heq, _, hlt, _, _, _⟩
      · show (scanMax (fun i => pr (scanMax (rowMaxes pr) 8).2 i) 8).2 < 8
        rw [heq]
        decide
      · show (scanMax (fun i => pr (scanMax (rowMaxes pr) 8).2 i) 8).2 < 8
        rw [heq]
        exact hlt
    exact ⟨_, _, hk, hm, by rw [chosen_eq, if_pos h]⟩
  · left
    rw [chosen_eq, if_neg h]

set_option maxRecDepth 8000 in
/-- `select_and_step` on two boards that agree on the grid, under score
grids that agree on the grid, produces grid-agreeing boards and the same
status value. -/
theorem select_boards_agree (pr1 pr2 : Probs) (b1 b2 : Board) (p : Nat)
    (hpr : ∀ i < 8, ∀ j < 8, pr1 i j = pr2 i j) (hb : bAgree b1 b2)
    (hwf1 : WF b1) (hp : p = 1 ∨ p = 2) :
    (∀ x < 8, ∀ y < 8,
      (select_and_step pr1 b1 p).1 x y =
        (select_and_step pr2 b2 p).1 x y) ∧
    (select_and_step pr1 b1 p).2 = (select_and_step pr2 b2 p).2 := by
  have hch : chosen pr1 = chosen pr2 := chosen_congr pr1 pr2 hpr
  have hwf2 : WF b2 := by
    intro x hx y hy
    rw [← hb x hx y hy]
    exact hwf1 x hx y hy
  rcases chosen_shape pr2 with hsent | ⟨r, c, hr, hc, hch2⟩
  · have hs1 := select_and_step_sentinel pr1 b1 p (hch.trans hsent)
    have hs2 := select_and_step_sentinel pr2 b2 p hsent
    rw [hs1, hs2]
    exact ⟨fun x hx y hy => hb x hx y hy, rfl⟩
  · have hs1 := select_and_step_play pr1 b1 p r c (hch.trans hch2)
    have hs2 := select_and_step_play pr2 b2 p r c hch2
    rw [hs1, hs2]
    have hinb : inb ((r : Int)) ((c : Int)) = true := by
      rw [inb_iff]
      omega
    refine ⟨?_, rfl⟩
    intro x hx y hy
    show bset (execRays b1 p ((r : Int)) ((c : Int))) ((r : Int))
      ((c : Int)) p x y = bset (execRays b2 p ((r : Int)) ((c : Int)))
      ((r : Int)) ((c : Int)) p x y
    rw [bset_eval, bset_eval]
    by_cases h0 : inb ((r : Int)) ((c : Int)) = true ∧
        x = ((r : Int)).toNat ∧ y = ((c : Int)).toNat
    · rw [if_pos h0, if_pos h0]
    · rw [if_neg h0, if_neg h0]
      rw [execRays_eq b1 p _ _ hwf1 hp hinb,
        execRays_eq b2 p _ _ hwf2 hp hinb]
      rw [capBoard_eval, capBoard_eval]
      by_cases hcc : ∃ i < 8, capCell b1 p ((r : Int)) ((c : Int)) i x y
      · rw [if_pos hcc, if_pos ?_]
        obtain ⟨i, hi, hcap⟩ := hcc
        exact ⟨i, hi, (capCell_congr b1 b2 hb p _ _ i x y).mp hcap⟩
      · rw [if_neg hcc, if_neg ?_]
        · exact hb x hx y hy
        · rintro ⟨i, hi, hcap⟩
          exact hcc ⟨i, hi, (capCell_congr b1 b2 hb p _ _ i x y).mpr hcap⟩

/-- Draw accumulation depends only on the offsets from the start
position: streams that agree from the respective start positions
onwards give the same row result. -/
theorem faFold_shift_congr (s1 s2 : DrawStream) (t1 t2 q1 q2 : Nat)
    (b : Board) (p tx : Nat)
    (h : ∀ k, s1 t1 (q1 + k) = s2 t2 (q2 + k)) :
    ∀ n, faFold s1 t1 q1 b p tx n = faFold s2 t2 q2 b p tx n := by
  intro n
  induction n with
  | zero => rfl
  | succ m ih =>
    have e1 : faFold s1 t1 q1 b p tx (m + 1) =
        ((fun c => if c = m then
            (find_actions_cell (s1 t1 (q1 + (faFold s1 t1 q1 b p tx m).2))
              b p tx m).1
          else (faFold s1 t1 q1 b p tx m).1 c),
         (faFold s1 t1 q1 b p tx m).2 +
          (if (find_actions_cell (s1 t1 (q1 + (faFold s1 t1 q1 b p tx m).2))
            b p tx m).2 then 1 else 0)) := rfl
    have e2 : faFold s2 t2 q2 b p tx (m + 1) =
        ((fun c => if c = m then
            (find_actions_cell (s2 t2 (q2 + (faFold s2 t2 q2 b p tx m).2))
              b p tx m).1
          else (faFold s2 t2 q2 b p tx m).1 c),
         (faFold s2 t2 q2 b p tx m).2 +
          (if (find_actions_cell (s2 t2 (q2 + (faFold s2 t2 q2 b p tx m).2))
            b p tx m).2 then 1 else 0)) := rfl
    rw [e1, e2, ih, h ((faFold s2 t2 q2 b p tx m).2)]

theorem rowScores_shift_congr (s1 s2 : DrawStream) (t1 t2 q1 q2 : Nat)
    (b : Board) (p tx : Nat)
    (h : ∀ k, s1 t1 (q1 + k) = s2 t2 (q2 + k)) :
    rowScores s1 t1 q1 b p tx = rowScores s2 t2 q2 b p tx := by
  rw [faFold_eq_rowScores, faFold_eq_rowScores,
    faFold_shift_congr s1 s2 t1 t2 q1 q2 b p tx h 8]

/-- Reference score grid of a uniform batch under a stream keyed by the
row index (`stream t i = v (t % 8) i`) with row-uniform positions `q`:
what every game's `find_actions` launch computes. -/
def vprobs (v : Nat → Nat → ℚ) (q : Nat → Nat) (L : Board) (p : Nat) :
    Probs :=
  fun tx ty => (rowScores (fun t i => v (t % 8) i) tx (q tx) L p tx).1 ty

theorem vprobs_congr (v : Nat → Nat → ℚ) (q : Nat → Nat) (b L : Board)
    (h : bAgree b L) (p : Nat) :
    ∀ i < 8, ∀ j < 8, vprobs v q b p i j = vprobs v q L p i j := by
  intro i hi j hj
  unfold vprobs
  rw [rowScores_board_congr (fun t i => v (t % 8) i) i (q i) b L h p i hi]

theorem gameProbs_vstream (stream : DrawStream) (v : Nat → Nat → ℚ)
    (q : Nat → Nat) (s : RState) (g : Nat)
    (hvs : ∀ t i, stream t i = v (t % 8) i)
    (hq : ∀ t, s.pos t = q (t % 8)) (tx : Nat) (htx : tx < 8) :
    ∀ ty, gameProbs stream s g tx ty =
      vprobs v q (s.boards g) s.player tx ty := by
  intro ty
  have hmod : (g * 8 + tx) % 8 = tx := by omega
  have hrs : rowScores stream (g * 8 + tx) (s.pos (g * 8 + tx))
      (s.boards g) s.player tx =
      rowScores (fun t i => v (t % 8) i) tx (q tx) (s.boards g)
        s.player tx := by
    rw [hq (g * 8 + tx), hmod]
    apply rowScores_shift_congr
    intro k
    rw [hvs (g * 8 + tx) (q tx + k)]
    show v ((g * 8 + tx) % 8) (q tx + k) = v (tx % 8) (q tx + k)
    rw [hmod, Nat.mod_eq_of_lt htx]
  show (rowScores stream (g * 8 + tx) (s.pos (g * 8 + tx)) (s.boards g)
    s.player tx).1 ty = _
  rw [hrs]
  rfl

set_option maxRecDepth 8000 in
/-- One driver iteration on a uniform batch under a row-keyed stream, in
which the mover plays: all games step to `Lnext`, the mover's flag is
cleared, the player swaps, every stream position advances to `q'` by
its row's consumption, and the guard held. -/
theorem vstep_play (stream : DrawStream) (v : Nat → Nat → ℚ)
    (q q' : Nat → Nat) (s : RState) (L Lnext : Board) (p r c f0 f1 : Nat)
    (hvs : ∀ t i, stream t i = v (t % 8) i)
    (hb : ∀ g, bAgree (s.boards g) L)
    (h0 : ∀ g, s.status g 0 = f0) (h1 : ∀ g, s.status g 1 = f1)
    (hpl : s.player = p) (hq : ∀ t, s.pos t = q (t % 8))
    (hp : p = 1 ∨ p = 2) (hr : r < 8) (hc : c < 8)
    (hsum : f0 + f1 < 2) (hwfL : WF L)
    (hch : chosen (vprobs v q L p) = ((r : Int), (c : Int)))
    (hres : ∀ x < 8, ∀ y < 8,
      (select_and_step (vprobs v q L p) L p).1 x y = Lnext x y)
    (hq' : ∀ u, u < 8 →
      q u + (rowScores (fun t i => v (t % 8) i) u (q u) L p u).2 = q' u) :
    (∀ g, bAgree ((halfStep stream s).boards g) Lnext) ∧
    (∀ g, (halfStep stream s).status g 0 = if 0 = p - 1 then 0 else f0) ∧
    (∀ g, (halfStep stream s).status g 1 = if 1 = p - 1 then 0 else f1) ∧
    (halfStep stream s).player = 3 - p ∧
    (∀ t, (halfStep stream s).pos t = q' (t % 8)) ∧
    statusSum s.status < 2 * N_GAMES := by
  subst hpl
  have hwfb : ∀ g, WF (s.boards g) := by
    intro g x hx y hy
    rw [hb g x hx y hy]
    exact hwfL x hx y hy
  have hpr : ∀ g, ∀ i, i < 8 → ∀ j, j < 8 →
      gameProbs stream s g i j = vprobs v q L s.player i j := by
    intro g i hi j hj
    rw [gameProbs_vstream stream v q s g hvs hq i hi j]
    exact vprobs_congr v q (s.boards g) L (hb g) s.player i hi j hj
  have hra := fun g => select_boards_agree (gameProbs stream s g)
    (vprobs v q L s.player) (s.boards g) L s.player (hpr g) (hb g)
    (hwfb g) hp
  have hselL := select_and_step_play (vprobs v q L s.player) L s.player
    r c hch
  have hselL2 : (select_and_step (vprobs v q L s.player) L s.player).2 =
      0 := by
    rw [hselL]
  refine ⟨?_, ?_, ?_, ?_, ?_, ?_⟩
  · intro g x hx y hy
    show (select_and_step (gameProbs stream s g) (s.boards g)
      s.player).1 x y = Lnext x y
    rw [(hra g).1 x hx y hy]
    exact hres x hx y hy
  · intro g
    show (if 0 = s.player - 1 then
        (select_and_step (gameProbs stream s g) (s.boards g) s.player).2
      else s.status g 0) = if 0 = s.player - 1 then 0 else f0
    by_cases hq0 : (0 : Nat) = s.player - 1
    · rw [if_pos hq0, if_pos hq0, (hra g).2, hselL2]
    · rw [if_neg hq0, if_neg hq0, h0 g]
  · intro g
    show (if 1 = s.player - 1 then
        (select_and_step (gameProbs stream s g) (s.boards g) s.player).2
      else s.status g 1) = if 1 = s.player - 1 then 0 else f1
    by_cases hq1 : (1 : Nat) = s.player - 1
    · rw [if_pos hq1, if_pos hq1, (hra g).2, hselL2]
    · rw [if_neg hq1, if_neg hq1, h1 g]
  · rfl
  · intro t
    have hm8 : t % 8 < 8 := Nat.mod_lt t (by decide)
    show s.pos t + (rowScores stream t (s.pos t) (s.boards (t / 8))
      s.player (t % 8)).2 = q' (t % 8)
    have hrow : rowScores stream t (s.pos t) (s.boards (t / 8))
        s.player (t % 8) =
        rowScores (fun t i => v (t % 8) i) (t % 8) (q (t % 8)) L
          s.player (t % 8) := by
      rw [rowScores_board_congr stream t (s.pos t) (s.boards (t / 8)) L
        (hb (t / 8)) s.player (t % 8) hm8]
      rw [hq t]
      apply rowScores_shift_congr
      intro k
      rw [hvs t (q (t % 8) + k)]
      show v (t % 8) (q (t % 8) + k) = v (t % 8 % 8) (q (t % 8) + k)
      rw [Nat.mod_eq_of_lt hm8]
    rw [hrow, hq t]
    exact hq' (t % 8) hm8
  · rw [statusSum_uniform s.status f0 f1 h0 h1]
    show 32 * (f0 + f1) < 2 * 32
    omega

set_option maxRecDepth 8000 in
/-- One driver iteration on a uniform batch under a row-keyed stream, in
which the mover passes: boards untouched, the mover's flag set, the
player swaps, and the positions still advance by the row consumptions
(draws are consumed per legal cell, not per placement). -/
theorem vstep_pass (stream : DrawStream) (v : Nat → Nat → ℚ)
    (q q' : Nat → Nat) (s : RState) (L : Board) (p f0 f1 : Nat)
    (hvs : ∀ t i, stream t i = v (t % 8) i)
    (hb : ∀ g, bAgree (s.boards g) L)
    (h0 : ∀ g, s.status g 0 = f0) (h1 : ∀ g, s.status g 1 = f1)
    (hpl : s.player = p) (hq : ∀ t, s.pos t = q (t % 8))
    (hp : p = 1 ∨ p = 2) (hsum : f0 + f1 < 2) (hwfL : WF L)
    (hch : chosen (vprobs v q L p) = (-1, -1))
    (hq' : ∀ u, u < 8 →
      q u + (rowScores (fun t i => v (t % 8) i) u (q u) L p u).2 = q' u) :
    (∀ g, bAgree ((halfStep stream s).boards g) L) ∧
    (∀ g, (halfStep stream s).status g 0 = if 0 = p - 1 then 1 else f0) ∧
    (∀ g, (halfStep stream s).status g 1 = if 1 = p - 1 then 1 else f1) ∧
    (halfStep stream s).player = 3 - p ∧
    (∀ t, (halfStep stream s).pos t = q' (t % 8)) ∧
    statusSum s.status < 2 * N_GAMES := by
  subst hpl
  have hwfb : ∀ g, WF (s.boards g) := by
    intro g x hx y hy
    rw [hb g x hx y hy]
    exact hwfL x hx y hy
  have hpr : ∀ g, ∀ i, i < 8 → ∀ j, j < 8 →
      gameProbs stream s g i j = vprobs v q L s.player i j := by
    intro g i hi j hj
    rw [gameProbs_vstream stream v q s g hvs hq i hi j]
    exact vprobs_congr v q (s.boards g) L (hb g) s.player i hi j hj
  have hra := fun g => select_boards_agree (gameProbs stream s g)
    (vprobs v q L s.player) (s.boards g) L s.player (hpr g) (hb g)
    (hwfb g) hp
  have hselL := select_and_step_sentinel (vprobs v q L s.player) L
    s.player hch
  have hselL1 : ∀ x, x < 8 → ∀ y, y < 8 →
      (select_and_step (vprobs v q L s.player) L s.player).1 x y =
        L x y := by
    intro x hx y hy
    rw [hselL]
  have hselL2 : (select_and_step (vprobs v q L s.player) L s.player).2 =
      1 := by
    rw [hselL]
  refine ⟨?_, ?_, ?_, ?_, ?_, ?_⟩
  · intro g x hx y hy
    show (select_and_step (gameProbs stream s g) (s.boards g)
      s.player).1 x y = L x y
    rw [(hra g).1 x hx y hy]
    exact hselL1 x hx y hy
  · intro g
    show (if 0 = s.player - 1 then
        (select_and_step (gameProbs stream s g) (s.boards g) s.player).2
      else s.status g 0) = if 0 = s.player - 1 then 1 else f0
    by_cases hq0 : (0 : Nat) = s.player - 1
    · rw [if_pos hq0, if_pos hq0, (hra g).2, hselL2]
    · rw [if_neg hq0, if_neg hq0, h0 g]
  · intro g
    show (if 1 = s.player - 1 then
        (select_and_step (gameProbs stream s g) (s.boards g) s.player).2
      else s.status g 1) = if 1 = s.player - 1 then 1 else f1
    by_cases hq1 : (1 : Nat) = s.player - 1
    · rw [if_pos hq1, if_pos hq1, (hra g).2, hselL2]
    · rw [if_neg hq1, if_neg hq1, h1 g]
  · rfl
  · intro t
    have hm8 : t % 8 < 8 := Nat.mod_lt t (by decide)
    show s.pos t + (rowScores stream t (s.pos t) (s.boards (t / 8))
      s.player (t % 8)).2 = q' (t % 8)
    have hrow : rowScores stream t (s.pos t) (s.boards (t / 8))
        s.player (t % 8) =
        rowScores (fun t i => v (t % 8) i) (t % 8) (q (t % 8)) L
          s.player (t % 8) := by
      rw [rowScores_board_congr stream t (s.pos t) (s.boards (t / 8)) L
        (hb (t / 8)) s.player (t % 8) hm8]
      rw [hq t]
      apply rowScores_shift_congr
      intro k
      rw [hvs t (q (t % 8) + k)]
      show v (t % 8) (q (t % 8) + k) = v (t % 8 % 8) (q (t % 8) + k)
      rw [Nat.mod_eq_of_lt hm8]
    rw [hrow, hq t]
    exact hq' (t % 8) hm8
  · rw [statusSum_uniform s.status f0 f1 h0 h1]
    show 32 * (f0 + f1) < 2 * 32
    omega

theorem countTok_agree (b1 b2 : Board) (h : bAgree b1 b2) (v : Nat) :
    countTok b1 v = countTok b2 v := by
  unfold countTok
  congr 1
  apply Finset.filter_congr
  intro x hx
  simp only [Finset.mem_product, Finset.mem_range] at hx
  rw [h x.1 hx.1 x.2 hx.2]

theorem outcome_agree (b1 b2 : Board) (h : bAgree b1 b2) :
    outcome b1 = outcome b2 := by
  have h1 : outcome b1 = if countTok b1 1 = countTok b1 2 then 0
      else if countTok b1 1 < countTok b1 2 then 2 else 1 := rfl
  have h2 : outcome b2 = if countTok b2 1 = countTok b2 2 then 0
      else if countTok b2 1 < countTok b2 2 then 2 else 1 := rfl
  rw [h1, h2, countTok_agree b1 b2 h 1, countTok_agree b1 b2 h 2]

/-- Positive rationals used by the counterexample stream, as normalized
literals. -/
def q34 : ℚ := Rat.mk' 3 4 (by decide) (by decide)

def q14 : ℚ := Rat.mk' 1 4 (by decide) (by decide)

def q110 : ℚ := Rat.mk' 1 10 (by decide) (by decide)

def q910 : ℚ := Rat.mk' 9 10 (by decide) (by decide)

/-- Per-row draw values of the counterexample: the first draws of rows
0 and 2 prefer row 0 (cell (0,0)), the next draws prefer row 2 (cell
(2,0)), and row 4's first draw dominates row 0's third. -/
def cexV : Nat → Nat → ℚ := fun r i =>
  if r = 0 ∧ i = 0 then q34
  else if r = 2 ∧ i = 0 then q14
  else if r = 0 ∧ i = 1 then q14
  else if r = 2 ∧ i = 1 then q34
  else if r = 0 ∧ i = 2 then q110
  else if r = 4 ∧ i = 0 then q910
  else oneHalf

/-- Counterexample stream: every xoroshiro state of one row draws the
same sequence (row-keyed), mirroring that `cuda.grid(1) = g*8 + tx` and
the batch is uniform. -/
def cexStream : DrawStream := fun t i => cexV (t % 8) i

/-- Starting board of the counterexample.  Player 1 has exactly two
legal moves, (0,0) (capturing 2) and (2,0) (capturing 1), which capture
overlapping pieces. -/
def cexB0 : Board := mkBoard
  [[0, 0, 1, 0, 0, 0, 0, 0],
   [0, 2, 0, 0, 0, 0, 0, 0],
   [0, 0, 2, 0, 0, 0, 0, 0],
   [0, 0, 0, 1, 0, 0, 0, 0],
   [0, 0, 0, 0, 0, 0, 0, 0],
   [0, 0, 0, 0, 0, 2, 0, 0],
   [0, 0, 0, 0, 0, 0, 2, 0],
   [0, 0, 0, 0, 0, 0, 0, 2]]

/-- Board after invocation 1's single placement (0,0). -/
def cexA1 : Board := mkBoard
  [[1, 0, 1, 0, 0, 0, 0, 0],
   [0, 1, 0, 0, 0, 0, 0, 0],
   [0, 0, 1, 0, 0, 0, 0, 0],
   [0, 0, 0, 1, 0, 0, 0, 0],
   [0, 0, 0, 0, 0, 0, 0, 0],
   [0, 0, 0, 0, 0, 2, 0, 0],
   [0, 0, 0, 0, 0, 0, 2, 0],
   [0, 0, 0, 0, 0, 0, 0, 2]]

/-- Invocation 2 boards: after player 1 plays (2,0)… -/
def cexD1 : Board := mkBoard
  [[0, 0, 1, 0, 0, 0, 0, 0],
   [0, 1, 0, 0, 0, 0, 0, 0],
   [1, 0, 2, 0, 0, 0, 0, 0],
   [0, 0, 0, 1, 0, 0, 0, 0],
   [0, 0, 0, 0, 0, 0, 0, 0],
   [0, 0, 0, 0, 0, 2, 0, 0],
   [0, 0, 0, 0, 0, 0, 2, 0],
   [0, 0, 0, 0, 0, 0, 0, 2]]

/-- …then player 2 plays (4,4)… -/
def cexD2 : Board := mkBoard
  [[0, 0, 1, 0, 0, 0, 0, 0],
   [0, 1, 0, 0, 0, 0, 0, 0],
   [1, 0, 2, 0, 0, 0, 0, 0],
   [0, 0, 0, 2, 0, 0, 0, 0],
   [0, 0, 0, 0, 2, 0, 0, 0],
   [0, 0, 0, 0, 0, 2, 0, 0],
   [0, 0, 0, 0, 0, 0, 2, 0],
   [0, 0, 0, 0, 0, 0, 0, 2]]

/-- …then (after a pass by player 1) player 2 plays (0,0). -/
def cexD4 : Board := mkBoard
  [[2, 0, 1, 0, 0, 0, 0, 0],
   [0, 2, 0, 0, 0, 0, 0, 0],
   [1, 0, 2, 0, 0, 0, 0, 0],
   [0, 0, 0, 2, 0, 0, 0, 0],
   [0, 0, 0, 0, 2, 0, 0, 0],
   [0, 0, 0, 0, 0, 2, 0, 0],
   [0, 0, 0, 0, 0, 0, 2, 0],
   [0, 0, 0, 0, 0, 0, 0, 2]]

/-- Row-uniform stream positions at the successive stages. -/
def cexQz : Nat → Nat := fun _ => 0

def cexQA : Nat → Nat := fun u => if u = 0 then 1 else if u = 2 then 1
  else 0

def cexQB1 : Nat → Nat := fun u => if u = 0 then 2 else if u = 2 then 2
  else 0

def cexQB2 : Nat → Nat := fun u => if u = 0 then 3 else if u = 2 then 2
  else if u = 4 then 1 else 0

def cexQB4 : Nat → Nat := fun u => if u = 0 then 4 else if u = 2 then 2
  else if u = 4 then 1 else 0

def cexInit1 : RState := initState cexB0 1 (fun _ => 0)

def cexS1 : RState :=
  halfStep cexStream (halfStep cexStream (halfStep cexStream cexInit1))

def cexInit2 : RState := initState cexB0 1 cexS1.pos

def cexS2 : RState :=
  halfStep cexStream (halfStep cexStream (halfStep cexStream
    (halfStep cexStream (halfStep cexStream (halfStep cexStream
      cexInit2)))))

/-- Full-state agreement between two batch states: boards agreeing on
the grid, equal flags, player and positions. -/
def SAgree (s1 s2 : RState) : Prop :=
  (∀ g, bAgree (s1.boards g) (s2.boards g)) ∧
  (∀ g q, s1.status g q = s2.status g q) ∧
  s1.player = s2.player ∧ (∀ t, s1.pos t = s2.pos t)

set_option maxRecDepth 8000 in
theorem WF_halfStep_boards (stream : DrawStream) (s : RState)
    (hp : s.player = 1 ∨ s.player = 2) (hwf : ∀ g, WF (s.boards g)) :
    ∀ g, WF ((halfStep stream s).boards g) := by
  intro g
  show WF (select_and_step (gameProbs stream s g) (s.boards g)
    s.player).1
  exact WF_select _ _ _ (by rcases hp with h | h <;> omega) (hwf g)

theorem player_halfStep (stream : DrawStream) (s : RState)
    (hp : s.player = 1 ∨ s.player = 2) :
    (halfStep stream s).player = 1 ∨ (halfStep stream s).player = 2 := by
  rw [halfStep_player]
  rcases hp with h | h <;> rw [h]
  · right
    rfl
  · left
    rfl

theorem statusSum_congr (st1 st2 : Nat → Nat → Nat)
    (h : ∀ g q, st1 g q = st2 g q) : statusSum st1 = statusSum st2 := by
  unfold statusSum
  exact Finset.sum_congr rfl (fun g _ => by rw [h g 0, h g 1])

set_option maxRecDepth 8000 in
/-- One driver iteration preserves full-state agreement. -/
theorem SAgree_halfStep (stream : DrawStream) (s1 s2 : RState)
    (hp : s1.player = 1 ∨ s1.player = 2) (hwf : ∀ g, WF (s1.boards g))
    (h : SAgree s1 s2) : SAgree (halfStep stream s1) (halfStep stream s2) := by
  obtain ⟨hbb, hss, hpp, hqq⟩ := h
  have hpr : ∀ g, ∀ i, i < 8 → ∀ j,
      gameProbs stream s1 g i j = gameProbs stream s2 g i j := by
    intro g i hi j
    show (rowScores stream (g * 8 + i) (s1.pos (g * 8 + i)) (s1.boards g)
      s1.player i).1 j = (rowScores stream (g * 8 + i)
      (s2.pos (g * 8 + i)) (s2.boards g) s2.player i).1 j
    rw [hqq (g * 8 + i), hpp, rowScores_board_congr stream (g * 8 + i)
      (s2.pos (g * 8 + i)) (s1.boards g) (s2.boards g) (hbb g)
      s2.player i hi]
  have hsag : ∀ g, (∀ x < 8, ∀ y < 8,
      (select_and_step (gameProbs stream s1 g) (s1.boards g)
        s1.player).1 x y =
      (select_and_step (gameProbs stream s2 g) (s2.boards g)
        s2.player).1 x y) ∧
      (select_and_step (gameProbs stream s1 g) (s1.boards g)
        s1.player).2 =
      (select_and_step (gameProbs stream s2 g) (s2.boards g)
        s2.player).2 := by
    intro g
    rw [← hpp]
    exact select_boards_agree (gameProbs stream s1 g)
      (gameProbs stream s2 g) (s1.boards g) (s2.boards g) s1.player
      (fun i hi j hj => hpr g i hi j) (hbb g) (hwf g) hp
  refine ⟨?_, ?_, ?_, ?_⟩
  · intro g x hx y hy
    exact (hsag g).1 x hx y hy
  · intro g q
    show (if q = s1.player - 1 then
        (select_and_step (gameProbs stream s1 g) (s1.boards g)
          s1.player).2
      else s1.status g q) =
      (if q = s2.player - 1 then
        (select_and_step (gameProbs stream s2 g) (s2.boards g)
          s2.player).2
      else s2.status g q)
    by_cases hq : q = s1.player - 1
    · rw [if_pos hq, if_pos (by rw [← hpp]; exact hq)]
      exact (hsag g).2
    · rw [if_neg hq, if_neg (by rw [← hpp]; exact hq)]
      exact hss g q
  · show 3 - s1.player = 3 - s2.player
    rw [hpp]
  · intro t
    show s1.pos t + (rowScores stream t (s1.pos t) (s1.boards (t / 8))
      s1.player (t % 8)).2 = s2.pos t + (rowScores stream t (s2.pos t)
      (s2.boards (t / 8)) s2.player (t % 8)).2
    rw [hqq t, hpp, rowScores_board_congr stream t (s2.pos t)
      (s1.boards (t / 8)) (s2.boards (t / 8)) (hbb (t / 8)) s2.player
      (t % 8) (Nat.mod_lt t (by decide))]

/-- The fueled loop started from agreeing states stays in lockstep:
both exhaust the fuel, or both exit with agreeing states. -/
theorem loopA_agree (stream : DrawStream) :
    ∀ (f : Nat) (s1 s2 : RState),
      (s1.player = 1 ∨ s1.player = 2) → (∀ g, WF (s1.boards g)) →
      SAgree s1 s2 →
      (loopA stream f s1 = none ∧ loopA stream f s2 = none) ∨
      (∃ e1 e2, loopA stream f s1 = some e1 ∧
        loopA stream f s2 = some e2 ∧ SAgree e1 e2) := by
  intro f
  induction f with
  | zero =>
    intro s1 s2 hp hwf hag
    have hsum : statusSum s1.status = statusSum s2.status :=
      statusSum_congr _ _ hag.2.1
    by_cases hg : statusSum s1.status < 2 * N_GAMES
    · left
      constructor
      · rw [loopA, if_pos hg]
      · rw [loopA, if_pos (by rw [← hsum]; exact hg)]
    · right
      refine ⟨s1, s2, ?_, ?_, hag⟩
      · rw [loopA, if_neg hg]
      · rw [loopA, if_neg (by rw [← hsum]; exact hg)]
  | succ f ih =>
    intro s1 s2 hp hwf hag
    have hsum : statusSum s1.status = statusSum s2.status :=
      statusSum_congr _ _ hag.2.1
    by_cases hg : statusSum s1.status < 2 * N_GAMES
    · have h1 : loopA stream (f + 1) s1 =
          loopA stream f (halfStep stream s1) := by
        rw [loopA, if_pos hg]
      have h2 : loopA stream (f + 1) s2 =
          loopA stream f (halfStep stream s2) := by
        rw [loopA, if_pos (by rw [← hsum]; exact hg)]
      rw [h1, h2]
      exact ih (halfStep stream s1) (halfStep stream s2)
        (player_halfStep stream s1 hp) (WF_halfStep_boards stream s1 hp hwf)
        (SAgree_halfStep stream s1 s2 hp hwf hag)
    · right
      refine ⟨s1, s2, ?_, ?_, hag⟩
      · rw [loopA, if_neg hg]
      · rw [loopA, if_neg (by rw [← hsum]; exact hg)]

/-- C7 (amended): `rollout` is a deterministic function of the draw
values, the 8×8 board contents, the planner and the xoroshiro state
positions: two invocations whose streams agree draw-for-draw, whose
boards agree on the grid, and whose RNG states are at equal positions
return identical winner sequences (and equal advanced positions) — in
particular, two invocations from freshly and identically seeded RNG
states are bit-identical.  (The counterexample shows this fails for
back-to-back invocations, whose second call resumes from advanced
positions.) -/
theorem C7_determinism (stream1 stream2 : DrawStream) (fuel : Nat)
    (b1 b2 : Board) (planner : Nat) (pos1 pos2 : Nat → Nat)
    (hstream : ∀ t i, stream1 t i = stream2 t i)
    (hpl : planner = 1 ∨ planner = 2) (hwf : WF b1)
    (hb : bAgree b1 b2) (hpos : ∀ t, pos1 t = pos2 t) :
    (rollout stream1 fuel b1 planner pos1 = none ∧
      rollout stream2 fuel b2 planner pos2 = none) ∨
    (∃ r1 r2, rollout stream1 fuel b1 planner pos1 = some r1 ∧
      rollout stream2 fuel b2 planner pos2 = some r2 ∧
      (∀ g, r1.1 g = r2.1 g) ∧ (∀ t, r1.2.pos t = r2.2.pos t)) := by
  have hseq : stream1 = stream2 := funext fun t => funext fun i =>
    hstream t i
  subst hseq
  have hinit : SAgree (initState b1 planner pos1)
      (initState b2 planner pos2) :=
    ⟨fun g x hx y hy => hb x hx y hy, fun g q => rfl, rfl,
      fun t => hpos t⟩
  rcases loopA_agree stream1 fuel (initState b1 planner pos1)
    (initState b2 planner pos2) hpl (fun g => hwf) hinit with
    ⟨h1, h2⟩ | ⟨e1, e2, h1, h2, hag⟩
  · left
    constructor
    · show (loopA stream1 fuel (initState b1 planner pos1)).map
        (fun s => (fun g => outcome (s.boards g), s)) = none
      rw [h1]
      rfl
    · show (loopA stream1 fuel (initState b2 planner pos2)).map
        (fun s => (fun g => outcome (s.boards g), s)) = none
      rw [h2]
      rfl
  · right
    refine ⟨(fun g => outcome (e1.boards g), e1),
      (fun g => outcome (e2.boards g), e2), ?_, ?_, ?_, ?_⟩
    · show (loopA stream1 fuel (initState b1 planner pos1)).map
        (fun s => (fun g => outcome (s.boards g), s)) =
        some (fun g => outcome (e1.boards g), e1)
      rw [h1]
      rfl
    · show (loopA stream1 fuel (initState b2 planner pos2)).map
        (fun s => (fun g => outcome (s.boards g), s)) =
        some (fun g => outcome (e2.boards g), e2)
      rw [h2]
      rfl
    · intro g
      exact outcome_agree (e1.boards g) (e2.boards g) (hag.1 g)
    · intro t
      exact hag.2.2.2 t

/-- Witness for the amended C7 theorem: two identically configured
invocations on a batch of full boards. -/
theorem C7_det_witness :
    (rollout halfStream 2 onesBoard 1 (fun _ => 0) = none ∧
      rollout halfStream 2 onesBoard 1 (fun _ => 0) = none) ∨
    (∃ r1 r2, rollout halfStream 2 onesBoard 1 (fun _ => 0) = some r1 ∧
      rollout halfStream 2 onesBoard 1 (fun _ => 0) = some r2 ∧
      (∀ g, r1.1 g = r2.1 g) ∧ (∀ t, r1.2.pos t = r2.2.pos t)) :=
  C7_determinism halfStream halfStream 2 onesBoard onesBoard 1
    (fun _ => 0) (fun _ => 0) (fun t i => rfl) (Or.inl rfl) (by decide)
    (by decide) (fun t => rfl)

set_option maxRecDepth 100000 in
set_option maxHeartbeats 1600000 in
/-- C7 counterexample: on `cexB0` with planner 1, a first `rollout`
invocation (fresh positions) has player 1 win every game, and the
back-to-back second invocation — same board, same planner, same stream,
but resuming from the module-scoped RNG states the first invocation
advanced — has player 2 win: the two invocations' outcome sequences are
not bit-identical. -/
theorem C7_counterexample :
    ∃ (w1 : Nat → Nat) (s1 : RState) (w2 : Nat → Nat) (s2 : RState),
      rollout cexStream 6 cexB0 1 (fun _ => 0) = some (w1, s1) ∧
      rollout cexStream 6 cexB0 1 s1.pos = some (w2, s2) ∧
      w1 0 = 1 ∧ w2 0 = 2 := by
  have hb0 : ∀ g, bAgree (cexInit1.boards g) cexB0 :=
    fun g x hx y hy => rfl
  have h00 : ∀ g, cexInit1.status g 0 = 0 := fun g => rfl
  have h10 : ∀ g, cexInit1.status g 1 = 0 := fun g => rfl
  have hp0 : cexInit1.player = 1 := rfl
  have hq0 : ∀ t, cexInit1.pos t = cexQz (t % 8) := fun t => rfl
  obtain ⟨hb1, h01, h11, hp1, hq1, hc0⟩ :=
    vstep_play cexStream cexV cexQz cexQA _ cexB0 cexA1 1 0 0 0 0
      (fun t i => rfl) hb0 h00 h10 hp0 hq0 (Or.inl rfl) (by decide)
      (by decide) (by decide) (by decide) (by decide) (by decide)
      (by decide)
  obtain ⟨hb2, h02, h12, hp2, hq2, hc1⟩ :=
    vstep_pass cexStream cexV cexQA cexQA _ cexA1 2 0 0
      (fun t i => rfl) hb1 h01 h11 hp1 hq1 (Or.inr rfl) (by decide)
      (by decide) (by decide) (by decide)
  obtain ⟨hb3, h03, h13, hp3, hq3, hc2⟩ :=
    vstep_pass cexStream cexV cexQA cexQA _ cexA1 1 0 1
      (fun t i => rfl) hb2 h02 h12 hp2 hq2 (Or.inl rfl) (by decide)
      (by decide) (by decide) (by decide)
  have hexit1 : loopA cexStream 6 cexInit1 = some cexS1 := by
    refine Eq.trans (loopA_step cexStream 5 _ hc0) ?_
    refine Eq.trans (loopA_step cexStream 4 _ hc1) ?_
    refine Eq.trans (loopA_step cexStream 3 _ hc2) ?_
    exact loopA_exit cexStream 3 _
      (by rw [statusSum_uniform _ 1 1 h03 h13]; decide)
  have hbB0 : ∀ g, bAgree (cexInit2.boards g) cexB0 :=
    fun g x hx y hy => rfl
  have hB00 : ∀ g, cexInit2.status g 0 = 0 := fun g => rfl
  have hB10 : ∀ g, cexInit2.status g 1 = 0 := fun g => rfl
  have hpB0 : cexInit2.player = 1 := rfl
  have hqB0 : ∀ t, cexInit2.pos t = cexQA (t % 8) := hq3
  obtain ⟨hbb1, hh01, hh11, hhp1, hhq1, hhc0⟩ :=
    vstep_play cexStream cexV cexQA cexQB1 _ cexB0 cexD1 1 2 0 0 0
      (fun t i => rfl) hbB0 hB00 hB10 hpB0 hqB0 (Or.inl rfl) (by decide)
      (by decide) (by decide) (by decide) (by decide) (by decide)
      (by decide)
  obtain ⟨hbb2, hh02, hh12, hhp2, hhq2, hhc1⟩ :=
    vstep_play cexStream cexV cexQB1 cexQB2 _ cexD1 cexD2 2 4 4 0 0
      (fun t i => rfl) hbb1 hh01 hh11 hhp1 hhq1 (Or.inr rfl) (by decide)
      (by decide) (by decide) (by decide) (by decide) (by decide)
      (by decide)
  obtain ⟨hbb3, hh03, hh13, hhp3, hhq3, hhc2⟩ :=
    vstep_pass cexStream cexV cexQB2 cexQB2 _ cexD2 1 0 0
      (fun t i => rfl) hbb2 hh02 hh12 hhp2 hhq2 (Or.inl rfl) (by decide)
      (by decide) (by decide) (by decide)
  obtain ⟨hbb4, hh04, hh14, hhp4, hhq4, hhc3⟩ :=
    vstep_play cexStream cexV cexQB2 cexQB4 _ cexD2 cexD4 2 0 0 1 0
      (fun t i => rfl) hbb3 hh03 hh13 hhp3 hhq3 (Or.inr rfl) (by decide)
      (by decide) (by decide) (by decide) (by decide) (by decide)
      (by decide)
  obtain ⟨hbb5, hh05, hh15, hhp5, hhq5, hhc4⟩ :=
    vstep_pass cexStream cexV cexQB4 cexQB4 _ cexD4 1 1 0
      (fun t i => rfl) hbb4 hh04 hh14 hhp4 hhq4 (Or.inl rfl) (by decide)
      (by decide) (by decide) (by decide)
  obtain ⟨hbb6, hh06, hh16, hhp6, hhq6, hhc5⟩ :=
    vstep_pass cexStream cexV cexQB4 cexQB4 _ cexD4 2 1 0
      (fun t i => rfl) hbb5 hh05 hh15 hhp5 hhq5 (Or.inr rfl) (by decide)
      (by decide) (by decide) (by decide)
  have hexit2 : loopA cexStream 6 cexInit2 = some cexS2 := by
    refine Eq.trans (loopA_step cexStream 5 _ hhc0) ?_
    refine Eq.trans (loopA_step cexStream 4 _ hhc1) ?_
    refine Eq.trans (loopA_step cexStream 3 _ hhc2) ?_
    refine Eq.trans (loopA_step cexStream 2 _ hhc3) ?_
    refine Eq.trans (loopA_step cexStream 1 _ hhc4) ?_
    refine Eq.trans (loopA_step cexStream 0 _ hhc5) ?_
    exact loopA_exit cexStream 0 _
      (by rw [statusSum_uniform _ 1 1 hh06 hh16]; decide)
  have hb3s : bAgree (cexS1.boards 0) cexA1 := hb3 0
  have hbb6s : bAgree (cexS2.boards 0) cexD4 := hbb6 0
  refine ⟨fun g => outcome (cexS1.boards g), cexS1,
    fun g => outcome (cexS2.boards g), cexS2, ?_, ?_, ?_, ?_⟩
  · show (loopA cexStream 6 cexInit1).map
      (fun s => (fun g => outcome (s.boards g), s)) =
      some (fun g => outcome (cexS1.boards g), cexS1)
    rw [hexit1]
    rfl
  · show (loopA cexStream 6 cexInit2).map
      (fun s => (fun g => outcome (s.boards g), s)) =
      some (fun g => outcome (cexS2.boards g), cexS2)
    rw [hexit2]
    rfl
  · simp only []
    rw [outcome_agree _ cexA1 hb3s]
    decide
  · simp only []
    rw [outcome_agree _ cexD4 hbb6s]
    decide
